import Mathlib

/-!
# CRM for sales teams: the route handlers of `server/index.js`

A shallow embedding of the Express route handlers of `src/server/index.js`.
Every handler is a pure function of the collections it reads (the result of
`readJsonFile`), the verified caller (`req.user`), the route parameter, the
request body and the clock; it returns the reply together with the collections
as they stand after the call (what `writeJsonFile` was given, or the input
when the handler returns before writing).

Conventions of the embedding:

* JavaScript values are embedded as `JVal`; a number is a double, given by its
  value, a rational; a property that is absent reads as `undefined`.
* The sum of two doubles is rounded by the runtime and is a parameter
  (`Runtime.addNumbers`); the `totalValue` reduce adds with it. The two count
  reduces add 1 to a count, an integer below the largest array length 2^32 - 1,
  where the sum of doubles is the exact sum.
* Record ids, owner ids and timestamps are strings: the handlers build them
  from template literals, from `req.user.id` and from `toISOString()`.
* `Date.now()` and `new Date().toISOString()` are parameters `now` and `iso`.
* A record is addressed by its id through `findIndex`, which takes the first
  record carrying the id.
* `leads[leadIndex]` is the partial lookup `leads[leadIndex]?`; reading a
  property of `undefined` throws inside the `try`, hence the reply 500 there.
* The accumulators of the dashboard are objects made by `{}`: they are given by
  their own properties and read through `Object.prototype`. The string of a
  number and of an object are parameters (`Runtime`).
* `bcrypt.hash` and `bcrypt.compare` are parameters of the auth handlers; a
  token is given by the payload that `jwt.sign` signs, and `jwt.verify` is a
  parameter of `authenticateToken`.
* A protected route is the middleware followed by its handler (`serve`), on
  the three collections; the reply is kept as its status code there.
* The handlers above take the collections as read. `readJsonFile` and
  `writeJsonFile` are embedded apart, on a file that may fail to be read or
  written, with the lead list and lead create on top of them.
-/

namespace CRM

/-! ## JavaScript values -/

/-- A JavaScript value as it comes out of `JSON.parse`, or `undefined` for a
property that is absent. Objects and arrays are kept as their JSON text. -/
inductive JVal where
  | undefined
  | null
  | bool (b : Bool)
  | num (q : ℚ)
  | str (s : String)
  | obj (text : String)
  deriving DecidableEq

/-- Truthiness (`ToBoolean`): what `!x` negates. -/
def truthy : JVal → Bool
  | .undefined => false
  | .null => false
  | .bool b => b
  | .num q => decide (q ≠ 0)
  | .str s => decide (s ≠ "")
  | .obj _ => true

/-- Strict equality `a === b`. Two objects are equal only when they are the
same reference; the operands compared by the handlers always come from two
separate `JSON.parse` calls (or from a literal), so objects never compare
equal. -/
def strictEq : JVal → JVal → Bool
  | .obj _, _ => false
  | _, .obj _ => false
  | a, b => decide (a = b)

/-- The membership test `xs.includes(v)` for an array literal of strings. -/
def includes (xs : List String) (v : JVal) : Bool :=
  xs.any fun x => strictEq (.str x) v

/-- A destructuring default `{ k = d } = req.body`: the default is taken exactly
when the property is `undefined`. -/
def orDefault (v d : JVal) : JVal :=
  match v with
  | .undefined => d
  | w => w

/-- The guard `typeof value !== 'number' || value < 0`. -/
def notNonNegativeNumber : JVal → Bool
  | .num q => decide (q < 0)
  | _ => true

/-- The index of the first element satisfying `p`, as `Array.prototype.findIndex`;
`none` stands for `-1`. -/
def findIndex {α : Type} (p : α → Bool) : List α → Option Nat
  | [] => none
  | x :: xs => if p x then some 0 else (findIndex p xs).map (· + 1)

/-! ## Records, callers, replies -/

/-- The payload of a verified token, `req.user`. -/
structure Caller where
  id : String
  email : JVal
  role : JVal
  deriving DecidableEq

/-- A record of `leads.json`. -/
structure Lead where
  id : String
  name : JVal
  email : JVal
  phone : JVal
  status : JVal
  ownerId : String
  createdAt : String
  deriving DecidableEq

/-- A record of `opportunities.json`; `leadId` is `none` when the property is absent. -/
structure Opportunity where
  id : String
  title : JVal
  value : JVal
  stage : JVal
  ownerId : String
  leadId : Option String
  createdAt : String
  deriving DecidableEq

/-- What a handler answers: `res.status(code).json(body)` (code 200 when no
status is set), or `res.status(code).json({ error: msg })`. -/
inductive Reply (α : Type) where
  | json (code : Nat) (body : α)
  | error (code : Nat) (msg : String)
  deriving DecidableEq

/-- The HTTP status code of a reply. -/
def Reply.code {α : Type} : Reply α → Nat
  | .json c _ => c
  | .error c _ => c

/-- Body of `POST /api/leads` and `PUT /api/leads/:id`. -/
structure LeadBody where
  name : JVal
  email : JVal
  phone : JVal
  status : JVal
  deriving DecidableEq

/-- Body of `POST /api/leads/:id/convert`. -/
structure ConvertBody where
  title : JVal
  value : JVal
  deriving DecidableEq

/-- Body of `POST /api/opportunities` and `PUT /api/opportunities/:id`. -/
structure OpportunityBody where
  title : JVal
  value : JVal
  stage : JVal
  deriving DecidableEq

/-- The test `req.user.role === 'rep'`. -/
def isRep (user : Caller) : Bool := strictEq user.role (.str "rep")

/-! ## Lead routes -/

/-- Handler of `GET /api/leads`. -/
def getLeads (leads : List Lead) (user : Caller) : Reply (List Lead) :=
  if isRep user then
    .json 200 (leads.filter fun lead => decide (lead.ownerId = user.id))
  else
    .json 200 leads

/-- Handler of `POST /api/leads`; `now` is `Date.now()` and `iso` is
`new Date().toISOString()`. -/
def postLeads (leads : List Lead) (user : Caller) (body : LeadBody) (now : Nat)
    (iso : String) : Reply Lead × List Lead :=
  let status := orDefault body.status (.str "New")
  if !truthy body.name || !truthy body.email then
    (.error 400 "Name and email are required", leads)
  else if !includes ["New", "Contacted", "Qualified"] status then
    (.error 400 "Invalid status", leads)
  else if (leads.find? fun lead =>
      strictEq lead.email body.email && decide (lead.ownerId = user.id)).isSome then
    (.error 400 "Lead with this email already exists", leads)
  else
    let newLead : Lead :=
      { id := "l" ++ toString now
        name := body.name
        email := body.email
        phone := body.phone
        status := status
        ownerId := user.id
        createdAt := iso }
    (.json 201 newLead, leads ++ [newLead])

/-- Handler of `PUT /api/leads/:id`. -/
def putLead (leads : List Lead) (user : Caller) (id : String) (body : LeadBody) :
    Reply Lead × List Lead :=
  match findIndex (fun l => decide (l.id = id)) leads with
  | none => (.error 404 "Lead not found", leads)
  | some leadIndex =>
    match leads[leadIndex]? with
    | none => (.error 500 "Server error", leads)
    | some lead =>
      if isRep user && decide (lead.ownerId ≠ user.id) then
        (.error 403 "Access denied", leads)
      else
        let updated : Lead :=
          { lead with name := body.name, email := body.email, phone := body.phone,
                      status := body.status }
        (.json 200 updated, leads.set leadIndex updated)

/-- Handler of `DELETE /api/leads/:id`. -/
def deleteLead (leads : List Lead) (user : Caller) (id : String) :
    Reply String × List Lead :=
  match findIndex (fun l => decide (l.id = id)) leads with
  | none => (.error 404 "Lead not found", leads)
  | some leadIndex =>
    match leads[leadIndex]? with
    | none => (.error 500 "Server error", leads)
    | some lead =>
      if isRep user && decide (lead.ownerId ≠ user.id) then
        (.error 403 "Access denied", leads)
      else
        (.json 200 "Lead deleted successfully", leads.filter fun l => decide (l.id ≠ id))

/-- Handler of `POST /api/leads/:id/convert`. The result is the reply, the leads
and the opportunities. -/
def convertLead (leads : List Lead) (opportunities : List Opportunity) (user : Caller)
    (id : String) (body : ConvertBody) (now : Nat) (iso : String) :
    Reply Opportunity × List Lead × List Opportunity :=
  if !truthy body.title then
    (.error 400 "Title is required", leads, opportunities)
  else if notNonNegativeNumber body.value then
    (.error 400 "Value must be a positive number", leads, opportunities)
  else
    match findIndex (fun l => decide (l.id = id)) leads with
    | none => (.error 404 "Lead not found", leads, opportunities)
    | some leadIndex =>
      match leads[leadIndex]? with
      | none => (.error 500 "Server error", leads, opportunities)
      | some lead =>
        if isRep user && decide (lead.ownerId ≠ user.id) then
          (.error 403 "Access denied", leads, opportunities)
        else
          let newOpportunity : Opportunity :=
            { id := "o" ++ toString now
              title := body.title
              value := body.value
              stage := .str "Discovery"
              ownerId := lead.ownerId
              leadId := some lead.id
              createdAt := iso }
          (.json 201 newOpportunity,
           leads.set leadIndex { lead with status := .str "Qualified" },
           opportunities ++ [newOpportunity])

/-! ## Opportunity routes -/

/-- Handler of `GET /api/opportunities`. -/
def getOpportunities (opportunities : List Opportunity) (user : Caller) :
    Reply (List Opportunity) :=
  if isRep user then
    .json 200 (opportunities.filter fun opp => decide (opp.ownerId = user.id))
  else
    .json 200 opportunities

/-- Handler of `POST /api/opportunities`. -/
def postOpportunities (opportunities : List Opportunity) (user : Caller)
    (body : OpportunityBody) (now : Nat) (iso : String) :
    Reply Opportunity × List Opportunity :=
  let stage := orDefault body.stage (.str "Discovery")
  if !truthy body.title then
    (.error 400 "Title is required", opportunities)
  else if notNonNegativeNumber body.value then
    (.error 400 "Value must be a positive number", opportunities)
  else if !includes ["Discovery", "Proposal", "Won", "Lost"] stage then
    (.error 400 "Invalid stage", opportunities)
  else
    let newOpportunity : Opportunity :=
      { id := "o" ++ toString now
        title := body.title
        value := body.value
        stage := stage
        ownerId := user.id
        leadId := none
        createdAt := iso }
    (.json 201 newOpportunity, opportunities ++ [newOpportunity])

/-- Handler of `PUT /api/opportunities/:id`. -/
def putOpportunity (opportunities : List Opportunity) (user : Caller) (id : String)
    (body : OpportunityBody) : Reply Opportunity × List Opportunity :=
  match findIndex (fun o => decide (o.id = id)) opportunities with
  | none => (.error 404 "Opportunity not found", opportunities)
  | some oppIndex =>
    match opportunities[oppIndex]? with
    | none => (.error 500 "Server error", opportunities)
    | some opportunity =>
      if isRep user && decide (opportunity.ownerId ≠ user.id) then
        (.error 403 "Access denied", opportunities)
      else
        let updated : Opportunity :=
          { opportunity with title := body.title, value := body.value, stage := body.stage }
        (.json 200 updated, opportunities.set oppIndex updated)

/-- Handler of `DELETE /api/opportunities/:id`. -/
def deleteOpportunity (opportunities : List Opportunity) (user : Caller) (id : String) :
    Reply String × List Opportunity :=
  match findIndex (fun o => decide (o.id = id)) opportunities with
  | none => (.error 404 "Opportunity not found", opportunities)
  | some oppIndex =>
    match opportunities[oppIndex]? with
    | none => (.error 500 "Server error", opportunities)
    | some opportunity =>
      if isRep user && decide (opportunity.ownerId ≠ user.id) then
        (.error 403 "Access denied", opportunities)
      else
        (.json 200 "Opportunity deleted successfully",
         opportunities.filter fun o => decide (o.id ≠ id))

/-! ## Sequences of requests -/

/-- The two collections behind the lead and opportunity routes. -/
structure Store where
  leads : List Lead
  opportunities : List Opportunity
  deriving DecidableEq

/-- A mutating request to a lead or opportunity route, after `authenticateToken`
has set `req.user`, together with the clock readings the handler takes. -/
inductive Request where
  | createLead (user : Caller) (body : LeadBody) (now : Nat) (iso : String)
  | updateLead (user : Caller) (id : String) (body : LeadBody)
  | removeLead (user : Caller) (id : String)
  | convert (user : Caller) (id : String) (body : ConvertBody) (now : Nat) (iso : String)
  | createOpportunity (user : Caller) (body : OpportunityBody) (now : Nat) (iso : String)
  | updateOpportunity (user : Caller) (id : String) (body : OpportunityBody)
  | removeOpportunity (user : Caller) (id : String)

/-- The store after one request has been served. -/
def handle (s : Store) : Request → Store
  | .createLead user body now iso =>
    { s with leads := (postLeads s.leads user body now iso).2 }
  | .updateLead user id body =>
    { s with leads := (putLead s.leads user id body).2 }
  | .removeLead user id =>
    { s with leads := (deleteLead s.leads user id).2 }
  | .convert user id body now iso =>
    { leads := (convertLead s.leads s.opportunities user id body now iso).2.1
      opportunities := (convertLead s.leads s.opportunities user id body now iso).2.2 }
  | .createOpportunity user body now iso =>
    { s with opportunities := (postOpportunities s.opportunities user body now iso).2 }
  | .updateOpportunity user id body =>
    { s with opportunities := (putOpportunity s.opportunities user id body).2 }
  | .removeOpportunity user id =>
    { s with opportunities := (deleteOpportunity s.opportunities user id).2 }

/-- The store after a sequence of requests, served one after the other. -/
def run (s : Store) (rs : List Request) : Store := rs.foldl handle s

/-- The store as `initializeDataFiles` creates it: both collections empty. -/
def emptyStore : Store := { leads := [], opportunities := [] }

/-- A store whose opportunities each carry a ghost mark telling how the record
entered the collection: `true` when `convertLead` appended it, `false` when
`postOpportunities` did. The mark is no part of the program state. -/
structure MarkedStore where
  leads : List Lead
  marked : List (Opportunity × Bool)
  deriving DecidableEq

/-- Forgetting the marks. -/
def MarkedStore.erase (m : MarkedStore) : Store :=
  { leads := m.leads, opportunities := m.marked.map Prod.fst }

/-- One request on a marked store: the handlers run on the unmarked records; an
appended record gets the mark of the route that appended it, an updated record
keeps the mark at its position, a deleted record takes its mark with it. -/
def handleMarked (m : MarkedStore) : Request → MarkedStore
  | .createLead user body now iso =>
    { m with leads := (postLeads m.leads user body now iso).2 }
  | .updateLead user id body =>
    { m with leads := (putLead m.leads user id body).2 }
  | .removeLead user id =>
    { m with leads := (deleteLead m.leads user id).2 }
  | .convert user id body now iso =>
    match (convertLead m.leads (m.marked.map Prod.fst) user id body now iso).1 with
    | .json _ opp =>
      { leads := (convertLead m.leads (m.marked.map Prod.fst) user id body now iso).2.1
        marked := m.marked ++ [(opp, true)] }
    | .error _ _ =>
      { m with leads := (convertLead m.leads (m.marked.map Prod.fst) user id body now iso).2.1 }
  | .createOpportunity user body now iso =>
    match (postOpportunities (m.marked.map Prod.fst) user body now iso).1 with
    | .json _ opp => { m with marked := m.marked ++ [(opp, false)] }
    | .error _ _ => m
  | .updateOpportunity user id body =>
    { m with marked :=
        (putOpportunity (m.marked.map Prod.fst) user id body).2.zip (m.marked.map Prod.snd) }
  | .removeOpportunity user id =>
    match (deleteOpportunity (m.marked.map Prod.fst) user id).1 with
    | .json _ _ => { m with marked := m.marked.filter fun p => decide (p.1.id ≠ id) }
    | .error _ _ => m

/-- A sequence of requests on a marked store. -/
def runMarked (m : MarkedStore) (rs : List Request) : MarkedStore := rs.foldl handleMarked m

/-- Every record that has a `leadId` is marked as appended by `convertLead`, and
conversely. -/
def MarksAgree (m : MarkedStore) : Prop :=
  ∀ p ∈ m.marked, p.1.leadId.isSome = p.2

/-! ## What an edit must leave alone -/

/-- The properties of a lead that identify it and its owner. -/
def sameLeadIdentity (a b : Lead) : Prop :=
  a.id = b.id ∧ a.ownerId = b.ownerId ∧ a.createdAt = b.createdAt

/-- The properties of an opportunity that identify it, its owner and its origin. -/
def sameOpportunityIdentity (a b : Opportunity) : Prop :=
  a.id = b.id ∧ a.ownerId = b.ownerId ∧ a.leadId = b.leadId ∧ a.createdAt = b.createdAt

/-- The requests that edit records in place: lead update, convert, opportunity update. -/
def Request.isEdit : Request → Bool
  | .updateLead _ _ _ => true
  | .convert _ _ _ _ _ => true
  | .updateOpportunity _ _ _ => true
  | _ => false

/-! ## The invariants of the data model -/

/-- The three lead statuses. -/
def leadStatuses : List JVal := [.str "New", .str "Contacted", .str "Qualified"]

/-- The four opportunity stages. -/
def opportunityStages : List JVal :=
  [.str "Discovery", .str "Proposal", .str "Won", .str "Lost"]

/-- Every lead has one of the three statuses. -/
@[reducible] def LeadStatusesValid (leads : List Lead) : Prop :=
  ∀ l ∈ leads, l.status ∈ leadStatuses

/-- Two leads have the same owner and the same email (`===`). -/
def emailClash (a b : Lead) : Bool :=
  decide (a.ownerId = b.ownerId) && strictEq a.email b.email

/-- No two leads of one owner share an email. -/
@[reducible] def EmailsUniquePerOwner (leads : List Lead) : Prop :=
  leads.Pairwise fun a b => emailClash a b = false

/-- Every opportunity has a non-negative number as value and one of the four stages. -/
@[reducible] def OpportunitiesValid (opportunities : List Opportunity) : Prop :=
  ∀ o ∈ opportunities, notNonNegativeNumber o.value = false ∧ o.stage ∈ opportunityStages

/-! ## Dashboard -/

/-- The result of adding doubles: a double, given by its value, an infinity
when the sum overflows, or NaN. -/
inductive Double where
  | finite (q : ℚ)
  | infinite (negative : Bool)
  | nan
  deriving DecidableEq

/-- What is left to the JavaScript runtime: the two conversions to a string,
`Number::toString` and `ToString` of an object (a parsed object or array, or a
built-in reached through the prototype), and `Number::add`, the sum of two
doubles as IEEE 754 rounds it. Adding a double to zero gives that double. -/
structure Runtime where
  numToString : ℚ → String
  objToString : String → String
  addNumbers : ℚ → ℚ → Double
  zero_addNumbers : ∀ q : ℚ, addNumbers 0 q = .finite q

/-- The conversion `ToString(v)`, used for property keys and for concatenation. -/
def toStr (rt : Runtime) : JVal → String
  | .undefined => "undefined"
  | .null => "null"
  | .bool true => "true"
  | .bool false => "false"
  | .num q => rt.numToString q
  | .str s => s
  | .obj t => rt.objToString t

/-- The expression `a || b`. -/
def orElse (a b : JVal) : JVal := if truthy a then a else b

/-- The conversion `ToNumber(v)` of a value that is neither a string nor an
object; `none` is NaN, the number of `undefined`. -/
def toNumber : JVal → Option ℚ
  | .null => some 0
  | .bool true => some 1
  | .bool false => some 0
  | .num q => some q
  | _ => none

/-- The expression `a + b` of the two count reduces, `(acc[key] || 0) + 1`:
concatenation of the two strings as soon as one operand is a string or an
object, addition of the two numbers otherwise. The numbers added there are a
count and 1, integers below 2^32 (an array has at most 2^32 - 1 elements), whose
sum as doubles is their exact sum. NaN is no `JVal`; it is given as `null`, the
way a JSON reply carries it. It needs an operand `undefined`, and the reduces
only add the literal 1 to an operand of the form `x || 0`. -/
def jsAdd (rt : Runtime) (a b : JVal) : JVal :=
  match a, b with
  | .str s, y => .str (s ++ toStr rt y)
  | .obj t, y => .str (rt.objToString t ++ toStr rt y)
  | x, .str s => .str (toStr rt x ++ s)
  | x, .obj t => .str (toStr rt x ++ rt.objToString t)
  | x, y =>
    match toNumber x, toNumber y with
    | some p, some q => .num (p + q)
    | _, _ => .null

/-- The property names that an object made by the literal `{}` inherits from
`Object.prototype`. -/
def inheritedNames : List String :=
  ["constructor", "__defineGetter__", "__defineSetter__", "hasOwnProperty",
   "__lookupGetter__", "__lookupSetter__", "isPrototypeOf", "propertyIsEnumerable",
   "toString", "valueOf", "__proto__", "toLocaleString"]

/-- The own property `key` of an object given by its own properties, oldest first. -/
def ownProp : List (String × JVal) → String → Option JVal
  | [], _ => none
  | (k, v) :: rest, key => if k = key then some v else ownProp rest key

/-- The read `acc[key]`: the own property, else the member inherited from
`Object.prototype` (a function, or the prototype itself for `__proto__`), else
`undefined`. -/
def getProp (acc : List (String × JVal)) (key : String) : JVal :=
  match ownProp acc key with
  | some v => v
  | none => if key ∈ inheritedNames then .obj ("Object.prototype." ++ key) else .undefined

/-- Writing the own property `key`: replaced where it stands, else added last. -/
def assign : List (String × JVal) → String → JVal → List (String × JVal)
  | [], key, v => [(key, v)]
  | (k, w) :: rest, key, v =>
    if k = key then (k, v) :: rest else (k, w) :: assign rest key v

/-- The statement `acc[key] = (acc[key] || 0) + 1`. The value assigned is a
number or a string; under the key `__proto__` the assignment calls the setter
of `Object.prototype`, which ignores such a value. -/
def increment (rt : Runtime) (acc : List (String × JVal)) (key : String) :
    List (String × JVal) :=
  if key = "__proto__" then acc
  else assign acc key (jsAdd rt (orElse (getProp acc key) (.num 0)) (.num 1))

/-- The string of a number, `Number::toString`. -/
def Double.toStr (rt : Runtime) : Double → String
  | .finite q => rt.numToString q
  | .infinite false => "Infinity"
  | .infinite true => "-Infinity"
  | .nan => "NaN"

/-- The sum `d + q` of a number and a double: an infinity and NaN stay what they
are. -/
def Double.add (rt : Runtime) : Double → ℚ → Double
  | .finite p, q => rt.addNumbers p q
  | .infinite negative, _ => .infinite negative
  | .nan, _ => .nan

/-- The accumulator `sum` of the `totalValue` reduce: a number, or a string once
a string or an object has been added. -/
inductive Total where
  | number (d : Double)
  | text (s : String)
  deriving DecidableEq

/-- The expression `sum + v` of the `totalValue` reduce: concatenation of the
two strings as soon as one operand is a string or an object, addition of the
two numbers otherwise. -/
def Total.add (rt : Runtime) (sum : Total) (v : JVal) : Total :=
  match sum, v with
  | .text s, y => .text (s ++ toStr rt y)
  | .number d, .str s => .text (Double.toStr rt d ++ s)
  | .number d, .obj t => .text (Double.toStr rt d ++ rt.objToString t)
  | .number d, y =>
    match toNumber y with
    | some q => .number (Double.add rt d q)
    | none => .number .nan

/-- The total as `res.json` sends it: `JSON.stringify` writes a number that is
not finite as `null`. -/
def Total.toJson : Total → JVal
  | .number (.finite q) => .num q
  | .number _ => .null
  | .text s => .str s

/-- The body of the reply of `GET /api/dashboard/stats`, as JSON; the two maps
are given by their own properties. -/
structure Stats where
  totalLeads : Nat
  totalOpportunities : Nat
  totalValue : JVal
  leadsByStatus : List (String × JVal)
  opportunitiesByStage : List (String × JVal)
  deriving DecidableEq

/-- Handler of `GET /api/dashboard/stats`. -/
def getDashboardStats (rt : Runtime) (leads : List Lead) (opportunities : List Opportunity)
    (user : Caller) : Reply Stats :=
  let userLeads :=
    if isRep user then leads.filter fun l => decide (l.ownerId = user.id) else leads
  let userOpportunities :=
    if isRep user then opportunities.filter fun o => decide (o.ownerId = user.id)
    else opportunities
  let leadsByStatus :=
    userLeads.foldl (fun acc lead => increment rt acc (toStr rt lead.status)) []
  let opportunitiesByStage :=
    userOpportunities.foldl (fun acc opp => increment rt acc (toStr rt opp.stage)) []
  let totalValue :=
    userOpportunities.foldl (fun sum opp => Total.add rt sum (orElse opp.value (.num 0)))
      (.number (.finite 0))
  .json 200
    { totalLeads := userLeads.length
      totalOpportunities := userOpportunities.length
      totalValue := totalValue.toJson
      leadsByStatus := leadsByStatus
      opportunitiesByStage := opportunitiesByStage }

/-! ## Users and credentials -/

/-- A record of `users.json`; `password` is the bcrypt hash. -/
structure User where
  id : String
  name : JVal
  email : JVal
  password : String
  role : JVal
  deriving DecidableEq

/-- The user object of a reply: `{ id, name, email, role }`. -/
structure SafeUser where
  id : String
  name : JVal
  email : JVal
  role : JVal
  deriving DecidableEq

/-- The body of a successful login or register reply. The token is given by the
payload that `jwt.sign` signs and `jwt.verify` hands back as `req.user`. -/
structure Session where
  token : Caller
  user : SafeUser
  deriving DecidableEq

/-- Body of `POST /api/auth/login`. -/
structure LoginBody where
  email : JVal
  password : JVal
  deriving DecidableEq

/-- Body of `POST /api/auth/register`. -/
structure RegisterBody where
  name : JVal
  email : JVal
  password : JVal
  role : JVal
  deriving DecidableEq

/-- Body of `PUT /api/users/:id`. -/
structure UserBody where
  name : JVal
  email : JVal
  role : JVal
  deriving DecidableEq

/-- The users `initializeDataFiles` writes when `users.json` does not exist; the
three hashes are what `bcrypt.hash` gave. -/
def defaultUsers (adminHash managerHash repHash : String) : List User :=
  [ { id := "u1", name := .str "Admin User", email := .str "admin@crm.com",
      password := adminHash, role := .str "admin" },
    { id := "u2", name := .str "John Manager", email := .str "manager@crm.com",
      password := managerHash, role := .str "manager" },
    { id := "u3", name := .str "Alice Rep", email := .str "rep@crm.com",
      password := repHash, role := .str "rep" } ]

/-- Handler of `POST /api/auth/login`. `compare` is `bcrypt.compare`, with `none`
when its promise rejects (an argument that is no string), which the handler
catches. -/
def postLogin (compare : JVal → String → Option Bool) (users : List User) (body : LoginBody) :
    Reply Session :=
  match users.find? fun u => strictEq u.email body.email with
  | none => .error 401 "Invalid credentials"
  | some user =>
    match compare body.password user.password with
    | none => .error 500 "Server error"
    | some false => .error 401 "Invalid credentials"
    | some true =>
      .json 200
        { token := { id := user.id, email := user.email, role := user.role }
          user := { id := user.id, name := user.name, email := user.email, role := user.role } }

/-- Handler of `POST /api/auth/register`. `hashed` is what
`bcrypt.hash(password, 10)` gives, `none` when its promise rejects, which the
handler catches; `now` is `Date.now()`. -/
def postRegister (users : List User) (body : RegisterBody) (hashed : Option String)
    (now : Nat) : Reply Session × List User :=
  let role := orDefault body.role (.str "rep")
  if (users.find? fun u => strictEq u.email body.email).isSome then
    (.error 400 "User already exists", users)
  else
    match hashed with
    | none => (.error 500 "Server error", users)
    | some hashedPassword =>
      let newUser : User :=
        { id := "u" ++ toString now
          name := body.name
          email := body.email
          password := hashedPassword
          role := role }
      (.json 201
        { token := { id := newUser.id, email := newUser.email, role := newUser.role }
          user := { id := newUser.id, name := newUser.name, email := newUser.email,
                    role := newUser.role } },
       users ++ [newUser])

/-- The middleware `requireRole(roles)`: whether the request goes on to the handler. -/
def requireRole (roles : List String) (user : Caller) : Bool := includes roles user.role

/-- Handler of `GET /api/users`, behind `requireRole(['admin'])`. -/
def getUsers (users : List User) (user : Caller) : Reply (List SafeUser) :=
  if !requireRole ["admin"] user then
    .error 403 "Insufficient permissions"
  else
    .json 200 (users.map fun u => { id := u.id, name := u.name, email := u.email, role := u.role })

/-- Handler of `PUT /api/users/:id`, behind `requireRole(['admin'])`. -/
def putUser (users : List User) (user : Caller) (id : String) (body : UserBody) :
    Reply SafeUser × List User :=
  if !requireRole ["admin"] user then
    (.error 403 "Insufficient permissions", users)
  else
    match findIndex (fun u => decide (u.id = id)) users with
    | none => (.error 404 "User not found", users)
    | some userIndex =>
      match users[userIndex]? with
      | none => (.error 500 "Server error", users)
      | some found =>
        let updated : User :=
          { found with name := body.name, email := body.email, role := body.role }
        (.json 200 { id := updated.id, name := body.name, email := body.email,
                     role := body.role },
         users.set userIndex updated)

/-- Handler of `DELETE /api/users/:id`, behind `requireRole(['admin'])`. -/
def deleteUser (users : List User) (user : Caller) (id : String) :
    Reply String × List User :=
  if !requireRole ["admin"] user then
    (.error 403 "Insufficient permissions", users)
  else
    let filteredUsers := users.filter fun u => decide (u.id ≠ id)
    if filteredUsers.length = users.length then
      (.error 404 "User not found", users)
    else
      (.json 200 "User deleted successfully", filteredUsers)

/-- A request that can change `users.json`. -/
inductive UserRequest where
  | register (body : RegisterBody) (hashed : Option String) (now : Nat)
  | update (user : Caller) (id : String) (body : UserBody)
  | remove (user : Caller) (id : String)

/-- The users after one request has been served. -/
def handleUser (users : List User) : UserRequest → List User
  | .register body hashed now => (postRegister users body hashed now).2
  | .update user id body => (putUser users user id body).2
  | .remove user id => (deleteUser users user id).2

/-- The users after a sequence of requests. -/
def runUsers (users : List User) (rs : List UserRequest) : List User :=
  rs.foldl handleUser users

/-- The three roles. -/
def roles : List JVal := [.str "admin", .str "manager", .str "rep"]

/-- Every user has one of the three roles. -/
@[reducible] def RolesValid (users : List User) : Prop := ∀ u ∈ users, u.role ∈ roles

/-- A request whose body names one of the three roles: a register with the role
left out or among the three, an update with the role among the three, any
delete. -/
@[reducible] def UserRequest.RoleAdmissible : UserRequest → Prop
  | .register body _ _ => body.role = .undefined ∨ body.role ∈ roles
  | .update _ _ body => body.role ∈ roles
  | .remove _ _ => True

/-- No two users have the same email (`===`). -/
@[reducible] def UserEmailsUnique (users : List User) : Prop :=
  users.Pairwise fun a b => strictEq a.email b.email = false

/-- The user object `{ id, name, email, role }` that the replies are built from. -/
def User.safe (u : User) : SafeUser :=
  { id := u.id, name := u.name, email := u.email, role := u.role }

/-! ## The authentication middleware and the protected routes -/

/-- The pieces of a string between its spaces, on the characters. -/
def splitSpaces : List Char → List (List Char)
  | [] => [[]]
  | c :: cs =>
    match splitSpaces cs with
    | [] => [[c]]
    | piece :: pieces => if c = ' ' then [] :: piece :: pieces else (c :: piece) :: pieces

/-- The call `s.split(' ')`. -/
def split (s : String) : List String := (splitSpaces s.data).map String.mk

/-- The expression `authHeader && authHeader.split(' ')[1]` of `authenticateToken`;
`none` is `undefined`. -/
def headerToken (authorization : Option String) : Option String :=
  match authorization with
  | none => none
  | some authHeader => if authHeader = "" then some "" else (split authHeader)[1]?

/-- The middleware `authenticateToken`: the status it ends the request with
(`res.sendStatus`), or the caller it puts in `req.user` before `next()`.
`verify` is `jwt.verify(token, JWT_SECRET, ...)` at the time of the request,
`none` when it reports an error (malformed, wrongly signed, expired). -/
def authenticateToken (verify : String → Option Caller) (authorization : Option String) :
    Except Nat Caller :=
  match headerToken authorization with
  | none => .error 401
  | some token =>
    if token = "" then .error 401
    else
      match verify token with
      | none => .error 403
      | some user => .ok user

/-- The three collections. -/
structure World where
  users : List User
  leads : List Lead
  opportunities : List Opportunity
  deriving DecidableEq

/-- The routes registered with `authenticateToken`, each with its route
parameter, its body and the clock readings its handler takes. -/
inductive Endpoint where
  | listUsers
  | updateUser (id : String) (body : UserBody)
  | removeUser (id : String)
  | listLeads
  | createLead (body : LeadBody) (now : Nat) (iso : String)
  | updateLead (id : String) (body : LeadBody)
  | removeLead (id : String)
  | convertLead (id : String) (body : ConvertBody) (now : Nat) (iso : String)
  | listOpportunities
  | createOpportunity (body : OpportunityBody) (now : Nat) (iso : String)
  | updateOpportunity (id : String) (body : OpportunityBody)
  | removeOpportunity (id : String)
  | dashboardStats

/-- The handler of a protected route run for the caller `user`: the status code
of its reply and the collections after it. -/
def dispatch (rt : Runtime) (w : World) (user : Caller) : Endpoint → Nat × World
  | .listUsers => ((getUsers w.users user).code, w)
  | .updateUser id body =>
    ((putUser w.users user id body).1.code, { w with users := (putUser w.users user id body).2 })
  | .removeUser id =>
    ((deleteUser w.users user id).1.code, { w with users := (deleteUser w.users user id).2 })
  | .listLeads => ((getLeads w.leads user).code, w)
  | .createLead body now iso =>
    ((postLeads w.leads user body now iso).1.code,
     { w with leads := (postLeads w.leads user body now iso).2 })
  | .updateLead id body =>
    ((putLead w.leads user id body).1.code, { w with leads := (putLead w.leads user id body).2 })
  | .removeLead id =>
    ((deleteLead w.leads user id).1.code, { w with leads := (deleteLead w.leads user id).2 })
  | .convertLead id body now iso =>
    ((convertLead w.leads w.opportunities user id body now iso).1.code,
     { w with leads := (convertLead w.leads w.opportunities user id body now iso).2.1
              opportunities := (convertLead w.leads w.opportunities user id body now iso).2.2 })
  | .listOpportunities => ((getOpportunities w.opportunities user).code, w)
  | .createOpportunity body now iso =>
    ((postOpportunities w.opportunities user body now iso).1.code,
     { w with opportunities := (postOpportunities w.opportunities user body now iso).2 })
  | .updateOpportunity id body =>
    ((putOpportunity w.opportunities user id body).1.code,
     { w with opportunities := (putOpportunity w.opportunities user id body).2 })
  | .removeOpportunity id =>
    ((deleteOpportunity w.opportunities user id).1.code,
     { w with opportunities := (deleteOpportunity w.opportunities user id).2 })
  | .dashboardStats => ((getDashboardStats rt w.leads w.opportunities user).code, w)

/-- A request to a protected route: `authenticateToken` first, the handler only
after `next()`. -/
def serve (verify : String → Option Caller) (rt : Runtime) (authorization : Option String)
    (e : Endpoint) (w : World) : Nat × World :=
  match authenticateToken verify authorization with
  | .error code => (code, w)
  | .ok user => dispatch rt w user e

/-! ## Reading and writing the files -/

/-- The helper `readJsonFile`: the parsed content, and `[]` when reading or
parsing throws (the error is caught and logged). `none` is a file that cannot
be read. -/
def readJsonFile {α : Type} (file : Option (List α)) : List α :=
  match file with
  | some data => data
  | none => []

/-- The helper `writeJsonFile`: the file after the call. A write that throws is
caught and logged, and the file is taken to stay as it was. -/
def writeJsonFile {α : Type} (writable : Bool) (file : Option (List α)) (data : List α) :
    Option (List α) :=
  if writable then some data else file

/-- `GET /api/leads` on the file. -/
def getLeadsOnFile (file : Option (List Lead)) (user : Caller) : Reply (List Lead) :=
  getLeads (readJsonFile file) user

/-- `POST /api/leads` on the file: the handler reads, and writes right before it
answers 201. -/
def postLeadsOnFile (file : Option (List Lead)) (writable : Bool) (user : Caller)
    (body : LeadBody) (now : Nat) (iso : String) : Reply Lead × Option (List Lead) :=
  match postLeads (readJsonFile file) user body now iso with
  | (.json code newLead, leads) => (.json code newLead, writeJsonFile writable file leads)
  | (.error code msg, _) => (.error code msg, file)

/-! ## Moving a status, adding up a map -/

/-- The requests of which the amended statement on Qualified speaks: lead
create, convert, a lead update whose body carries the status Qualified, and the
opportunity requests, which do not touch the leads. -/
@[reducible] def Request.KeepsQualified : Request → Prop
  | .createLead _ _ _ _ => True
  | .convert _ _ _ _ _ => True
  | .updateLead _ _ body => body.status = .str "Qualified"
  | .removeLead _ _ => False
  | .createOpportunity _ _ _ _ => True
  | .updateOpportunity _ _ _ => True
  | .removeOpportunity _ _ => True

/-- The values of a map added up, `Object.values(m).reduce((a, b) => a + b, 0)`. -/
def sumValues (rt : Runtime) (m : List (String × JVal)) : JVal :=
  m.foldl (fun a p => jsAdd rt a p.2) (.num 0)

/-- The numbers `qs` added to `d` one after the other, each sum rounded as the
runtime rounds it. -/
def sumDoubles (rt : Runtime) (d : Double) (qs : List ℚ) : Double :=
  qs.foldl (Double.add rt) d

/-- Every addition made when the numbers `qs` are added to `a` one after the
other is exact: the runtime gives the sum without rounding it. -/
def ExactSums (rt : Runtime) : ℚ → List ℚ → Prop
  | _, [] => True
  | a, q :: qs => rt.addNumbers a q = .finite (a + q) ∧ ExactSums rt (a + q) qs

/-! ## Sample data -/

/-- A caller whose role is none of the three built-in ones (`register` stores
whatever `role` the body carries). -/
def guestCaller : Caller := { id := "u9", email := .str "guest@crm.com", role := .str "guest" }

/-- The default rep of `initializeDataFiles`. -/
def repCaller : Caller := { id := "u3", email := .str "rep@crm.com", role := .str "rep" }

/-- The default admin of `initializeDataFiles`. -/
def adminCaller : Caller := { id := "u1", email := .str "admin@crm.com", role := .str "admin" }

/-- A second rep. -/
def otherRep : Caller := { id := "u4", email := .str "bob@crm.com", role := .str "rep" }

/-- A lead owned by the default rep. -/
def sampleLead : Lead :=
  { id := "l1", name := .str "Ann", email := .str "a@b.com", phone := .undefined,
    status := .str "New", ownerId := "u3", createdAt := "2024-01-01T00:00:00.000Z" }

/-- A lead owned by the second rep. -/
def otherLead : Lead :=
  { id := "l2", name := .str "Bob", email := .str "b@b.com", phone := .str "555",
    status := .str "Qualified", ownerId := "u4", createdAt := "2024-01-02T00:00:00.000Z" }

/-- An opportunity owned by the default rep. -/
def sampleOpportunity : Opportunity :=
  { id := "o1", title := .str "Deal", value := .num 100, stage := .str "Discovery",
    ownerId := "u3", leadId := none, createdAt := "2024-01-03T00:00:00.000Z" }

/-- An opportunity owned by the second rep. -/
def otherOpportunity : Opportunity :=
  { id := "o2", title := .str "Big deal", value := .num 50, stage := .str "Won",
    ownerId := "u4", leadId := some "l2", createdAt := "2024-01-04T00:00:00.000Z" }

/-- A well-formed body for `POST /api/leads`. -/
def sampleLeadBody : LeadBody :=
  { name := .str "Cy", email := .str "c@b.com", phone := .str "1", status := .str "Contacted" }

/-- The record the admin gets from `sampleLeadBody` at clock reading 1700000000000. -/
def createdLead : Lead :=
  { id := "l1700000000000", name := .str "Cy", email := .str "c@b.com", phone := .str "1",
    status := .str "Contacted", ownerId := "u1", createdAt := "2024-02-01T00:00:00.000Z" }

/-- A body for `POST /api/opportunities` with value 0 and no stage. -/
def directBody : OpportunityBody :=
  { title := .str "Direct deal", value := .num 0, stage := .undefined }

/-- The record the default rep gets from `directBody` at clock reading 1700000000002. -/
def directOpportunity : Opportunity :=
  { id := "o1700000000002", title := .str "Direct deal", value := .num 0,
    stage := .str "Discovery", ownerId := "u3", leadId := none,
    createdAt := "2024-02-01T00:00:02.000Z" }

/-- A session on the empty store: the admin creates a lead and converts it, the
rep creates an opportunity directly, the admin edits the converted opportunity. -/
def sampleRequests : List Request :=
  [ .createLead adminCaller sampleLeadBody 1700000000000 "2024-02-01T00:00:00.000Z",
    .convert adminCaller "l1700000000000" { title := .str "Deal", value := .num 100 }
      1700000000001 "2024-02-01T00:00:01.000Z",
    .createOpportunity repCaller directBody 1700000000002 "2024-02-01T00:00:02.000Z",
    .updateOpportunity adminCaller "o1700000000001"
      { title := .str "Deal", value := .num 120, stage := .str "Proposal" } ]

/-- A store with two leads and two opportunities of two owners. -/
def sampleStore : Store :=
  { leads := [sampleLead, otherLead], opportunities := [sampleOpportunity, otherOpportunity] }

/-- Edits by the admin: an update of the first lead without phone and status, a
convert of the second lead, an update of the first opportunity. -/
def editRequests : List Request :=
  [ .updateLead adminCaller "l1"
      { name := .str "Ann B", email := .str "ann@b.com", phone := .undefined,
        status := .undefined },
    .convert adminCaller "l2" { title := .str "Deal", value := .num 100 }
      1700000000001 "2024-02-01T00:00:01.000Z",
    .updateOpportunity adminCaller "o1"
      { title := .str "Deal", value := .num 120, stage := .str "Proposal" } ]

/-- A second lead of the default rep. -/
def secondLead : Lead :=
  { id := "l3", name := .str "Cy", email := .str "c@b.com", phone := .undefined,
    status := .str "Contacted", ownerId := "u3", createdAt := "2024-01-05T00:00:00.000Z" }

/-- A runtime for evaluation: integers are written in decimal, an object as a
tag around its text; the sums it is asked for are sums of integers, which no
rounding changes. -/
def sampleRuntime : Runtime :=
  { numToString := fun q => toString q.num
    objToString := fun t => "[" ++ t ++ "]"
    addNumbers := fun p q => .finite (p + q)
    zero_addNumbers := fun q => by simp }

/-- The double nearest to 0.1. -/
def tenth : ℚ := 3602879701896397 / 36028797018963968

/-- The double nearest to 0.2. -/
def fifth : ℚ := 3602879701896397 / 18014398509481984

/-- A runtime that rounds as IEEE 754 does on the sum of `tenth` and `fifth`:
their exact sum, 10808639105689191 / 2^55, lies half way between two doubles and
goes to the even one, 1351079888211149 / 2^52, which is written
0.30000000000000004. The other sums it is asked for below are sums with zero. -/
def roundingRuntime : Runtime :=
  { numToString := sampleRuntime.numToString
    objToString := sampleRuntime.objToString
    addNumbers := fun p q =>
      if p = tenth ∧ q = fifth then .finite (1351079888211149 / 4503599627370496)
      else .finite (p + q)
    zero_addNumbers := fun q => by
      have h : ¬ (0 : ℚ) = tenth := by unfold tenth; norm_num
      simp [h] }

/-- Two opportunities of the default rep with the values 0.1 and 0.2. -/
def fractionOpportunities : List Opportunity :=
  [ { sampleOpportunity with value := .num tenth },
    { sampleOpportunity with id := "o3", value := .num fifth } ]

/-- Three leads of the default rep with statuses New, New, Qualified, and one
lead of the second rep. -/
def statsLeads : List Lead :=
  [ sampleLead, { secondLead with status := .str "New" }, otherLead,
    { sampleLead with id := "l4", email := .str "d@b.com", status := .str "Qualified" } ]

/-- Two opportunities of the default rep, Discovery 100 and Won 50, and one of
the second rep. -/
def statsOpportunities : List Opportunity :=
  [ sampleOpportunity, otherOpportunity,
    { sampleOpportunity with id := "o3", value := .num 50, stage := .str "Won" } ]

/-- The default users with placeholder hashes. -/
def sampleUsers : List User := defaultUsers "hash-admin" "hash-manager" "hash-rep"

/-- A register body that names a role outside the three. -/
def guestRegisterBody : RegisterBody :=
  { name := .str "Gus", email := .str "guest@crm.com", password := .str "guest123",
    role := .str "guest" }

/-- The user that `guestRegisterBody` creates at clock reading 1700000000000. -/
def guestUser : User :=
  { id := "u1700000000000", name := .str "Gus", email := .str "guest@crm.com",
    password := "hash-guest", role := .str "guest" }

/-- A session of user requests whose roles are among the three: a register
without role, an update by the admin that makes this user a manager, a delete. -/
def sampleUserRequests : List UserRequest :=
  [ .register { name := .str "Dan", email := .str "dan@crm.com", password := .str "dan123",
                role := .undefined } (some "hash-dan") 1700000000000,
    .update adminCaller "u1700000000000"
      { name := .str "Dan", email := .str "dan@crm.com", role := .str "manager" },
    .remove adminCaller "u2" ]

/-- The sample store with the default users. -/
def sampleWorld : World :=
  { users := sampleUsers, leads := sampleStore.leads,
    opportunities := sampleStore.opportunities }

/-- A verifier that knows one token, of the default rep, and rejects all others. -/
def sampleVerify (token : String) : Option Caller :=
  if token = "rep-token" then some repCaller else none

/-- A lead of the second rep whose id is `l` and the clock reading 1700000000000. -/
def collidingLead : Lead :=
  { id := "l1700000000000", name := .str "Bob", email := .str "b@b.com", phone := .str "555",
    status := .str "New", ownerId := "u4", createdAt := "2024-02-01T00:00:00.000Z" }

/-- The record the default rep gets from `sampleLeadBody` at clock reading 1700000000000. -/
def repCreatedLead : Lead := { createdLead with ownerId := "u3" }

/-- The body from which the second rep creates `collidingLead`. -/
def collidingBody : LeadBody :=
  { name := .str "Bob", email := .str "b@b.com", phone := .str "555", status := .undefined }

/-- The leads after the two reps each created a lead at the clock reading
1700000000000: two records, of two owners, with the one id `l1700000000000`. -/
def twinLeads : List Lead := [repCreatedLead, collidingLead]

/-! ## Lemmas on the JavaScript primitives -/

theorem isRep_iff (user : Caller) : isRep user = true ↔ user.role = .str "rep" := by
  unfold isRep strictEq
  cases user.role <;> simp

theorem isRep_eq_false_iff (user : Caller) : isRep user = false ↔ user.role ≠ .str "rep" := by
  have h := isRep_iff user
  cases hr : isRep user <;> simp_all

theorem strictEq_eq_true {a b : JVal} (h : strictEq a b = true) : a = b := by
  unfold strictEq at h
  split at h <;> simp_all

theorem includes_iff (xs : List String) (v : JVal) :
    includes xs v = true ↔ ∃ x ∈ xs, v = .str x := by
  unfold includes
  simp only [List.any_eq_true]
  constructor
  · rintro ⟨x, hx, h⟩
    exact ⟨x, hx, (strictEq_eq_true h).symm⟩
  · rintro ⟨x, hx, rfl⟩
    exact ⟨x, hx, by simp [strictEq]⟩

theorem orDefault_undefined (d : JVal) : orDefault .undefined d = d := rfl

theorem orDefault_of_ne {v : JVal} (d : JVal) (h : v ≠ .undefined) : orDefault v d = v := by
  cases v <;> simp_all [orDefault]

theorem notNonNegativeNumber_eq_false_iff (v : JVal) :
    notNonNegativeNumber v = false ↔ ∃ q : ℚ, v = .num q ∧ 0 ≤ q := by
  cases v <;> simp [notNonNegativeNumber]

theorem findIndex_eq_none_iff {α : Type} (p : α → Bool) (xs : List α) :
    findIndex p xs = none ↔ ∀ x ∈ xs, p x = false := by
  induction xs with
  | nil => simp [findIndex]
  | cons x xs ih =>
    by_cases hx : p x = true
    · simp [findIndex, hx]
    · simp [findIndex, hx, ih]

theorem findIndex_append_cons {α : Type} (p : α → Bool) (pre post : List α) (x : α)
    (hpre : ∀ y ∈ pre, p y = false) (hx : p x = true) :
    findIndex p (pre ++ x :: post) = some pre.length := by
  induction pre with
  | nil => simp [findIndex, hx]
  | cons y ys ih =>
    have hy : p y = false := hpre y (List.mem_cons_self _ _)
    have hys : ∀ z ∈ ys, p z = false := fun z hz => hpre z (List.mem_cons_of_mem _ hz)
    simp [findIndex, hy, ih hys]

theorem findIndex_eq_some {α : Type} (p : α → Bool) (xs : List α) (i : Nat)
    (h : findIndex p xs = some i) :
    ∃ pre x post, xs = pre ++ x :: post ∧ pre.length = i ∧ p x = true ∧
      ∀ y ∈ pre, p y = false := by
  induction xs generalizing i with
  | nil => simp [findIndex] at h
  | cons y ys ih =>
    by_cases hy : p y = true
    · simp [findIndex, hy] at h
      exact ⟨[], y, ys, by simp, by simpa using h, hy, by simp⟩
    · simp only [findIndex, hy] at h
      cases hf : findIndex p ys with
      | none => simp [hf] at h
      | some j =>
        simp [hf] at h
        obtain ⟨pre, x, post, hxs, hlen, hx, hpre⟩ := ih j hf
        refine ⟨y :: pre, x, post, by simp [hxs], by simp [hlen, h], hx, ?_⟩
        intro z hz
        rcases List.mem_cons.mp hz with rfl | hz
        · simpa using hy
        · exact hpre z hz

/-! ## Reading the collections -/

/-- C1: for a caller whose role is rep, the lead list and the opportunity list
answer exactly the records whose ownerId is the caller's id, in storage order;
for a caller whose role is admin or manager they answer the whole collection. -/
theorem list_visibility (leads : List Lead) (opportunities : List Opportunity)
    (user : Caller) :
    (user.role = .str "rep" →
      getLeads leads user
          = .json 200 (leads.filter fun l => decide (l.ownerId = user.id)) ∧
      getOpportunities opportunities user
          = .json 200 (opportunities.filter fun o => decide (o.ownerId = user.id))) ∧
    (user.role = .str "admin" ∨ user.role = .str "manager" →
      getLeads leads user = .json 200 leads ∧
      getOpportunities opportunities user = .json 200 opportunities) := by
  constructor
  · intro h
    have hr : isRep user = true := (isRep_iff user).mpr h
    simp [getLeads, getOpportunities, hr]
  · intro h
    have hr : isRep user = false := by
      rw [isRep_eq_false_iff]
      rcases h with h | h <;> simp [h]
    simp [getLeads, getOpportunities, hr]

/-- Witness of C1 on a store with two owners, for the rep and for the admin. -/
theorem list_visibility_witness :
    (getLeads [sampleLead, otherLead] repCaller
        = .json 200 ([sampleLead, otherLead].filter fun l => decide (l.ownerId = repCaller.id)) ∧
      getOpportunities [sampleOpportunity, otherOpportunity] repCaller
        = .json 200 ([sampleOpportunity, otherOpportunity].filter
            fun o => decide (o.ownerId = repCaller.id))) ∧
    (getLeads [sampleLead, otherLead] adminCaller = .json 200 [sampleLead, otherLead] ∧
      getOpportunities [sampleOpportunity, otherOpportunity] adminCaller
        = .json 200 [sampleOpportunity, otherOpportunity]) :=
  ⟨(list_visibility [sampleLead, otherLead] [sampleOpportunity, otherOpportunity]
      repCaller).1 rfl,
   (list_visibility [sampleLead, otherLead] [sampleOpportunity, otherOpportunity]
      adminCaller).2 (Or.inl rfl)⟩

/-- C2, as stated, fails: a caller whose role is `guest` (neither admin nor
manager) is answered a lead that another user owns. -/
theorem list_other_role_counterexample :
    guestCaller.role ≠ .str "admin" ∧ guestCaller.role ≠ .str "manager" ∧
    sampleLead.ownerId ≠ guestCaller.id ∧
    getLeads [sampleLead] guestCaller = .json 200 [sampleLead] ∧
    getLeads [sampleLead] guestCaller
      ≠ .json 200 ([sampleLead].filter fun l => decide (l.ownerId = guestCaller.id)) := by
  decide

/-- C2, amended: the lead list is restricted to the caller's own leads exactly
for the role rep; for every other role value (admin, manager or anything else)
it answers the whole collection. -/
theorem list_filter_only_for_rep (leads : List Lead) (user : Caller) :
    (user.role = .str "rep" →
      getLeads leads user
        = .json 200 (leads.filter fun l => decide (l.ownerId = user.id))) ∧
    (user.role ≠ .str "rep" → getLeads leads user = .json 200 leads) := by
  constructor
  · intro h
    simp [getLeads, (isRep_iff user).mpr h]
  · intro h
    simp [getLeads, (isRep_eq_false_iff user).mpr h]

/-- Witness of the amended C2 for the rep and for a guest. -/
theorem list_filter_only_for_rep_witness :
    getLeads [sampleLead, otherLead] otherRep
        = .json 200 ([sampleLead, otherLead].filter fun l => decide (l.ownerId = otherRep.id)) ∧
    getLeads [sampleLead, otherLead] guestCaller = .json 200 [sampleLead, otherLead] :=
  ⟨(list_filter_only_for_rep [sampleLead, otherLead] otherRep).1 rfl,
   (list_filter_only_for_rep [sampleLead, otherLead] guestCaller).2 (by decide)⟩

/-! ## Creating a lead -/

theorem includes_leadStatus_iff (s : JVal) :
    includes ["New", "Contacted", "Qualified"] (orDefault s (.str "New")) = true ↔
      s = .undefined ∨ s = .str "New" ∨ s = .str "Contacted" ∨ s = .str "Qualified" := by
  rw [includes_iff]
  by_cases hs : s = .undefined
  · subst hs
    simp [orDefault_undefined]
  · rw [orDefault_of_ne _ hs]
    simp [hs]

theorem find?_isSome_iff {α : Type} (p : α → Bool) (xs : List α) :
    (xs.find? p).isSome = true ↔ ∃ x ∈ xs, p x = true := by
  simp

/-- The reply and the collection of `postLeads` once both validation guards are passed. -/
theorem postLeads_of_valid (leads : List Lead) (user : Caller) (body : LeadBody) (now : Nat)
    (iso : String) (hname : truthy body.name = true) (hemail : truthy body.email = true)
    (hstatus : body.status = .undefined ∨ body.status = .str "New" ∨
      body.status = .str "Contacted" ∨ body.status = .str "Qualified") :
    postLeads leads user body now iso =
      if (leads.find? fun lead =>
          strictEq lead.email body.email && decide (lead.ownerId = user.id)).isSome then
        (.error 400 "Lead with this email already exists", leads)
      else
        (.json 201
          { id := "l" ++ toString now, name := body.name, email := body.email,
            phone := body.phone, status := orDefault body.status (.str "New"),
            ownerId := user.id, createdAt := iso },
         leads ++
          [{ id := "l" ++ toString now, name := body.name, email := body.email,
             phone := body.phone, status := orDefault body.status (.str "New"),
             ownerId := user.id, createdAt := iso }]) := by
  have hs := (includes_leadStatus_iff body.status).mpr hstatus
  simp only [postLeads, hname, hemail, hs, Bool.not_true, Bool.or_self, Bool.false_eq_true,
    if_false]

/-- C3: a lead creation request that passes validation and whose email equals
(JavaScript `===`) the email of an existing lead owned by the caller is
answered the conflict error 400 and leaves the leads unchanged; when every
existing lead with that email has another owner, the creation succeeds with 201
and appends the new record. -/
theorem create_duplicate_email (leads : List Lead) (user : Caller) (body : LeadBody)
    (now : Nat) (iso : String)
    (hname : truthy body.name = true) (hemail : truthy body.email = true)
    (hstatus : body.status = .undefined ∨ body.status = .str "New" ∨
      body.status = .str "Contacted" ∨ body.status = .str "Qualified") :
    ((∃ l ∈ leads, strictEq l.email body.email = true ∧ l.ownerId = user.id) →
      postLeads leads user body now iso
        = (.error 400 "Lead with this email already exists", leads)) ∧
    ((∀ l ∈ leads, strictEq l.email body.email = true → l.ownerId ≠ user.id) →
      ∃ newLead, postLeads leads user body now iso = (.json 201 newLead, leads ++ [newLead])) := by
  rw [postLeads_of_valid leads user body now iso hname hemail hstatus]
  constructor
  · rintro ⟨l, hl, he, ho⟩
    have : (leads.find? fun lead =>
        strictEq lead.email body.email && decide (lead.ownerId = user.id)).isSome = true := by
      rw [find?_isSome_iff]
      exact ⟨l, hl, by simp [he, ho]⟩
    simp only [this, if_true]
  · intro h
    have : (leads.find? fun lead =>
        strictEq lead.email body.email && decide (lead.ownerId = user.id)).isSome = false := by
      rw [Bool.eq_false_iff]
      intro hc
      rw [find?_isSome_iff] at hc
      obtain ⟨l, hl, hp⟩ := hc
      simp only [Bool.and_eq_true, decide_eq_true_eq] at hp
      exact h l hl hp.1 hp.2
    simp only [this, Bool.false_eq_true, if_false]
    exact ⟨_, rfl⟩

/-- Witness of C3: the default rep creates `a@b.com` a second time, and the
second rep creates it for the first time. -/
theorem create_duplicate_email_witness :
    postLeads [sampleLead] repCaller
        { name := .str "Ann", email := .str "a@b.com", phone := .undefined,
          status := .undefined } 1700000000000 "2024-02-01T00:00:00.000Z"
      = (.error 400 "Lead with this email already exists", [sampleLead]) ∧
    ∃ newLead, postLeads [sampleLead] otherRep
        { name := .str "Ann", email := .str "a@b.com", phone := .undefined,
          status := .undefined } 1700000000000 "2024-02-01T00:00:00.000Z"
      = (.json 201 newLead, [sampleLead] ++ [newLead]) :=
  ⟨(create_duplicate_email [sampleLead] repCaller
      { name := .str "Ann", email := .str "a@b.com", phone := .undefined,
        status := .undefined } 1700000000000 "2024-02-01T00:00:00.000Z"
      (by decide) (by decide) (Or.inl rfl)).1 ⟨sampleLead, by simp, by decide, by decide⟩,
   (create_duplicate_email [sampleLead] otherRep
      { name := .str "Ann", email := .str "a@b.com", phone := .undefined,
        status := .undefined } 1700000000000 "2024-02-01T00:00:00.000Z"
      (by decide) (by decide) (Or.inl rfl)).2 (by decide)⟩

/-- Whatever `postLeads` answers with an error, it has not touched the leads. -/
theorem postLeads_error_unchanged (leads : List Lead) (user : Caller) (body : LeadBody)
    (now : Nat) (iso : String) (c : Nat) (msg : String)
    (h : (postLeads leads user body now iso).1 = .error c msg) :
    (postLeads leads user body now iso).2 = leads := by
  unfold postLeads at h ⊢
  simp only at h ⊢
  split_ifs at h ⊢ <;> rfl

/-- C4: `postLeads` answers a validation error (400, "Name and email are
required" or "Invalid status") exactly when name is missing, email is missing
(absent, or falsy as the handler tests it with `!`: null, the empty string, 0,
false), or a status is supplied that is none of New, Contacted, Qualified; with
the status omitted the reply is never "Invalid status" and a created record has
status New; every error reply leaves the leads unchanged. -/
theorem create_validation (leads : List Lead) (user : Caller) (body : LeadBody)
    (now : Nat) (iso : String) :
    (((postLeads leads user body now iso).1 = .error 400 "Name and email are required" ∨
      (postLeads leads user body now iso).1 = .error 400 "Invalid status") ↔
      (truthy body.name = false ∨ truthy body.email = false ∨
        (body.status ≠ .undefined ∧ body.status ≠ .str "New" ∧
          body.status ≠ .str "Contacted" ∧ body.status ≠ .str "Qualified"))) ∧
    (body.status = .undefined →
      (postLeads leads user body now iso).1 ≠ .error 400 "Invalid status" ∧
      ∀ c l, (postLeads leads user body now iso).1 = .json c l → l.status = .str "New") ∧
    (∀ c msg, (postLeads leads user body now iso).1 = .error c msg →
      (postLeads leads user body now iso).2 = leads) := by
  refine ⟨?_, ?_, fun c msg h => postLeads_error_unchanged leads user body now iso c msg h⟩
  · by_cases hname : truthy body.name = true
    · by_cases hemail : truthy body.email = true
      · by_cases hstatus : body.status = .undefined ∨ body.status = .str "New" ∨
            body.status = .str "Contacted" ∨ body.status = .str "Qualified"
        · rw [postLeads_of_valid leads user body now iso hname hemail hstatus]
          have hrhs : ¬ (truthy body.name = false ∨ truthy body.email = false ∨
              (body.status ≠ .undefined ∧ body.status ≠ .str "New" ∧
                body.status ≠ .str "Contacted" ∧ body.status ≠ .str "Qualified")) := by
            rw [hname, hemail]
            rintro (h | h | ⟨h0, h1, h2, h3⟩)
            · simp at h
            · simp at h
            · rcases hstatus with h | h | h | h <;> contradiction
          constructor
          · intro h
            split_ifs at h <;> simp at h
          · intro h
            exact absurd h hrhs
        · have hs : includes ["New", "Contacted", "Qualified"]
              (orDefault body.status (.str "New")) = false := by
            rw [Bool.eq_false_iff, Ne, includes_leadStatus_iff]
            exact hstatus
          have hpost : (postLeads leads user body now iso).1 = .error 400 "Invalid status" := by
            simp [postLeads, hname, hemail, hs]
          constructor
          · intro _
            right; right
            refine ⟨?_, ?_, ?_, ?_⟩ <;> intro h <;> exact hstatus (by simp [h])
          · intro _
            exact Or.inr hpost
      · have hpost : (postLeads leads user body now iso).1
            = .error 400 "Name and email are required" := by
          simp [postLeads, hemail]
        constructor
        · intro _
          exact Or.inr (Or.inl (by simpa using hemail))
        · intro _
          exact Or.inl hpost
    · have hpost : (postLeads leads user body now iso).1
          = .error 400 "Name and email are required" := by
        simp [postLeads, hname]
      constructor
      · intro _
        exact Or.inl (by simpa using hname)
      · intro _
        exact Or.inl hpost
  · intro hu
    constructor
    · unfold postLeads
      simp only [hu, orDefault_undefined]
      split_ifs <;> simp_all [includes, strictEq]
    · intro c l h
      unfold postLeads at h
      simp only [hu, orDefault_undefined] at h
      split_ifs at h
      simp at h
      rw [← h.2]

/-- Witness of C4: an empty name is rejected; an omitted status is never the
reason of a rejection and gives a record with status New. -/
theorem create_validation_witness :
    ((postLeads [] repCaller
        { name := .str "", email := .str "a@b.com", phone := .undefined, status := .undefined }
        1700000000000 "2024-02-01T00:00:00.000Z").1 = .error 400 "Name and email are required" ∨
      (postLeads [] repCaller
        { name := .str "", email := .str "a@b.com", phone := .undefined, status := .undefined }
        1700000000000 "2024-02-01T00:00:00.000Z").1 = .error 400 "Invalid status") ∧
    ((postLeads [] repCaller
        { name := .str "Ann", email := .str "a@b.com", phone := .undefined, status := .undefined }
        1700000000000 "2024-02-01T00:00:00.000Z").1 ≠ .error 400 "Invalid status" ∧
      ∀ c l, (postLeads [] repCaller
        { name := .str "Ann", email := .str "a@b.com", phone := .undefined, status := .undefined }
        1700000000000 "2024-02-01T00:00:00.000Z").1 = .json c l → l.status = .str "New") :=
  ⟨(create_validation [] repCaller
      { name := .str "", email := .str "a@b.com", phone := .undefined, status := .undefined }
      1700000000000 "2024-02-01T00:00:00.000Z").1.mpr (Or.inl rfl),
   (create_validation [] repCaller
      { name := .str "Ann", email := .str "a@b.com", phone := .undefined, status := .undefined }
      1700000000000 "2024-02-01T00:00:00.000Z").2.1 rfl⟩

/-- C5: when `postLeads` succeeds, the answer is 201 with a record carrying the
supplied name, email and phone, the supplied status or New when none was
supplied, the caller's id as ownerId, the id and timestamp taken from the clock;
the leads are the previous leads with exactly this record appended. -/
theorem create_success_record (leads : List Lead) (user : Caller) (body : LeadBody)
    (now : Nat) (iso : String) (c : Nat) (newLead : Lead) (leads' : List Lead)
    (h : postLeads leads user body now iso = (.json c newLead, leads')) :
    c = 201 ∧ newLead.name = body.name ∧ newLead.email = body.email ∧
    newLead.phone = body.phone ∧
    (body.status = .undefined → newLead.status = .str "New") ∧
    (body.status ≠ .undefined → newLead.status = body.status) ∧
    newLead.ownerId = user.id ∧ newLead.id = "l" ++ toString now ∧ newLead.createdAt = iso ∧
    leads' = leads ++ [newLead] := by
  unfold postLeads at h
  simp only at h
  split_ifs at h <;> simp only [Prod.mk.injEq, Reply.json.injEq, reduceCtorEq, false_and] at h
  obtain ⟨⟨hc, hl⟩, hls⟩ := h
  subst hl
  refine ⟨hc.symm, rfl, rfl, rfl, ?_, ?_, rfl, rfl, rfl, hls.symm⟩
  · intro hu
    simp [hu, orDefault_undefined]
  · intro hu
    simp [orDefault_of_ne _ hu]

/-- Witness of C5: the admin creates a Contacted lead in a store that holds one lead. -/
theorem create_success_record_witness :
    postLeads [sampleLead] adminCaller sampleLeadBody 1700000000000 "2024-02-01T00:00:00.000Z"
      = (.json 201 createdLead, [sampleLead, createdLead]) ∧
    createdLead.name = sampleLeadBody.name ∧ createdLead.ownerId = adminCaller.id ∧
    [sampleLead, createdLead] = [sampleLead] ++ [createdLead] :=
  have h := create_success_record [sampleLead] adminCaller sampleLeadBody 1700000000000
    "2024-02-01T00:00:00.000Z" 201 createdLead [sampleLead, createdLead] (by decide)
  ⟨by decide, h.2.1, h.2.2.2.2.2.2.1, h.2.2.2.2.2.2.2.2.2⟩

/-! ## Looking a record up by id -/

theorem getElem?_append_cons_length {α : Type} (pre post : List α) (x : α) :
    (pre ++ x :: post)[pre.length]? = some x := by
  induction pre with
  | nil => simp
  | cons y ys ih => simpa using ih

theorem set_append_cons_length {α : Type} (pre post : List α) (x y : α) :
    (pre ++ x :: post).set pre.length y = pre ++ y :: post := by
  simp

/-- The lookup `leads.findIndex(l => l.id === id)` stops at the first lead that carries the id. -/
theorem findIndex_lead (pre post : List Lead) (lead : Lead)
    (hfirst : ∀ l ∈ pre, l.id ≠ lead.id) :
    findIndex (fun l => decide (l.id = lead.id)) (pre ++ lead :: post) = some pre.length :=
  findIndex_append_cons _ pre post lead (fun l hl => by simpa using hfirst l hl) (by simp)

/-- The lookup `opportunities.findIndex(o => o.id === id)` stops at the first
opportunity that carries the id. -/
theorem findIndex_opportunity (pre post : List Opportunity) (opp : Opportunity)
    (hfirst : ∀ o ∈ pre, o.id ≠ opp.id) :
    findIndex (fun o => decide (o.id = opp.id)) (pre ++ opp :: post) = some pre.length :=
  findIndex_append_cons _ pre post opp (fun o ho => by simpa using hfirst o ho) (by simp)

/-- The ownership gate `req.user.role === 'rep' && record.ownerId !== req.user.id`
lets through every caller who is not a rep, and the owner. -/
theorem gate_open (user : Caller) (ownerId : String)
    (hperm : user.role ≠ .str "rep" ∨ ownerId = user.id) :
    (isRep user && decide (ownerId ≠ user.id)) = false := by
  rcases hperm with h | h
  · simp [(isRep_eq_false_iff user).mpr h]
  · simp [h]

/-- The ownership gate stops a rep who is not the owner. -/
theorem gate_closed (user : Caller) (ownerId : String)
    (hrep : user.role = .str "rep") (howner : ownerId ≠ user.id) :
    (isRep user && decide (ownerId ≠ user.id)) = true := by
  simp [(isRep_iff user).mpr hrep, howner]

/-! ## Converting a lead -/

/-- C6, amended: for a lead of the store that is the first record carrying its
id (every lead, when the ids are pairwise distinct), whatever its status, a
caller the ownership gate lets through (any role but rep, or the owner), a title
that is present (truthy) and a non-negative number as value, `convertLead`
answers 201 with a new
opportunity holding the given title and value, stage Discovery, the lead's id
as leadId and the lead's ownerId as ownerId; the lead gets status Qualified in
place, all other leads are unchanged, and the opportunities are the previous
ones followed by exactly this record. -/
theorem convert_success (pre post : List Lead) (lead : Lead)
    (opportunities : List Opportunity) (user : Caller) (body : ConvertBody) (now : Nat)
    (iso : String)
    (hfirst : ∀ l ∈ pre, l.id ≠ lead.id)
    (hperm : user.role ≠ .str "rep" ∨ lead.ownerId = user.id)
    (htitle : truthy body.title = true)
    (hvalue : ∃ q : ℚ, body.value = .num q ∧ 0 ≤ q) :
    convertLead (pre ++ lead :: post) opportunities user lead.id body now iso =
      (.json 201
        { id := "o" ++ toString now, title := body.title, value := body.value,
          stage := .str "Discovery", ownerId := lead.ownerId, leadId := some lead.id,
          createdAt := iso },
       pre ++ { lead with status := .str "Qualified" } :: post,
       opportunities ++
        [{ id := "o" ++ toString now, title := body.title, value := body.value,
           stage := .str "Discovery", ownerId := lead.ownerId, leadId := some lead.id,
           createdAt := iso }]) := by
  have hv : notNonNegativeNumber body.value = false :=
    (notNonNegativeNumber_eq_false_iff body.value).mpr hvalue
  simp only [convertLead, htitle, hv, findIndex_lead pre post lead hfirst,
    getElem?_append_cons_length, gate_open user lead.ownerId hperm, set_append_cons_length,
    Bool.not_true, Bool.false_eq_true, if_false]

/-- Witness of the amended C6: the admin converts a lead that is already Qualified and that
the second rep owns; the new opportunity belongs to the second rep. -/
theorem convert_success_witness :
    convertLead ([sampleLead] ++ otherLead :: []) [sampleOpportunity] adminCaller otherLead.id
        { title := .str "Deal", value := .num 100 } 1700000000000 "2024-02-01T00:00:00.000Z" =
      (.json 201
        { id := "o" ++ toString 1700000000000, title := .str "Deal", value := .num 100,
          stage := .str "Discovery", ownerId := otherLead.ownerId, leadId := some otherLead.id,
          createdAt := "2024-02-01T00:00:00.000Z" },
       [sampleLead] ++ { otherLead with status := .str "Qualified" } :: [],
       [sampleOpportunity] ++
        [{ id := "o" ++ toString 1700000000000, title := .str "Deal", value := .num 100,
           stage := .str "Discovery", ownerId := otherLead.ownerId,
           leadId := some otherLead.id, createdAt := "2024-02-01T00:00:00.000Z" }]) :=
  convert_success [sampleLead] [] otherLead [sampleOpportunity] adminCaller
    { title := .str "Deal", value := .num 100 } 1700000000000 "2024-02-01T00:00:00.000Z"
    (by decide) (Or.inl (by decide)) (by decide) ⟨100, rfl, by norm_num⟩

/-- C7: when the title is missing (absent or falsy), or the value is not a
number, or the value is negative, `convertLead` answers a validation error 400
for every lead id and every caller, and both collections are returned as they
were read. -/
theorem convert_validation (leads : List Lead) (opportunities : List Opportunity)
    (user : Caller) (id : String) (body : ConvertBody) (now : Nat) (iso : String)
    (h : truthy body.title = false ∨ (∀ q : ℚ, body.value ≠ .num q) ∨
      ∃ q : ℚ, body.value = .num q ∧ q < 0) :
    convertLead leads opportunities user id body now iso
        = (.error 400 "Title is required", leads, opportunities) ∨
    convertLead leads opportunities user id body now iso
        = (.error 400 "Value must be a positive number", leads, opportunities) := by
  by_cases ht : truthy body.title = true
  · right
    have hv : notNonNegativeNumber body.value = true := by
      rcases h with h | h | ⟨q, hq, hneg⟩
      · rw [ht] at h; simp at h
      · cases hb : body.value <;> simp_all [notNonNegativeNumber]
      · simp [hq, notNonNegativeNumber, hneg]
    simp [convertLead, ht, hv]
  · left
    simp [convertLead, ht]

/-- Witness of C7: a negative value on the id of an existing lead, by its owner. -/
theorem convert_validation_witness :
    convertLead [sampleLead] [] repCaller "l1" { title := .str "Deal", value := .num (-5) }
        1700000000000 "2024-02-01T00:00:00.000Z"
        = (.error 400 "Title is required", [sampleLead], []) ∨
    convertLead [sampleLead] [] repCaller "l1" { title := .str "Deal", value := .num (-5) }
        1700000000000 "2024-02-01T00:00:00.000Z"
        = (.error 400 "Value must be a positive number", [sampleLead], []) :=
  convert_validation [sampleLead] [] repCaller "l1" { title := .str "Deal", value := .num (-5) }
    1700000000000 "2024-02-01T00:00:00.000Z" (Or.inr (Or.inr ⟨-5, rfl, by norm_num⟩))

/-! ## Creating an opportunity -/

theorem includes_stage_iff (s : JVal) :
    includes ["Discovery", "Proposal", "Won", "Lost"] (orDefault s (.str "Discovery")) = true ↔
      s = .undefined ∨ s = .str "Discovery" ∨ s = .str "Proposal" ∨ s = .str "Won" ∨
        s = .str "Lost" := by
  rw [includes_iff]
  by_cases hs : s = .undefined
  · subst hs
    simp [orDefault_undefined]
  · rw [orDefault_of_ne _ hs]
    simp [hs]

theorem notNonNegativeNumber_eq_true_iff (v : JVal) :
    notNonNegativeNumber v = true ↔ (∀ q : ℚ, v ≠ .num q) ∨ ∃ q : ℚ, v = .num q ∧ q < 0 := by
  cases v <;> simp [notNonNegativeNumber]

/-- The reply and the collection of `postOpportunities` once the three guards are passed. -/
theorem postOpportunities_of_valid (opportunities : List Opportunity) (user : Caller)
    (body : OpportunityBody) (now : Nat) (iso : String)
    (htitle : truthy body.title = true) (hvalue : notNonNegativeNumber body.value = false)
    (hstage : body.stage = .undefined ∨ body.stage = .str "Discovery" ∨
      body.stage = .str "Proposal" ∨ body.stage = .str "Won" ∨ body.stage = .str "Lost") :
    postOpportunities opportunities user body now iso =
      (.json 201
        { id := "o" ++ toString now, title := body.title, value := body.value,
          stage := orDefault body.stage (.str "Discovery"), ownerId := user.id,
          leadId := none, createdAt := iso },
       opportunities ++
        [{ id := "o" ++ toString now, title := body.title, value := body.value,
           stage := orDefault body.stage (.str "Discovery"), ownerId := user.id,
           leadId := none, createdAt := iso }]) := by
  have hs := (includes_stage_iff body.stage).mpr hstage
  simp only [postOpportunities, htitle, hvalue, hs, Bool.not_true, Bool.false_eq_true, if_false]

/-- C8: `postOpportunities` answers a validation error (400, "Title is
required", "Value must be a positive number" or "Invalid stage") exactly when
the title is missing (absent or falsy), the value is not a number, the value is
negative, or a stage is supplied that is none of Discovery, Proposal, Won, Lost;
so every negative value is rejected, and value 0 with a title and an admissible
stage is accepted with 201. -/
theorem opportunity_create_validation (opportunities : List Opportunity) (user : Caller)
    (body : OpportunityBody) (now : Nat) (iso : String) :
    (((postOpportunities opportunities user body now iso).1 = .error 400 "Title is required" ∨
      (postOpportunities opportunities user body now iso).1
        = .error 400 "Value must be a positive number" ∨
      (postOpportunities opportunities user body now iso).1 = .error 400 "Invalid stage") ↔
      (truthy body.title = false ∨ (∀ q : ℚ, body.value ≠ .num q) ∨
        (∃ q : ℚ, body.value = .num q ∧ q < 0) ∨
        (body.stage ≠ .undefined ∧ body.stage ≠ .str "Discovery" ∧
          body.stage ≠ .str "Proposal" ∧ body.stage ≠ .str "Won" ∧
          body.stage ≠ .str "Lost"))) ∧
    (∀ q : ℚ, body.value = .num q → q < 0 →
      (postOpportunities opportunities user body now iso).1 = .error 400 "Title is required" ∨
      (postOpportunities opportunities user body now iso).1
        = .error 400 "Value must be a positive number") ∧
    (truthy body.title = true → body.value = .num 0 →
      (body.stage = .undefined ∨ body.stage = .str "Discovery" ∨
        body.stage = .str "Proposal" ∨ body.stage = .str "Won" ∨ body.stage = .str "Lost") →
      ∃ opp, opp.value = .num 0 ∧
        postOpportunities opportunities user body now iso
          = (.json 201 opp, opportunities ++ [opp])) := by
  refine ⟨?_, ?_, ?_⟩
  · by_cases ht : truthy body.title = true
    · by_cases hv : notNonNegativeNumber body.value = true
      · have hpost : (postOpportunities opportunities user body now iso).1
            = .error 400 "Value must be a positive number" := by
          simp [postOpportunities, ht, hv]
        constructor
        · intro _
          rcases (notNonNegativeNumber_eq_true_iff body.value).mp hv with h | h
          · exact Or.inr (Or.inl h)
          · exact Or.inr (Or.inr (Or.inl h))
        · intro _
          exact Or.inr (Or.inl hpost)
      · have hv' : notNonNegativeNumber body.value = false := by simpa using hv
        obtain ⟨q, hq, hq0⟩ := (notNonNegativeNumber_eq_false_iff body.value).mp hv'
        by_cases hstage : body.stage = .undefined ∨ body.stage = .str "Discovery" ∨
            body.stage = .str "Proposal" ∨ body.stage = .str "Won" ∨ body.stage = .str "Lost"
        · rw [postOpportunities_of_valid opportunities user body now iso ht hv' hstage]
          constructor
          · intro h
            simp at h
          · rintro (h | h | ⟨r, hr, hneg⟩ | ⟨h0, h1, h2, h3, h4⟩)
            · rw [ht] at h; simp at h
            · exact absurd hq (h q)
            · rw [hq] at hr
              injection hr with hr
              subst hr
              exact absurd hq0 (not_le.mpr hneg)
            · rcases hstage with h | h | h | h | h <;> contradiction
        · have hs : includes ["Discovery", "Proposal", "Won", "Lost"]
              (orDefault body.stage (.str "Discovery")) = false := by
            rw [Bool.eq_false_iff, Ne, includes_stage_iff]
            exact hstage
          have hpost : (postOpportunities opportunities user body now iso).1
              = .error 400 "Invalid stage" := by
            simp [postOpportunities, ht, hv', hs]
          constructor
          · intro _
            right; right; right
            refine ⟨?_, ?_, ?_, ?_, ?_⟩ <;> intro h <;> exact hstage (by simp [h])
          · intro _
            exact Or.inr (Or.inr hpost)
    · have hpost : (postOpportunities opportunities user body now iso).1
          = .error 400 "Title is required" := by
        simp [postOpportunities, ht]
      constructor
      · intro _
        exact Or.inl (by simpa using ht)
      · intro _
        exact Or.inl hpost
  · intro q hq hneg
    by_cases ht : truthy body.title = true
    · right
      have hv : notNonNegativeNumber body.value = true := by
        simp [hq, notNonNegativeNumber, hneg]
      simp [postOpportunities, ht, hv]
    · left
      simp [postOpportunities, ht]
  · intro ht hv hstage
    have hv' : notNonNegativeNumber body.value = false := by
      simp [hv, notNonNegativeNumber]
    exact ⟨_, hv, postOpportunities_of_valid opportunities user body now iso ht hv' hstage⟩

/-- Witness of C8: value -5 is rejected and value 0 is accepted. -/
theorem opportunity_create_validation_witness :
    ((postOpportunities [] repCaller
        { title := .str "Deal", value := .num (-5), stage := .undefined }
        1700000000000 "2024-02-01T00:00:00.000Z").1 = .error 400 "Title is required" ∨
      (postOpportunities [] repCaller
        { title := .str "Deal", value := .num (-5), stage := .undefined }
        1700000000000 "2024-02-01T00:00:00.000Z").1
        = .error 400 "Value must be a positive number") ∧
    ∃ opp, opp.value = .num 0 ∧
      postOpportunities [] repCaller
        { title := .str "Deal", value := .num 0, stage := .undefined }
        1700000000000 "2024-02-01T00:00:00.000Z" = (.json 201 opp, [] ++ [opp]) :=
  ⟨(opportunity_create_validation [] repCaller
      { title := .str "Deal", value := .num (-5), stage := .undefined }
      1700000000000 "2024-02-01T00:00:00.000Z").2.1 (-5) rfl (by norm_num),
   (opportunity_create_validation [] repCaller
      { title := .str "Deal", value := .num 0, stage := .undefined }
      1700000000000 "2024-02-01T00:00:00.000Z").2.2 (by decide) rfl (Or.inl rfl)⟩

/-! ## The ownership gate on update, delete and convert -/

/-- C10, amended: for a caller whose role is rep, a lead of the store and an
opportunity of the store, each the first record carrying its id (every record,
when the ids are pairwise distinct), whose ownerId is not the caller's id,
update and delete of either record, and convert of the lead with a valid body,
are answered 403 "Access denied", and the store (leads and opportunities) after
the request is the store before it. -/
theorem forbidden_for_other_rep (user : Caller) (hrep : user.role = .str "rep")
    (pre post : List Lead) (lead : Lead)
    (hfirst : ∀ l ∈ pre, l.id ≠ lead.id) (howner : lead.ownerId ≠ user.id)
    (opre opost : List Opportunity) (opp : Opportunity)
    (hofirst : ∀ o ∈ opre, o.id ≠ opp.id) (hoowner : opp.ownerId ≠ user.id)
    (leadBody : LeadBody) (oppBody : OpportunityBody) (convertBody : ConvertBody)
    (now : Nat) (iso : String)
    (htitle : truthy convertBody.title = true)
    (hvalue : ∃ q : ℚ, convertBody.value = .num q ∧ 0 ≤ q) :
    (putLead (pre ++ lead :: post) user lead.id leadBody).1 = .error 403 "Access denied" ∧
    (deleteLead (pre ++ lead :: post) user lead.id).1 = .error 403 "Access denied" ∧
    (convertLead (pre ++ lead :: post) (opre ++ opp :: opost) user lead.id convertBody
      now iso).1 = .error 403 "Access denied" ∧
    (putOpportunity (opre ++ opp :: opost) user opp.id oppBody).1
      = .error 403 "Access denied" ∧
    (deleteOpportunity (opre ++ opp :: opost) user opp.id).1 = .error 403 "Access denied" ∧
    (∀ r ∈ [Request.updateLead user lead.id leadBody, Request.removeLead user lead.id,
        Request.convert user lead.id convertBody now iso,
        Request.updateOpportunity user opp.id oppBody, Request.removeOpportunity user opp.id],
      handle { leads := pre ++ lead :: post, opportunities := opre ++ opp :: opost } r
        = { leads := pre ++ lead :: post, opportunities := opre ++ opp :: opost }) := by
  have hv : notNonNegativeNumber convertBody.value = false :=
    (notNonNegativeNumber_eq_false_iff convertBody.value).mpr hvalue
  have hgl := gate_closed user lead.ownerId hrep howner
  have hgo := gate_closed user opp.ownerId hrep hoowner
  have hfl := findIndex_lead pre post lead hfirst
  have hfo := findIndex_opportunity opre opost opp hofirst
  have h1 : putLead (pre ++ lead :: post) user lead.id leadBody
      = (.error 403 "Access denied", pre ++ lead :: post) := by
    simp only [putLead, hfl, getElem?_append_cons_length, hgl, if_true]
  have h2 : deleteLead (pre ++ lead :: post) user lead.id
      = (.error 403 "Access denied", pre ++ lead :: post) := by
    simp only [deleteLead, hfl, getElem?_append_cons_length, hgl, if_true]
  have h3 : convertLead (pre ++ lead :: post) (opre ++ opp :: opost) user lead.id convertBody
      now iso = (.error 403 "Access denied", pre ++ lead :: post, opre ++ opp :: opost) := by
    simp only [convertLead, htitle, hv, hfl, getElem?_append_cons_length, hgl, if_true,
      Bool.not_true, Bool.false_eq_true, if_false]
  have h4 : putOpportunity (opre ++ opp :: opost) user opp.id oppBody
      = (.error 403 "Access denied", opre ++ opp :: opost) := by
    simp only [putOpportunity, hfo, getElem?_append_cons_length, hgo, if_true]
  have h5 : deleteOpportunity (opre ++ opp :: opost) user opp.id
      = (.error 403 "Access denied", opre ++ opp :: opost) := by
    simp only [deleteOpportunity, hfo, getElem?_append_cons_length, hgo, if_true]
  refine ⟨by rw [h1], by rw [h2], by rw [h3], by rw [h4], by rw [h5], ?_⟩
  intro r hr
  simp only [List.mem_cons, List.mem_singleton, List.not_mem_nil, or_false] at hr
  rcases hr with rfl | rfl | rfl | rfl | rfl
  · simp only [handle, h1]
  · simp only [handle, h2]
  · simp only [handle, h3]
  · simp only [handle, h4]
  · simp only [handle, h5]

/-- Witness of the amended C10: the default rep acts on the lead and the opportunity of the second rep. -/
theorem forbidden_for_other_rep_witness :
    (putLead ([sampleLead] ++ otherLead :: []) repCaller otherLead.id sampleLeadBody).1
      = .error 403 "Access denied" ∧
    (deleteLead ([sampleLead] ++ otherLead :: []) repCaller otherLead.id).1
      = .error 403 "Access denied" ∧
    (convertLead ([sampleLead] ++ otherLead :: []) ([sampleOpportunity] ++ otherOpportunity :: [])
      repCaller otherLead.id { title := .str "Deal", value := .num 100 } 1700000000000
      "2024-02-01T00:00:00.000Z").1 = .error 403 "Access denied" ∧
    (putOpportunity ([sampleOpportunity] ++ otherOpportunity :: []) repCaller otherOpportunity.id
      { title := .str "Deal", value := .num 1, stage := .str "Won" }).1
      = .error 403 "Access denied" ∧
    (deleteOpportunity ([sampleOpportunity] ++ otherOpportunity :: []) repCaller
      otherOpportunity.id).1 = .error 403 "Access denied" ∧
    (∀ r ∈ [Request.updateLead repCaller otherLead.id sampleLeadBody,
        Request.removeLead repCaller otherLead.id,
        Request.convert repCaller otherLead.id { title := .str "Deal", value := .num 100 }
          1700000000000 "2024-02-01T00:00:00.000Z",
        Request.updateOpportunity repCaller otherOpportunity.id
          { title := .str "Deal", value := .num 1, stage := .str "Won" },
        Request.removeOpportunity repCaller otherOpportunity.id],
      handle { leads := [sampleLead] ++ otherLead :: [],
               opportunities := [sampleOpportunity] ++ otherOpportunity :: [] } r
        = { leads := [sampleLead] ++ otherLead :: [],
            opportunities := [sampleOpportunity] ++ otherOpportunity :: [] }) :=
  forbidden_for_other_rep repCaller rfl [sampleLead] [] otherLead (by decide) (by decide)
    [sampleOpportunity] [] otherOpportunity (by decide) (by decide) sampleLeadBody
    { title := .str "Deal", value := .num 1, stage := .str "Won" }
    { title := .str "Deal", value := .num 100 } 1700000000000 "2024-02-01T00:00:00.000Z"
    (by decide) ⟨100, rfl, by norm_num⟩

/-! ## Where a `leadId` comes from -/

/-- A json reply of `postOpportunities` is the 201 branch: the record is built
from the body and the caller, without `leadId`, and pushed at the end. -/
theorem postOpportunities_json (opportunities : List Opportunity) (user : Caller)
    (body : OpportunityBody) (now : Nat) (iso : String) (c : Nat) (opp : Opportunity)
    (h : (postOpportunities opportunities user body now iso).1 = .json c opp) :
    c = 201 ∧
    opp = { id := "o" ++ toString now, title := body.title, value := body.value,
            stage := orDefault body.stage (.str "Discovery"), ownerId := user.id,
            leadId := none, createdAt := iso } ∧
    (postOpportunities opportunities user body now iso).2 = opportunities ++ [opp] := by
  unfold postOpportunities at h ⊢
  simp only at h ⊢
  split_ifs at h ⊢
  simp only [Reply.json.injEq] at h
  obtain ⟨hc, ho⟩ := h
  subst ho
  exact ⟨hc.symm, rfl, rfl⟩

theorem postOpportunities_error (opportunities : List Opportunity) (user : Caller)
    (body : OpportunityBody) (now : Nat) (iso : String) (c : Nat) (msg : String)
    (h : (postOpportunities opportunities user body now iso).1 = .error c msg) :
    (postOpportunities opportunities user body now iso).2 = opportunities := by
  unfold postOpportunities at h ⊢
  simp only at h ⊢
  split_ifs at h ⊢ <;> rfl

/-- The cases of `convertLead` past validation, after the lookup. -/
theorem convertLead_cases (leads : List Lead) (opportunities : List Opportunity)
    (user : Caller) (id : String) (body : ConvertBody) (now : Nat) (iso : String) :
    (∃ c msg, convertLead leads opportunities user id body now iso
        = (.error c msg, leads, opportunities)) ∨
    ∃ leadIndex lead, leads[leadIndex]? = some lead ∧
      convertLead leads opportunities user id body now iso =
        (.json 201
          { id := "o" ++ toString now, title := body.title, value := body.value,
            stage := .str "Discovery", ownerId := lead.ownerId, leadId := some lead.id,
            createdAt := iso },
         leads.set leadIndex { lead with status := .str "Qualified" },
         opportunities ++
          [{ id := "o" ++ toString now, title := body.title, value := body.value,
             stage := .str "Discovery", ownerId := lead.ownerId, leadId := some lead.id,
             createdAt := iso }]) := by
  by_cases ht : truthy body.title = true
  · by_cases hv : notNonNegativeNumber body.value = true
    · exact Or.inl ⟨400, "Value must be a positive number", by
        simp only [convertLead, ht, hv, Bool.not_true, Bool.false_eq_true, if_false, if_true]⟩
    · have hv' : notNonNegativeNumber body.value = false := Bool.eq_false_iff.mpr hv
      cases hfind : findIndex (fun l => decide (l.id = id)) leads with
      | none =>
        exact Or.inl ⟨404, "Lead not found", by
          simp only [convertLead, ht, hv', hfind, Bool.not_true, Bool.false_eq_true, if_false]⟩
      | some i =>
        cases hget : leads[i]? with
        | none =>
          exact Or.inl ⟨500, "Server error", by
            simp only [convertLead, ht, hv', hfind, hget, Bool.not_true, Bool.false_eq_true,
              if_false]⟩
        | some lead =>
          by_cases hg : (isRep user && decide (lead.ownerId ≠ user.id)) = true
          · exact Or.inl ⟨403, "Access denied", by
              simp only [convertLead, ht, hv', hfind, hget, hg, Bool.not_true,
                Bool.false_eq_true, if_false, if_true]⟩
          · have hg' : (isRep user && decide (lead.ownerId ≠ user.id)) = false :=
              Bool.eq_false_iff.mpr hg
            exact Or.inr ⟨i, lead, hget, by
              simp only [convertLead, ht, hv', hfind, hget, hg', Bool.not_true,
                Bool.false_eq_true, if_false]⟩
  · have ht' : truthy body.title = false := Bool.eq_false_iff.mpr ht
    exact Or.inl ⟨400, "Title is required", by
      simp only [convertLead, ht', Bool.not_false, if_true]⟩

/-- A json reply of `convertLead` carries a record with a `leadId`, pushed at the
end of the opportunities. -/
theorem convertLead_json (leads : List Lead) (opportunities : List Opportunity)
    (user : Caller) (id : String) (body : ConvertBody) (now : Nat) (iso : String) (c : Nat)
    (opp : Opportunity)
    (h : (convertLead leads opportunities user id body now iso).1 = .json c opp) :
    opp.leadId.isSome = true ∧
    (convertLead leads opportunities user id body now iso).2.2 = opportunities ++ [opp] := by
  rcases convertLead_cases leads opportunities user id body now iso with
    ⟨c', msg, hc⟩ | ⟨i, lead, _, hc⟩
  · rw [hc] at h
    simp at h
  · rw [hc] at h ⊢
    simp only [Reply.json.injEq] at h
    obtain ⟨_, ho⟩ := h
    subst ho
    exact ⟨rfl, rfl⟩

theorem convertLead_error (leads : List Lead) (opportunities : List Opportunity)
    (user : Caller) (id : String) (body : ConvertBody) (now : Nat) (iso : String) (c : Nat)
    (msg : String)
    (h : (convertLead leads opportunities user id body now iso).1 = .error c msg) :
    (convertLead leads opportunities user id body now iso).2.2 = opportunities := by
  rcases convertLead_cases leads opportunities user id body now iso with
    ⟨c', msg', hc⟩ | ⟨i, lead, _, hc⟩
  · rw [hc]
  · rw [hc] at h
    simp at h

theorem forall₂_set_of_getElem? {α : Type} (R : α → α → Prop) (hrefl : ∀ x, R x x)
    (xs : List α) (i : Nat) (x y : α) (h : xs[i]? = some x) (hr : R y x) :
    List.Forall₂ R (xs.set i y) xs := by
  induction xs generalizing i with
  | nil => simp at h
  | cons a as ih =>
    cases i with
    | zero =>
      simp only [List.getElem?_cons_zero, Option.some.injEq] at h
      subst h
      exact List.Forall₂.cons hr (List.forall₂_same.mpr fun z _ => hrefl z)
    | succ j =>
      simp only [List.getElem?_cons_succ] at h
      exact List.Forall₂.cons (hrefl a) (ih j h)

/-- The cases of `putOpportunity`: an error reply and the collection as read, or
the record at the index found replaced by its update. -/
theorem putOpportunity_cases (opportunities : List Opportunity) (user : Caller) (id : String)
    (body : OpportunityBody) :
    (∃ c msg, putOpportunity opportunities user id body = (.error c msg, opportunities)) ∨
    ∃ oppIndex opportunity, opportunities[oppIndex]? = some opportunity ∧
      putOpportunity opportunities user id body =
        (.json 200 { opportunity with title := body.title, value := body.value,
                                      stage := body.stage },
         opportunities.set oppIndex
          { opportunity with title := body.title, value := body.value, stage := body.stage }) := by
  cases hfind : findIndex (fun o => decide (o.id = id)) opportunities with
  | none => exact Or.inl ⟨404, "Opportunity not found", by simp only [putOpportunity, hfind]⟩
  | some i =>
    cases hget : opportunities[i]? with
    | none => exact Or.inl ⟨500, "Server error", by simp only [putOpportunity, hfind, hget]⟩
    | some opportunity =>
      by_cases hg : (isRep user && decide (opportunity.ownerId ≠ user.id)) = true
      · exact Or.inl ⟨403, "Access denied", by
          simp only [putOpportunity, hfind, hget, hg, if_true]⟩
      · have hg' : (isRep user && decide (opportunity.ownerId ≠ user.id)) = false :=
          Bool.eq_false_iff.mpr hg
        exact Or.inr ⟨i, opportunity, hget, by
          simp only [putOpportunity, hfind, hget, hg', Bool.false_eq_true, if_false]⟩

/-- The cases of `deleteOpportunity`: an error reply and the collection as read,
or the records with another id. -/
theorem deleteOpportunity_cases (opportunities : List Opportunity) (user : Caller)
    (id : String) :
    (∃ c msg, deleteOpportunity opportunities user id = (.error c msg, opportunities)) ∨
    deleteOpportunity opportunities user id =
      (.json 200 "Opportunity deleted successfully",
       opportunities.filter fun o => decide (o.id ≠ id)) := by
  cases hfind : findIndex (fun o => decide (o.id = id)) opportunities with
  | none => exact Or.inl ⟨404, "Opportunity not found", by simp only [deleteOpportunity, hfind]⟩
  | some i =>
    cases hget : opportunities[i]? with
    | none => exact Or.inl ⟨500, "Server error", by simp only [deleteOpportunity, hfind, hget]⟩
    | some opportunity =>
      by_cases hg : (isRep user && decide (opportunity.ownerId ≠ user.id)) = true
      · exact Or.inl ⟨403, "Access denied", by
          simp only [deleteOpportunity, hfind, hget, hg, if_true]⟩
      · have hg' : (isRep user && decide (opportunity.ownerId ≠ user.id)) = false :=
          Bool.eq_false_iff.mpr hg
        exact Or.inr (by
          simp only [deleteOpportunity, hfind, hget, hg', Bool.false_eq_true, if_false])

/-- `putOpportunity` keeps the `leadId` at every position. -/
theorem putOpportunity_leadId (opportunities : List Opportunity) (user : Caller) (id : String)
    (body : OpportunityBody) :
    List.Forall₂ (fun o' o => o'.leadId = o.leadId)
      (putOpportunity opportunities user id body).2 opportunities := by
  rcases putOpportunity_cases opportunities user id body with ⟨c, msg, h⟩ | ⟨i, o, hget, h⟩
  · rw [h]
    exact List.forall₂_same.mpr fun _ _ => rfl
  · rw [h]
    exact forall₂_set_of_getElem? (fun o' o : Opportunity => o'.leadId = o.leadId)
      (fun _ => rfl) opportunities i o _ hget rfl

/-- Zipping updated records with the marks of the old ones: every pair keeps the
`leadId` and the mark of the pair that stood at its position. -/
theorem mem_zip_marks (t : List (Opportunity × Bool)) (os : List Opportunity)
    (h : List.Forall₂ (fun o' o => o'.leadId = o.leadId) os (t.map Prod.fst)) :
    ∀ p ∈ os.zip (t.map Prod.snd), ∃ q ∈ t, p.1.leadId = q.1.leadId ∧ p.2 = q.2 := by
  induction t generalizing os with
  | nil =>
    intro p hp
    simp at hp
  | cons q qs ih =>
    simp only [List.map_cons] at h
    rw [List.forall₂_cons_right_iff] at h
    obtain ⟨o, os', ho, hos, rfl⟩ := h
    intro p hp
    simp only [List.map_cons, List.zip_cons_cons, List.mem_cons] at hp
    rcases hp with rfl | hp
    · exact ⟨q, List.mem_cons_self _ _, ho, rfl⟩
    · obtain ⟨q', hq', h1, h2⟩ := ih os' hos p hp
      exact ⟨q', List.mem_cons_of_mem _ hq', h1, h2⟩

/-- Forgetting the marks commutes with serving a request. -/
theorem erase_handleMarked (m : MarkedStore) (r : Request) :
    (handleMarked m r).erase = handle m.erase r := by
  cases r with
  | createLead user body now iso => rfl
  | updateLead user id body => rfl
  | removeLead user id => rfl
  | convert user id body now iso =>
    simp only [handleMarked, handle, MarkedStore.erase]
    cases hr : (convertLead m.leads (m.marked.map Prod.fst) user id body now iso).1 with
    | json c opp =>
      have h := (convertLead_json _ _ _ _ _ _ _ _ _ hr).2
      simp [h]
    | error c msg =>
      have h := convertLead_error _ _ _ _ _ _ _ _ _ hr
      simp [h]
  | createOpportunity user body now iso =>
    simp only [handleMarked, handle, MarkedStore.erase]
    cases hr : (postOpportunities (m.marked.map Prod.fst) user body now iso).1 with
    | json c opp =>
      have h := (postOpportunities_json _ _ _ _ _ _ _ hr).2.2
      simp [h]
    | error c msg =>
      have h := postOpportunities_error _ _ _ _ _ _ _ hr
      simp [h]
  | updateOpportunity user id body =>
    simp only [handleMarked, handle, MarkedStore.erase]
    have hlen := (putOpportunity_leadId (m.marked.map Prod.fst) user id body).length_eq
    rw [List.map_fst_zip]
    rw [hlen]
    simp
  | removeOpportunity user id =>
    simp only [handleMarked, handle, MarkedStore.erase]
    rcases deleteOpportunity_cases (m.marked.map Prod.fst) user id with ⟨c, msg, h⟩ | h
    · simp [h]
    · simp only [h, List.filter_map]
      rfl

/-- Serving a request keeps the marks in agreement with the `leadId`s. -/
theorem marksAgree_handleMarked (m : MarkedStore) (r : Request) (hm : MarksAgree m) :
    MarksAgree (handleMarked m r) := by
  cases r with
  | createLead user body now iso => exact hm
  | updateLead user id body => exact hm
  | removeLead user id => exact hm
  | convert user id body now iso =>
    simp only [handleMarked]
    cases hr : (convertLead m.leads (m.marked.map Prod.fst) user id body now iso).1 with
    | json c opp =>
      have h := (convertLead_json _ _ _ _ _ _ _ _ _ hr).1
      intro p hp
      simp only [List.mem_append, List.mem_singleton] at hp
      rcases hp with hp | rfl
      · exact hm p hp
      · exact h
    | error c msg => exact hm
  | createOpportunity user body now iso =>
    simp only [handleMarked]
    cases hr : (postOpportunities (m.marked.map Prod.fst) user body now iso).1 with
    | json c opp =>
      have h := (postOpportunities_json _ _ _ _ _ _ _ hr).2.1
      intro p hp
      simp only [List.mem_append, List.mem_singleton] at hp
      rcases hp with hp | rfl
      · exact hm p hp
      · simp [h]
    | error c msg => exact hm
  | updateOpportunity user id body =>
    intro p hp
    simp only [handleMarked] at hp
    obtain ⟨q, hq, h1, h2⟩ :=
      mem_zip_marks m.marked _ (putOpportunity_leadId (m.marked.map Prod.fst) user id body) p hp
    rw [h1, h2]
    exact hm q hq
  | removeOpportunity user id =>
    simp only [handleMarked]
    cases hr : (deleteOpportunity (m.marked.map Prod.fst) user id).1 with
    | json c msg =>
      intro p hp
      exact hm p (List.mem_of_mem_filter hp)
    | error c msg => exact hm

theorem erase_runMarked (m : MarkedStore) (rs : List Request) :
    (runMarked m rs).erase = run m.erase rs := by
  induction rs generalizing m with
  | nil => rfl
  | cons r rs ih =>
    simp only [runMarked, run, List.foldl_cons] at ih ⊢
    rw [ih (handleMarked m r), erase_handleMarked]

theorem marksAgree_runMarked (m : MarkedStore) (rs : List Request) (hm : MarksAgree m) :
    MarksAgree (runMarked m rs) := by
  induction rs generalizing m with
  | nil => exact hm
  | cons r rs ih =>
    simp only [runMarked, List.foldl_cons] at ih ⊢
    exact ih (handleMarked m r) (marksAgree_handleMarked m r hm)

/-- C9: an opportunity created by `postOpportunities` has the caller's id as
ownerId, the supplied stage or Discovery when none was supplied, and no leadId;
and along every sequence of requests, from any store in which the marks agree
with the leadIds (the empty store for one), the marked run is the run of the
handlers with marks carried along, and a record has a leadId only if its mark
says `convertLead` appended it (a record appended by `postOpportunities` never
has one). -/
theorem direct_create_and_leadId_origin :
    (∀ (opportunities : List Opportunity) (user : Caller) (body : OpportunityBody) (now : Nat)
        (iso : String) (c : Nat) (opp : Opportunity) (opportunities' : List Opportunity),
      postOpportunities opportunities user body now iso = (.json c opp, opportunities') →
        opp.ownerId = user.id ∧
        (body.stage = .undefined → opp.stage = .str "Discovery") ∧
        (body.stage ≠ .undefined → opp.stage = body.stage) ∧
        opp.leadId = none ∧ opportunities' = opportunities ++ [opp]) ∧
    (∀ (m : MarkedStore) (rs : List Request), MarksAgree m →
      (runMarked m rs).erase = run m.erase rs ∧
      (∀ p ∈ (runMarked m rs).marked, p.1.leadId.isSome = true → p.2 = true) ∧
      (∀ p ∈ (runMarked m rs).marked, p.2 = false → p.1.leadId = none)) := by
  constructor
  · intro opportunities user body now iso c opp opportunities' h
    have h1 : (postOpportunities opportunities user body now iso).1 = .json c opp := by rw [h]
    have h2 : (postOpportunities opportunities user body now iso).2 = opportunities' := by rw [h]
    obtain ⟨_, ho, hos⟩ := postOpportunities_json opportunities user body now iso c opp h1
    refine ⟨by rw [ho], ?_, ?_, by rw [ho], by rw [← h2, hos]⟩
    · intro hu
      rw [ho]
      simp [hu, orDefault_undefined]
    · intro hu
      rw [ho]
      simp [orDefault_of_ne _ hu]
  · intro m rs hm
    have hagree := marksAgree_runMarked m rs hm
    refine ⟨erase_runMarked m rs, ?_, ?_⟩
    · intro p hp h
      rw [← hagree p hp]
      exact h
    · intro p hp h
      have := hagree p hp
      rw [h] at this
      cases hl : p.1.leadId with
      | none => rfl
      | some x => rw [hl] at this; simp at this

/-- Witness of C9: a direct creation by the default rep, and a session on the
empty store after which the converted record carries the mark and the direct
one does not. -/
theorem direct_create_and_leadId_origin_witness :
    postOpportunities [] repCaller directBody 1700000000002 "2024-02-01T00:00:02.000Z"
      = (.json 201 directOpportunity, [directOpportunity]) ∧
    (directOpportunity.ownerId = repCaller.id ∧ directOpportunity.leadId = none) ∧
    MarksAgree { leads := [], marked := [] } ∧
    (runMarked { leads := [], marked := [] } sampleRequests).erase
      = run (MarkedStore.erase { leads := [], marked := [] }) sampleRequests ∧
    ((runMarked { leads := [], marked := [] } sampleRequests).marked.map
      fun p => (p.1.leadId, p.2)) = [(some "l1700000000000", true), (none, false)] ∧
    (∀ p ∈ (runMarked { leads := [], marked := [] } sampleRequests).marked,
      p.1.leadId.isSome = true → p.2 = true) :=
  have h1 := direct_create_and_leadId_origin.1 [] repCaller directBody 1700000000002
    "2024-02-01T00:00:02.000Z" 201 directOpportunity [directOpportunity] (by decide)
  have h0 : MarksAgree { leads := [], marked := [] } := fun p hp => by simp at hp
  have h2 := direct_create_and_leadId_origin.2 { leads := [], marked := [] } sampleRequests h0
  ⟨by decide, ⟨h1.1, h1.2.2.2.1⟩, h0, h2.1, by decide, h2.2.1⟩

/-! ## An id that matches no record -/

/-- C11: for every caller, whatever the role, a lead id that no lead carries and
an opportunity id that no opportunity carries, lead update, lead delete, convert
with a valid body, opportunity update and opportunity delete are answered 404
(not 403), and the store after the request is the store before it. -/
theorem not_found_for_unknown_id (leads : List Lead) (opportunities : List Opportunity)
    (user : Caller) (leadId oppId : String)
    (hl : ∀ l ∈ leads, l.id ≠ leadId) (ho : ∀ o ∈ opportunities, o.id ≠ oppId)
    (leadBody : LeadBody) (oppBody : OpportunityBody) (convertBody : ConvertBody)
    (now : Nat) (iso : String)
    (htitle : truthy convertBody.title = true)
    (hvalue : ∃ q : ℚ, convertBody.value = .num q ∧ 0 ≤ q) :
    putLead leads user leadId leadBody = (.error 404 "Lead not found", leads) ∧
    deleteLead leads user leadId = (.error 404 "Lead not found", leads) ∧
    convertLead leads opportunities user leadId convertBody now iso
      = (.error 404 "Lead not found", leads, opportunities) ∧
    putOpportunity opportunities user oppId oppBody
      = (.error 404 "Opportunity not found", opportunities) ∧
    deleteOpportunity opportunities user oppId
      = (.error 404 "Opportunity not found", opportunities) ∧
    (∀ r ∈ [Request.updateLead user leadId leadBody, Request.removeLead user leadId,
        Request.convert user leadId convertBody now iso,
        Request.updateOpportunity user oppId oppBody, Request.removeOpportunity user oppId],
      handle { leads := leads, opportunities := opportunities } r
        = { leads := leads, opportunities := opportunities }) := by
  have hv : notNonNegativeNumber convertBody.value = false :=
    (notNonNegativeNumber_eq_false_iff convertBody.value).mpr hvalue
  have hfl : findIndex (fun l : Lead => decide (l.id = leadId)) leads = none :=
    (findIndex_eq_none_iff _ leads).mpr fun l hl' => by simpa using hl l hl'
  have hfo : findIndex (fun o : Opportunity => decide (o.id = oppId)) opportunities = none :=
    (findIndex_eq_none_iff _ opportunities).mpr fun o ho' => by simpa using ho o ho'
  have h1 : putLead leads user leadId leadBody = (.error 404 "Lead not found", leads) := by
    simp only [putLead, hfl]
  have h2 : deleteLead leads user leadId = (.error 404 "Lead not found", leads) := by
    simp only [deleteLead, hfl]
  have h3 : convertLead leads opportunities user leadId convertBody now iso
      = (.error 404 "Lead not found", leads, opportunities) := by
    simp only [convertLead, htitle, hv, hfl, Bool.not_true, Bool.false_eq_true, if_false]
  have h4 : putOpportunity opportunities user oppId oppBody
      = (.error 404 "Opportunity not found", opportunities) := by
    simp only [putOpportunity, hfo]
  have h5 : deleteOpportunity opportunities user oppId
      = (.error 404 "Opportunity not found", opportunities) := by
    simp only [deleteOpportunity, hfo]
  refine ⟨h1, h2, h3, h4, h5, ?_⟩
  intro r hr
  simp only [List.mem_cons, List.mem_singleton, List.not_mem_nil, or_false] at hr
  rcases hr with rfl | rfl | rfl | rfl | rfl
  · simp only [handle, h1]
  · simp only [handle, h2]
  · simp only [handle, h3]
  · simp only [handle, h4]
  · simp only [handle, h5]

/-- Witness of C11: the default rep addresses ids that nobody carries. -/
theorem not_found_for_unknown_id_witness :
    putLead [sampleLead, otherLead] repCaller "l404" sampleLeadBody
      = (.error 404 "Lead not found", [sampleLead, otherLead]) ∧
    deleteLead [sampleLead, otherLead] repCaller "l404"
      = (.error 404 "Lead not found", [sampleLead, otherLead]) ∧
    convertLead [sampleLead, otherLead] [sampleOpportunity] repCaller "l404"
        { title := .str "Deal", value := .num 100 } 1700000000000 "2024-02-01T00:00:00.000Z"
      = (.error 404 "Lead not found", [sampleLead, otherLead], [sampleOpportunity]) ∧
    putOpportunity [sampleOpportunity] repCaller "o404" directBody
      = (.error 404 "Opportunity not found", [sampleOpportunity]) ∧
    deleteOpportunity [sampleOpportunity] repCaller "o404"
      = (.error 404 "Opportunity not found", [sampleOpportunity]) ∧
    (∀ r ∈ [Request.updateLead repCaller "l404" sampleLeadBody,
        Request.removeLead repCaller "l404",
        Request.convert repCaller "l404" { title := .str "Deal", value := .num 100 }
          1700000000000 "2024-02-01T00:00:00.000Z",
        Request.updateOpportunity repCaller "o404" directBody,
        Request.removeOpportunity repCaller "o404"],
      handle { leads := [sampleLead, otherLead], opportunities := [sampleOpportunity] } r
        = { leads := [sampleLead, otherLead], opportunities := [sampleOpportunity] }) :=
  not_found_for_unknown_id [sampleLead, otherLead] [sampleOpportunity] repCaller "l404" "o404"
    (by decide) (by decide) sampleLeadBody directBody
    { title := .str "Deal", value := .num 100 } 1700000000000 "2024-02-01T00:00:00.000Z"
    (by decide) ⟨100, rfl, by norm_num⟩

/-! ## Updating and deleting a lead -/

/-- C12, amended: for a lead of the store that is the first record carrying
its id (every lead, when the ids are pairwise distinct) and a caller the
ownership gate lets through (admin, manager, any role but rep, or the owner),
`putLead` answers 200 with the record whose name, email, phone and
status are exactly the supplied values, a field absent from the body (read as
`undefined`) becoming `undefined`; id, ownerId and createdAt stay, the record
keeps its position and every other lead is unchanged. -/
theorem update_replaces_fields (pre post : List Lead) (lead : Lead) (user : Caller)
    (body : LeadBody)
    (hfirst : ∀ l ∈ pre, l.id ≠ lead.id)
    (hperm : user.role ≠ .str "rep" ∨ lead.ownerId = user.id) :
    putLead (pre ++ lead :: post) user lead.id body =
      (.json 200
        { id := lead.id, name := body.name, email := body.email, phone := body.phone,
          status := body.status, ownerId := lead.ownerId, createdAt := lead.createdAt },
       pre ++
        { id := lead.id, name := body.name, email := body.email, phone := body.phone,
          status := body.status, ownerId := lead.ownerId, createdAt := lead.createdAt }
          :: post) ∧
    ∀ r, (putLead (pre ++ lead :: post) user lead.id body).1 = .json 200 r →
      (body.name = .undefined → r.name = .undefined) ∧
      (body.email = .undefined → r.email = .undefined) ∧
      (body.phone = .undefined → r.phone = .undefined) ∧
      (body.status = .undefined → r.status = .undefined) := by
  have h : putLead (pre ++ lead :: post) user lead.id body =
      (.json 200
        { id := lead.id, name := body.name, email := body.email, phone := body.phone,
          status := body.status, ownerId := lead.ownerId, createdAt := lead.createdAt },
       pre ++
        { id := lead.id, name := body.name, email := body.email, phone := body.phone,
          status := body.status, ownerId := lead.ownerId, createdAt := lead.createdAt }
          :: post) := by
    simp only [putLead, findIndex_lead pre post lead hfirst, getElem?_append_cons_length,
      gate_open user lead.ownerId hperm, set_append_cons_length, Bool.false_eq_true, if_false]
  refine ⟨h, ?_⟩
  intro r hr
  rw [h] at hr
  simp only [Reply.json.injEq, true_and] at hr
  subst hr
  exact ⟨fun h => h, fun h => h, fun h => h, fun h => h⟩

/-- Witness of the amended C12: the admin updates the lead of the second rep and sends only
a name and an email; phone and status become `undefined`. -/
theorem update_replaces_fields_witness :
    putLead ([sampleLead] ++ otherLead :: []) adminCaller otherLead.id
        { name := .str "Bobby", email := .str "bobby@b.com", phone := .undefined,
          status := .undefined } =
      (.json 200
        { id := otherLead.id, name := .str "Bobby", email := .str "bobby@b.com",
          phone := .undefined, status := .undefined, ownerId := otherLead.ownerId,
          createdAt := otherLead.createdAt },
       [sampleLead] ++
        { id := otherLead.id, name := .str "Bobby", email := .str "bobby@b.com",
          phone := .undefined, status := .undefined, ownerId := otherLead.ownerId,
          createdAt := otherLead.createdAt } :: []) :=
  (update_replaces_fields [sampleLead] [] otherLead adminCaller
    { name := .str "Bobby", email := .str "bobby@b.com", phone := .undefined,
      status := .undefined } (by decide) (Or.inl (by decide))).1

/-- C13, amended: for a lead of the store that is the first record carrying
its id (every lead, when the ids are pairwise distinct) and a caller the
ownership gate lets through, `deleteLead` answers 200, the resulting leads are
exactly the leads with another id in their original order (a later record with
the same id is removed as well), so none carries the id, and the opportunities
are unchanged, whatever their `leadId`. -/
theorem delete_removes_lead_only (pre post : List Lead) (lead : Lead) (user : Caller)
    (opportunities : List Opportunity)
    (hfirst : ∀ l ∈ pre, l.id ≠ lead.id)
    (hperm : user.role ≠ .str "rep" ∨ lead.ownerId = user.id) :
    deleteLead (pre ++ lead :: post) user lead.id =
      (.json 200 "Lead deleted successfully",
       (pre ++ lead :: post).filter fun l => decide (l.id ≠ lead.id)) ∧
    (deleteLead (pre ++ lead :: post) user lead.id).2
      = pre ++ post.filter (fun l => decide (l.id ≠ lead.id)) ∧
    (∀ l ∈ (deleteLead (pre ++ lead :: post) user lead.id).2, l.id ≠ lead.id) ∧
    (∀ l ∈ pre ++ lead :: post, l.id ≠ lead.id →
      l ∈ (deleteLead (pre ++ lead :: post) user lead.id).2) ∧
    (handle { leads := pre ++ lead :: post, opportunities := opportunities }
      (.removeLead user lead.id)).opportunities = opportunities := by
  have h : deleteLead (pre ++ lead :: post) user lead.id =
      (.json 200 "Lead deleted successfully",
       (pre ++ lead :: post).filter fun l => decide (l.id ≠ lead.id)) := by
    simp only [deleteLead, findIndex_lead pre post lead hfirst, getElem?_append_cons_length,
      gate_open user lead.ownerId hperm, Bool.false_eq_true, if_false]
  have hpre : pre.filter (fun l => decide (l.id ≠ lead.id)) = pre := by
    rw [List.filter_eq_self]
    intro l hl
    simpa using hfirst l hl
  refine ⟨h, ?_, ?_, ?_, rfl⟩
  · rw [h]
    simp only [List.filter_append, hpre]
    simp
  · rw [h]
    intro l hl
    simpa using (List.mem_filter.mp hl).2
  · rw [h]
    intro l hl hne
    exact List.mem_filter.mpr ⟨hl, by simpa using hne⟩

/-- Witness of the amended C13: the owner deletes a lead that an opportunity refers to. -/
theorem delete_removes_lead_only_witness :
    deleteLead ([sampleLead] ++ otherLead :: []) otherRep otherLead.id =
      (.json 200 "Lead deleted successfully",
       ([sampleLead] ++ otherLead :: []).filter fun l => decide (l.id ≠ otherLead.id)) ∧
    (deleteLead ([sampleLead] ++ otherLead :: []) otherRep otherLead.id).2
      = [sampleLead] ++ ([] : List Lead).filter (fun l => decide (l.id ≠ otherLead.id)) ∧
    otherOpportunity.leadId = some otherLead.id ∧
    (handle { leads := [sampleLead] ++ otherLead :: [], opportunities := [otherOpportunity] }
      (.removeLead otherRep otherLead.id)).opportunities = [otherOpportunity] :=
  have h := delete_removes_lead_only [sampleLead] [] otherLead otherRep [otherOpportunity]
    (by decide) (Or.inr rfl)
  ⟨h.1, h.2.1, rfl, h.2.2.2.2⟩

/-! ## Ownership is never reassigned -/

theorem forall₂_trans_of {α : Type} (R : α → α → Prop)
    (htrans : ∀ a b c, R a b → R b c → R a c) :
    ∀ {xs ys zs : List α}, List.Forall₂ R xs ys → List.Forall₂ R ys zs → List.Forall₂ R xs zs
  | _, _, _, .nil, .nil => .nil
  | _, _, _, .cons h1 t1, .cons h2 t2 =>
    .cons (htrans _ _ _ h1 h2) (forall₂_trans_of R htrans t1 t2)

theorem sameLeadIdentity_trans (a b c : Lead) (h1 : sameLeadIdentity a b)
    (h2 : sameLeadIdentity b c) : sameLeadIdentity a c :=
  ⟨h1.1.trans h2.1, h1.2.1.trans h2.2.1, h1.2.2.trans h2.2.2⟩

theorem sameOpportunityIdentity_trans (a b c : Opportunity)
    (h1 : sameOpportunityIdentity a b) (h2 : sameOpportunityIdentity b c) :
    sameOpportunityIdentity a c :=
  ⟨h1.1.trans h2.1, h1.2.1.trans h2.2.1, h1.2.2.1.trans h2.2.2.1, h1.2.2.2.trans h2.2.2.2⟩

/-- The cases of `putLead`: an error reply and the collection as read, or the
record at the index found replaced by its update. -/
theorem putLead_cases (leads : List Lead) (user : Caller) (id : String) (body : LeadBody) :
    (∃ c msg, putLead leads user id body = (.error c msg, leads)) ∨
    ∃ leadIndex lead, leads[leadIndex]? = some lead ∧ lead.id = id ∧
      putLead leads user id body =
        (.json 200 { lead with name := body.name, email := body.email, phone := body.phone,
                               status := body.status },
         leads.set leadIndex
          { lead with name := body.name, email := body.email, phone := body.phone,
                      status := body.status }) := by
  cases hfind : findIndex (fun l => decide (l.id = id)) leads with
  | none => exact Or.inl ⟨404, "Lead not found", by simp only [putLead, hfind]⟩
  | some i =>
    cases hget : leads[i]? with
    | none => exact Or.inl ⟨500, "Server error", by simp only [putLead, hfind, hget]⟩
    | some lead =>
      by_cases hg : (isRep user && decide (lead.ownerId ≠ user.id)) = true
      · exact Or.inl ⟨403, "Access denied", by simp only [putLead, hfind, hget, hg, if_true]⟩
      · have hg' : (isRep user && decide (lead.ownerId ≠ user.id)) = false :=
          Bool.eq_false_iff.mpr hg
        obtain ⟨pre, x, post, hxs, hlen, hx, _⟩ := findIndex_eq_some _ leads i hfind
        have hxl : x = lead := by
          rw [hxs, ← hlen, getElem?_append_cons_length] at hget
          exact Option.some.inj hget
        refine Or.inr ⟨i, lead, hget, ?_, ?_⟩
        · rw [← hxl]
          simpa using hx
        · simp only [putLead, hfind, hget, hg', Bool.false_eq_true, if_false]

/-- `putLead` keeps id, ownerId and createdAt at every position. -/
theorem putLead_identity (leads : List Lead) (user : Caller) (id : String) (body : LeadBody) :
    List.Forall₂ sameLeadIdentity (putLead leads user id body).2 leads := by
  rcases putLead_cases leads user id body with ⟨c, msg, h⟩ | ⟨i, l, hget, _, h⟩
  · rw [h]
    exact List.forall₂_same.mpr fun _ _ => ⟨rfl, rfl, rfl⟩
  · rw [h]
    exact forall₂_set_of_getElem? sameLeadIdentity (fun _ => ⟨rfl, rfl, rfl⟩) leads i l _ hget
      ⟨rfl, rfl, rfl⟩

/-- `convertLead` keeps id, ownerId and createdAt of every lead at every position. -/
theorem convertLead_identity (leads : List Lead) (opportunities : List Opportunity)
    (user : Caller) (id : String) (body : ConvertBody) (now : Nat) (iso : String) :
    List.Forall₂ sameLeadIdentity
      (convertLead leads opportunities user id body now iso).2.1 leads := by
  rcases convertLead_cases leads opportunities user id body now iso with
    ⟨c, msg, h⟩ | ⟨i, l, hget, h⟩
  · rw [h]
    exact List.forall₂_same.mpr fun _ _ => ⟨rfl, rfl, rfl⟩
  · rw [h]
    exact forall₂_set_of_getElem? sameLeadIdentity (fun _ => ⟨rfl, rfl, rfl⟩) leads i l _ hget
      ⟨rfl, rfl, rfl⟩

/-- `convertLead` leaves the opportunities it read as a prefix of what it writes. -/
theorem convertLead_opportunities (leads : List Lead) (opportunities : List Opportunity)
    (user : Caller) (id : String) (body : ConvertBody) (now : Nat) (iso : String) :
    ∃ appended, (convertLead leads opportunities user id body now iso).2.2
      = opportunities ++ appended := by
  rcases convertLead_cases leads opportunities user id body now iso with
    ⟨c, msg, h⟩ | ⟨i, l, hget, h⟩
  · exact ⟨[], by rw [h]; simp⟩
  · exact ⟨_, by rw [h]⟩

/-- `putOpportunity` keeps id, ownerId, leadId and createdAt at every position. -/
theorem putOpportunity_identity (opportunities : List Opportunity) (user : Caller)
    (id : String) (body : OpportunityBody) :
    List.Forall₂ sameOpportunityIdentity
      (putOpportunity opportunities user id body).2 opportunities := by
  rcases putOpportunity_cases opportunities user id body with ⟨c, msg, h⟩ | ⟨i, o, hget, h⟩
  · rw [h]
    exact List.forall₂_same.mpr fun _ _ => ⟨rfl, rfl, rfl, rfl⟩
  · rw [h]
    exact forall₂_set_of_getElem? sameOpportunityIdentity (fun _ => ⟨rfl, rfl, rfl, rfl⟩)
      opportunities i o _ hget ⟨rfl, rfl, rfl, rfl⟩

/-- One edit keeps every lead in place with its identity, and keeps the
opportunities that were there in place with their identity. -/
theorem handle_edit_identity (s : Store) (r : Request) (hr : r.isEdit = true) :
    List.Forall₂ sameLeadIdentity (handle s r).leads s.leads ∧
    List.Forall₂ sameOpportunityIdentity
      ((handle s r).opportunities.take s.opportunities.length) s.opportunities := by
  have hl : List.Forall₂ sameLeadIdentity s.leads s.leads :=
    List.forall₂_same.mpr fun _ _ => ⟨rfl, rfl, rfl⟩
  have ho : List.Forall₂ sameOpportunityIdentity s.opportunities s.opportunities :=
    List.forall₂_same.mpr fun _ _ => ⟨rfl, rfl, rfl, rfl⟩
  cases r with
  | createLead user body now iso => simp [Request.isEdit] at hr
  | removeLead user id => simp [Request.isEdit] at hr
  | createOpportunity user body now iso => simp [Request.isEdit] at hr
  | removeOpportunity user id => simp [Request.isEdit] at hr
  | updateLead user id body =>
    refine ⟨putLead_identity s.leads user id body, ?_⟩
    simpa [handle] using ho
  | convert user id body now iso =>
    refine ⟨convertLead_identity s.leads s.opportunities user id body now iso, ?_⟩
    obtain ⟨appended, happ⟩ :=
      convertLead_opportunities s.leads s.opportunities user id body now iso
    simp only [handle, happ]
    rw [List.take_append_of_le_length (Nat.le_refl _), List.take_length]
    exact ho
  | updateOpportunity user id body =>
    refine ⟨by simpa [handle] using hl, ?_⟩
    have h := putOpportunity_identity s.opportunities user id body
    simp only [handle]
    rw [← h.length_eq, List.take_length]
    exact h

/-- C16: along every sequence of lead updates, converts and opportunity updates,
by any callers with any bodies, every lead stays at its position with the id,
ownerId and createdAt it had, and every opportunity that was in the store stays
at its position with the id, ownerId, leadId and createdAt it had; a single
opportunity update changes none of these on any record. -/
theorem ownership_never_reassigned (s : Store) (rs : List Request)
    (hrs : ∀ r ∈ rs, r.isEdit = true) :
    List.Forall₂ sameLeadIdentity (run s rs).leads s.leads ∧
    List.Forall₂ sameOpportunityIdentity
      ((run s rs).opportunities.take s.opportunities.length) s.opportunities ∧
    ∀ (user : Caller) (id : String) (body : OpportunityBody),
      List.Forall₂ sameOpportunityIdentity
        (putOpportunity s.opportunities user id body).2 s.opportunities := by
  refine ⟨?_, ?_, fun user id body => putOpportunity_identity s.opportunities user id body⟩
  · induction rs generalizing s with
    | nil => exact List.forall₂_same.mpr fun _ _ => ⟨rfl, rfl, rfl⟩
    | cons r rs ih =>
      have hr := hrs r (List.mem_cons_self _ _)
      have hrest : ∀ r' ∈ rs, r'.isEdit = true := fun r' h => hrs r' (List.mem_cons_of_mem _ h)
      have h1 := (handle_edit_identity s r hr).1
      have h2 := ih (handle s r) hrest
      simp only [run, List.foldl_cons] at h2 ⊢
      exact forall₂_trans_of sameLeadIdentity sameLeadIdentity_trans h2 h1
  · induction rs generalizing s with
    | nil =>
      simp only [run, List.foldl_nil, List.take_length]
      exact List.forall₂_same.mpr fun _ _ => ⟨rfl, rfl, rfl, rfl⟩
    | cons r rs ih =>
      have hr := hrs r (List.mem_cons_self _ _)
      have hrest : ∀ r' ∈ rs, r'.isEdit = true := fun r' h => hrs r' (List.mem_cons_of_mem _ h)
      have h1 := (handle_edit_identity s r hr).2
      have h2 := ih (handle s r) hrest
      simp only [run, List.foldl_cons] at h2 ⊢
      have hlen : s.opportunities.length ≤ (handle s r).opportunities.length := by
        have := h1.length_eq
        simp only [List.length_take] at this
        omega
      have h3 := List.forall₂_take s.opportunities.length h2
      rw [List.take_take, Nat.min_eq_left hlen] at h3
      exact forall₂_trans_of sameOpportunityIdentity sameOpportunityIdentity_trans h3 h1

/-- Witness of C16: three edits by the admin on a store of two owners. -/
theorem ownership_never_reassigned_witness :
    (∀ r ∈ editRequests, r.isEdit = true) ∧
    List.Forall₂ sameLeadIdentity (run sampleStore editRequests).leads sampleStore.leads ∧
    List.Forall₂ sameOpportunityIdentity
      ((run sampleStore editRequests).opportunities.take sampleStore.opportunities.length)
      sampleStore.opportunities ∧
    (run sampleStore editRequests).leads.map (fun l => (l.ownerId, l.status))
      = [("u3", .undefined), ("u4", .str "Qualified")] ∧
    (run sampleStore editRequests).opportunities.map (fun o => (o.id, o.ownerId))
      = [("o1", "u3"), ("o2", "u4"), ("o1700000000001", "u4")] :=
  have h := ownership_never_reassigned sampleStore editRequests (by decide)
  ⟨by decide, h.1, h.2.1, by decide, by decide⟩

/-! ## The invariants and the update routes -/

/-- The cases of `postLeads`: an error reply and the collection as read, or the
new record, with an admissible status and no clash, pushed at the end. -/
theorem postLeads_cases (leads : List Lead) (user : Caller) (body : LeadBody) (now : Nat)
    (iso : String) :
    (∃ c msg, postLeads leads user body now iso = (.error c msg, leads)) ∨
    ((body.status = .undefined ∨ body.status = .str "New" ∨ body.status = .str "Contacted" ∨
        body.status = .str "Qualified") ∧
      (∀ l ∈ leads, ¬ (strictEq l.email body.email = true ∧ l.ownerId = user.id)) ∧
      postLeads leads user body now iso =
        (.json 201
          { id := "l" ++ toString now, name := body.name, email := body.email,
            phone := body.phone, status := orDefault body.status (.str "New"),
            ownerId := user.id, createdAt := iso },
         leads ++
          [{ id := "l" ++ toString now, name := body.name, email := body.email,
             phone := body.phone, status := orDefault body.status (.str "New"),
             ownerId := user.id, createdAt := iso }])) := by
  by_cases hname : truthy body.name = true
  · by_cases hemail : truthy body.email = true
    · by_cases hstatus : body.status = .undefined ∨ body.status = .str "New" ∨
          body.status = .str "Contacted" ∨ body.status = .str "Qualified"
      · rw [postLeads_of_valid leads user body now iso hname hemail hstatus]
        by_cases hdup : (leads.find? fun lead =>
            strictEq lead.email body.email && decide (lead.ownerId = user.id)).isSome = true
        · exact Or.inl ⟨400, "Lead with this email already exists", by simp only [hdup, if_true]⟩
        · refine Or.inr ⟨hstatus, ?_, by
            simp only [Bool.eq_false_iff.mpr hdup, Bool.false_eq_true, if_false]⟩
          intro l hl hc
          apply hdup
          rw [find?_isSome_iff]
          exact ⟨l, hl, by simp [hc.1, hc.2]⟩
      · have hs : includes ["New", "Contacted", "Qualified"]
            (orDefault body.status (.str "New")) = false := by
          rw [Bool.eq_false_iff, Ne, includes_leadStatus_iff]
          exact hstatus
        exact Or.inl ⟨400, "Invalid status", by simp [postLeads, hname, hemail, hs]⟩
    · exact Or.inl ⟨400, "Name and email are required", by simp [postLeads, hemail]⟩
  · exact Or.inl ⟨400, "Name and email are required", by simp [postLeads, hname]⟩

/-- The cases of `deleteLead`: an error reply and the collection as read, or the
records with another id. -/
theorem deleteLead_cases (leads : List Lead) (user : Caller) (id : String) :
    (∃ c msg, deleteLead leads user id = (.error c msg, leads)) ∨
    deleteLead leads user id =
      (.json 200 "Lead deleted successfully", leads.filter fun l => decide (l.id ≠ id)) := by
  cases hfind : findIndex (fun l => decide (l.id = id)) leads with
  | none => exact Or.inl ⟨404, "Lead not found", by simp only [deleteLead, hfind]⟩
  | some i =>
    cases hget : leads[i]? with
    | none => exact Or.inl ⟨500, "Server error", by simp only [deleteLead, hfind, hget]⟩
    | some lead =>
      by_cases hg : (isRep user && decide (lead.ownerId ≠ user.id)) = true
      · exact Or.inl ⟨403, "Access denied", by
          simp only [deleteLead, hfind, hget, hg, if_true]⟩
      · have hg' : (isRep user && decide (lead.ownerId ≠ user.id)) = false :=
          Bool.eq_false_iff.mpr hg
        exact Or.inr (by
          simp only [deleteLead, hfind, hget, hg', Bool.false_eq_true, if_false])

theorem orDefault_leadStatus_mem (s : JVal)
    (h : s = .undefined ∨ s = .str "New" ∨ s = .str "Contacted" ∨ s = .str "Qualified") :
    orDefault s (.str "New") ∈ leadStatuses := by
  rcases h with h | h | h | h <;> subst h <;> simp [orDefault, leadStatuses]

/-- Lead create, lead delete and convert keep every status among the three; so
does every opportunity request, which does not touch the leads. -/
theorem handle_leadStatusesValid (s : Store) (r : Request)
    (hr : ∀ user id body, r ≠ .updateLead user id body) (h : LeadStatusesValid s.leads) :
    LeadStatusesValid (handle s r).leads := by
  cases r with
  | updateLead user id body => exact absurd rfl (hr user id body)
  | createOpportunity user body now iso => exact h
  | updateOpportunity user id body => exact h
  | removeOpportunity user id => exact h
  | createLead user body now iso =>
    simp only [handle]
    rcases postLeads_cases s.leads user body now iso with ⟨c, msg, hp⟩ | ⟨hst, _, hp⟩
    · rw [hp]; exact h
    · rw [hp]
      intro l hl
      rcases List.mem_append.mp hl with hl | hl
      · exact h l hl
      · rw [List.mem_singleton] at hl
        subst hl
        exact orDefault_leadStatus_mem body.status hst
  | removeLead user id =>
    simp only [handle]
    rcases deleteLead_cases s.leads user id with ⟨c, msg, hp⟩ | hp
    · rw [hp]; exact h
    · rw [hp]
      intro l hl
      exact h l (List.mem_of_mem_filter hl)
  | convert user id body now iso =>
    simp only [handle]
    rcases convertLead_cases s.leads s.opportunities user id body now iso with
      ⟨c, msg, hp⟩ | ⟨i, lead, _, hp⟩
    · rw [hp]; exact h
    · rw [hp]
      intro l hl
      rcases List.mem_or_eq_of_mem_set hl with hl | hl
      · exact h l hl
      · subst hl
        simp [leadStatuses]

/-- C17, the code at the failing input: all statuses are among the three, the
owner sends `PUT /api/leads/l1` with status "Lost", the handler answers 200 and
the stored lead has status "Lost"; with the status left out of the body the
stored status is `undefined`. -/
theorem update_breaks_lead_status :
    LeadStatusesValid [sampleLead] ∧
    putLead [sampleLead] repCaller "l1"
        { name := .str "Ann", email := .str "a@b.com", phone := .undefined,
          status := .str "Lost" }
      = (.json 200 { sampleLead with status := .str "Lost" },
          [{ sampleLead with status := .str "Lost" }]) ∧
    ¬ LeadStatusesValid
      (run { leads := [sampleLead], opportunities := [] }
        [.updateLead repCaller "l1"
          { name := .str "Ann", email := .str "a@b.com", phone := .undefined,
            status := .str "Lost" }]).leads ∧
    ¬ LeadStatusesValid
      (run { leads := [sampleLead], opportunities := [] }
        [.updateLead repCaller "l1"
          { name := .str "Ann", email := .str "a@b.com", phone := .undefined,
            status := .undefined }]).leads := by
  decide

theorem exists_rel_of_forall₂_mem {α : Type} (S : α → α → Prop) {xs ys : List α}
    (h : List.Forall₂ S xs ys) (b : α) (hb : b ∈ xs) : ∃ b' ∈ ys, S b b' := by
  induction h with
  | nil => simp at hb
  | cons h' _ ih =>
    rcases List.mem_cons.mp hb with rfl | hb
    · exact ⟨_, List.mem_cons_self _ _, h'⟩
    · obtain ⟨b', hb', hS⟩ := ih hb
      exact ⟨b', List.mem_cons_of_mem _ hb', hS⟩

theorem pairwise_of_forall₂ {α : Type} (R S : α → α → Prop)
    (hRS : ∀ a b a' b', S a a' → S b b' → R a' b' → R a b) {xs ys : List α}
    (h : List.Forall₂ S xs ys) (hp : ys.Pairwise R) : xs.Pairwise R := by
  induction h with
  | nil => exact List.Pairwise.nil
  | cons h' t ih =>
    rw [List.pairwise_cons] at hp ⊢
    refine ⟨?_, ih hp.2⟩
    intro b hb
    obtain ⟨b', hb', hS⟩ := exists_rel_of_forall₂_mem S t b hb
    exact hRS _ b _ b' h' hS (hp.1 b' hb')

/-- Lead create, lead delete and convert keep the emails unique per owner; so does
every opportunity request, which does not touch the leads. -/
theorem handle_emailsUniquePerOwner (s : Store) (r : Request)
    (hr : ∀ user id body, r ≠ .updateLead user id body) (h : EmailsUniquePerOwner s.leads) :
    EmailsUniquePerOwner (handle s r).leads := by
  cases r with
  | updateLead user id body => exact absurd rfl (hr user id body)
  | createOpportunity user body now iso => exact h
  | updateOpportunity user id body => exact h
  | removeOpportunity user id => exact h
  | createLead user body now iso =>
    simp only [handle]
    rcases postLeads_cases s.leads user body now iso with ⟨c, msg, hp⟩ | ⟨_, hno, hp⟩
    · rw [hp]; exact h
    · rw [hp]
      refine List.pairwise_append.mpr ⟨h, List.pairwise_singleton _ _, ?_⟩
      intro a ha b hb
      rw [List.mem_singleton] at hb
      subst hb
      have := hno a ha
      simp only [emailClash]
      by_cases ho : a.ownerId = user.id
      · have he : strictEq a.email body.email = false := by
          rw [Bool.eq_false_iff]
          exact fun he => this ⟨he, ho⟩
        simp [he]
      · simp [ho]
  | removeLead user id =>
    simp only [handle]
    rcases deleteLead_cases s.leads user id with ⟨c, msg, hp⟩ | hp
    · rw [hp]; exact h
    · rw [hp]
      exact List.Pairwise.sublist (List.filter_sublist _) h
  | convert user id body now iso =>
    simp only [handle]
    rcases convertLead_cases s.leads s.opportunities user id body now iso with
      ⟨c, msg, hp⟩ | ⟨i, lead, hget, hp⟩
    · rw [hp]; exact h
    · rw [hp]
      have hf : List.Forall₂ (fun a b : Lead => a.ownerId = b.ownerId ∧ a.email = b.email)
          (s.leads.set i { lead with status := .str "Qualified" }) s.leads :=
        forall₂_set_of_getElem? _ (fun _ => ⟨rfl, rfl⟩) s.leads i lead _ hget ⟨rfl, rfl⟩
      refine pairwise_of_forall₂ _ _ ?_ hf h
      intro a b a' b' ha hb hR
      simpa only [emailClash, ha.1, ha.2, hb.1, hb.2] using hR

/-- C18, the code at the failing input: the default rep owns two leads with
different emails, sends `PUT /api/leads/l3` with the email of the first, the
handler answers 200 and the rep now owns two leads with the same email. -/
theorem update_breaks_email_uniqueness :
    EmailsUniquePerOwner [sampleLead, secondLead] ∧
    (putLead [sampleLead, secondLead] repCaller "l3"
        { name := .str "Cy", email := .str "a@b.com", phone := .undefined,
          status := .str "Contacted" }).1
      = .json 200 { secondLead with email := .str "a@b.com" } ∧
    (run { leads := [sampleLead, secondLead], opportunities := [] }
        [.updateLead repCaller "l3"
          { name := .str "Cy", email := .str "a@b.com", phone := .undefined,
            status := .str "Contacted" }]).leads.map (fun l => (l.id, l.ownerId, l.email))
      = [("l1", "u3", .str "a@b.com"), ("l3", "u3", .str "a@b.com")] ∧
    ¬ EmailsUniquePerOwner
      (run { leads := [sampleLead, secondLead], opportunities := [] }
        [.updateLead repCaller "l3"
          { name := .str "Cy", email := .str "a@b.com", phone := .undefined,
            status := .str "Contacted" }]).leads := by
  decide

/-- The cases of `postOpportunities`: an error reply and the collection as read,
or the new record, with an admissible value and stage, pushed at the end. -/
theorem postOpportunities_cases (opportunities : List Opportunity) (user : Caller)
    (body : OpportunityBody) (now : Nat) (iso : String) :
    (∃ c msg, postOpportunities opportunities user body now iso
        = (.error c msg, opportunities)) ∨
    (notNonNegativeNumber body.value = false ∧
      (body.stage = .undefined ∨ body.stage = .str "Discovery" ∨
        body.stage = .str "Proposal" ∨ body.stage = .str "Won" ∨ body.stage = .str "Lost") ∧
      postOpportunities opportunities user body now iso =
        (.json 201
          { id := "o" ++ toString now, title := body.title, value := body.value,
            stage := orDefault body.stage (.str "Discovery"), ownerId := user.id,
            leadId := none, createdAt := iso },
         opportunities ++
          [{ id := "o" ++ toString now, title := body.title, value := body.value,
             stage := orDefault body.stage (.str "Discovery"), ownerId := user.id,
             leadId := none, createdAt := iso }])) := by
  by_cases ht : truthy body.title = true
  · by_cases hv : notNonNegativeNumber body.value = true
    · exact Or.inl ⟨400, "Value must be a positive number", by
        simp [postOpportunities, ht, hv]⟩
    · have hv' : notNonNegativeNumber body.value = false := Bool.eq_false_iff.mpr hv
      by_cases hstage : body.stage = .undefined ∨ body.stage = .str "Discovery" ∨
          body.stage = .str "Proposal" ∨ body.stage = .str "Won" ∨ body.stage = .str "Lost"
      · exact Or.inr ⟨hv', hstage,
          postOpportunities_of_valid opportunities user body now iso ht hv' hstage⟩
      · have hs : includes ["Discovery", "Proposal", "Won", "Lost"]
            (orDefault body.stage (.str "Discovery")) = false := by
          rw [Bool.eq_false_iff, Ne, includes_stage_iff]
          exact hstage
        exact Or.inl ⟨400, "Invalid stage", by simp [postOpportunities, ht, hv', hs]⟩
  · exact Or.inl ⟨400, "Title is required", by simp [postOpportunities, ht]⟩

/-- What `convertLead` writes to the opportunities: what it read, or what it read
followed by a record with the validated value and stage Discovery. -/
theorem convertLead_appended (leads : List Lead) (opportunities : List Opportunity)
    (user : Caller) (id : String) (body : ConvertBody) (now : Nat) (iso : String) :
    (convertLead leads opportunities user id body now iso).2.2 = opportunities ∨
    (notNonNegativeNumber body.value = false ∧
      ∃ opp : Opportunity, opp.value = body.value ∧ opp.stage = .str "Discovery" ∧
        (convertLead leads opportunities user id body now iso).2.2 = opportunities ++ [opp]) := by
  by_cases ht : truthy body.title = true
  · by_cases hv : notNonNegativeNumber body.value = true
    · exact Or.inl (by
        simp only [convertLead, ht, hv, Bool.not_true, Bool.false_eq_true, if_false, if_true])
    · have hv' : notNonNegativeNumber body.value = false := Bool.eq_false_iff.mpr hv
      rcases convertLead_cases leads opportunities user id body now iso with
        ⟨c, msg, hp⟩ | ⟨i, lead, _, hp⟩
      · exact Or.inl (by rw [hp])
      · exact Or.inr ⟨hv', _, rfl, rfl, by rw [hp]⟩
  · have ht' : truthy body.title = false := Bool.eq_false_iff.mpr ht
    exact Or.inl (by simp only [convertLead, ht', Bool.not_false, if_true])

theorem orDefault_stage_mem (s : JVal)
    (h : s = .undefined ∨ s = .str "Discovery" ∨ s = .str "Proposal" ∨ s = .str "Won" ∨
      s = .str "Lost") :
    orDefault s (.str "Discovery") ∈ opportunityStages := by
  rcases h with h | h | h | h | h <;> subst h <;> simp [orDefault, opportunityStages]

/-- Opportunity create, opportunity delete and convert keep every value a
non-negative number and every stage among the four; so does every lead request
other than convert, which does not touch the opportunities. -/
theorem handle_opportunitiesValid (s : Store) (r : Request)
    (hr : ∀ user id body, r ≠ .updateOpportunity user id body)
    (h : OpportunitiesValid s.opportunities) :
    OpportunitiesValid (handle s r).opportunities := by
  cases r with
  | updateOpportunity user id body => exact absurd rfl (hr user id body)
  | createLead user body now iso => exact h
  | updateLead user id body => exact h
  | removeLead user id => exact h
  | createOpportunity user body now iso =>
    simp only [handle]
    rcases postOpportunities_cases s.opportunities user body now iso with
      ⟨c, msg, hp⟩ | ⟨hv, hst, hp⟩
    · rw [hp]; exact h
    · rw [hp]
      intro o ho
      rcases List.mem_append.mp ho with ho | ho
      · exact h o ho
      · rw [List.mem_singleton] at ho
        subst ho
        exact ⟨hv, orDefault_stage_mem body.stage hst⟩
  | removeOpportunity user id =>
    simp only [handle]
    rcases deleteOpportunity_cases s.opportunities user id with ⟨c, msg, hp⟩ | hp
    · rw [hp]; exact h
    · rw [hp]
      intro o ho
      exact h o (List.mem_of_mem_filter ho)
  | convert user id body now iso =>
    simp only [handle]
    rcases convertLead_appended s.leads s.opportunities user id body now iso with
      hp | ⟨hv, opp, hval, hstage, hp⟩
    · rw [hp]; exact h
    · rw [hp]
      intro o ho
      rcases List.mem_append.mp ho with ho | ho
      · exact h o ho
      · rw [List.mem_singleton] at ho
        subst ho
        exact ⟨by rw [hval]; exact hv, by rw [hstage]; simp [opportunityStages]⟩

/-- C19, the code at the failing input: the stored opportunity has value 100 and
stage Discovery, its owner sends `PUT /api/opportunities/o1` with value -5 and
stage "Closed", the handler answers 200 and stores both; with value and stage
left out of the body both become `undefined`. -/
theorem update_breaks_opportunity_validity :
    OpportunitiesValid [sampleOpportunity] ∧
    putOpportunity [sampleOpportunity] repCaller "o1"
        { title := .str "Deal", value := .num (-5), stage := .str "Closed" }
      = (.json 200 { sampleOpportunity with value := .num (-5), stage := .str "Closed" },
          [{ sampleOpportunity with value := .num (-5), stage := .str "Closed" }]) ∧
    ¬ OpportunitiesValid
      (run { leads := [], opportunities := [sampleOpportunity] }
        [.updateOpportunity repCaller "o1"
          { title := .str "Deal", value := .num (-5), stage := .str "Closed" }]).opportunities ∧
    ¬ OpportunitiesValid
      (run { leads := [], opportunities := [sampleOpportunity] }
        [.updateOpportunity repCaller "o1"
          { title := .str "Deal", value := .undefined, stage := .undefined }]).opportunities := by
  decide

/-! ## Dashboard totals -/

theorem jsAdd_num_num (rt : Runtime) (p q : ℚ) : jsAdd rt (.num p) (.num q) = .num (p + q) := by
  simp [jsAdd, toNumber]

theorem orElse_num_zero (q : ℚ) : orElse (.num q) (.num 0) = .num q := by
  by_cases h : q = 0 <;> simp [orElse, truthy, h]

theorem total_add_num (rt : Runtime) (d : Double) (q : ℚ) :
    Total.add rt (.number d) (orElse (.num q) (.num 0)) = .number (Double.add rt d q) := by
  rw [orElse_num_zero]
  rfl

/-- The `totalValue` reduce over opportunities whose values are the numbers
`qs`: the numbers are added one after the other as the runtime adds doubles. -/
theorem foldl_totalValue (rt : Runtime) (os : List Opportunity) (qs : List ℚ) (d : Double)
    (h : os.map (fun o => o.value) = qs.map JVal.num) :
    os.foldl (fun sum opp => Total.add rt sum (orElse opp.value (.num 0))) (.number d)
      = .number (sumDoubles rt d qs) := by
  induction os generalizing qs d with
  | nil =>
    cases qs with
    | nil => rfl
    | cons q qs => simp at h
  | cons o os ih =>
    cases qs with
    | nil => simp at h
    | cons q qs =>
      simp only [List.map_cons, List.cons.injEq] at h
      simp only [List.foldl_cons, h.1, total_add_num, sumDoubles]
      exact ih qs (Double.add rt d q) h.2

/-- When every addition is exact, the numbers added one after the other give
their sum. -/
theorem sumDoubles_exact (rt : Runtime) (a : ℚ) (qs : List ℚ) (h : ExactSums rt a qs) :
    sumDoubles rt (.finite a) qs = .finite (a + qs.sum) := by
  induction qs generalizing a with
  | nil => simp [sumDoubles]
  | cons q qs ih =>
    obtain ⟨h1, h2⟩ := h
    have := ih (a + q) h2
    simp only [sumDoubles, List.foldl_cons, Double.add, h1, List.sum_cons] at this ⊢
    rw [this]
    congr 1
    ring

theorem exists_numbers (os : List Opportunity) (h : ∀ o ∈ os, ∃ q : ℚ, o.value = .num q) :
    ∃ qs : List ℚ, os.map (fun o => o.value) = qs.map JVal.num := by
  induction os with
  | nil => exact ⟨[], rfl⟩
  | cons o os ih =>
    obtain ⟨q, hq⟩ := h o (List.mem_cons_self _ _)
    obtain ⟨qs, hqs⟩ := ih fun o' ho' => h o' (List.mem_cons_of_mem _ ho')
    exact ⟨q :: qs, by simp [hq, hqs]⟩

/-- C14, as stated, fails: the default rep has two opportunities whose values
are the doubles 0.1 and 0.2. `totalValue` is the double that the addition of
doubles gives, 1351079888211149 / 2^52 (written 0.30000000000000004), which is
not the sum of the two values, 10808639105689191 / 2^55. -/
theorem stats_total_rounded_counterexample :
    getOpportunities fractionOpportunities repCaller = .json 200 fractionOpportunities ∧
    fractionOpportunities.map (fun o => o.value) = [.num tenth, .num fifth] ∧
    getDashboardStats roundingRuntime [] fractionOpportunities repCaller =
      .json 200
        { totalLeads := 0
          totalOpportunities := 2
          totalValue := .num (1351079888211149 / 4503599627370496)
          leadsByStatus := []
          opportunitiesByStage := [("Discovery", .num 2)] } ∧
    (1351079888211149 / 4503599627370496 : ℚ) ≠ tenth + fifth ∧
    tenth + fifth = 10808639105689191 / 36028797018963968 := by
  have h0 : ¬ (0 : ℚ) = tenth := by unfold tenth; norm_num
  refine ⟨?_, rfl, ?_, ?_, ?_⟩
  · simp [getOpportunities, fractionOpportunities, repCaller, sampleOpportunity, isRep,
      strictEq]
  · simp [getDashboardStats, fractionOpportunities, repCaller, sampleOpportunity, isRep,
      strictEq, increment, assign, getProp, ownProp, jsAdd, orElse, truthy, toNumber, toStr,
      inheritedNames, Total.add, Double.add, Total.toJson, roundingRuntime, h0]
    norm_num [tenth, fifth]
  · unfold tenth fifth
    norm_num
  · unfold tenth fifth
    norm_num

/-- C14, amended: when every opportunity value is a number, `getDashboardStats`
answers 200 with `totalLeads` and `totalOpportunities` the lengths of what
`getLeads` and `getOpportunities` answer to the same caller, and `totalValue`
the values of exactly the opportunities `getOpportunities` answers, added to 0
one after the other in list order as the runtime adds doubles (`null` when that
is not finite); when each of these additions is exact, `totalValue` is the sum
of these values. -/
theorem stats_totals (rt : Runtime) (leads : List Lead) (opportunities : List Opportunity)
    (user : Caller) (hnum : ∀ o ∈ opportunities, ∃ q : ℚ, o.value = .num q) :
    ∃ (visibleLeads : List Lead) (visibleOpportunities : List Opportunity) (qs : List ℚ)
      (st : Stats),
      getLeads leads user = .json 200 visibleLeads ∧
      getOpportunities opportunities user = .json 200 visibleOpportunities ∧
      visibleOpportunities.map (fun o => o.value) = qs.map JVal.num ∧
      getDashboardStats rt leads opportunities user = .json 200 st ∧
      st.totalLeads = visibleLeads.length ∧
      st.totalOpportunities = visibleOpportunities.length ∧
      st.totalValue = Total.toJson (.number (sumDoubles rt (.finite 0) qs)) ∧
      (ExactSums rt 0 qs → st.totalValue = .num qs.sum) := by
  have hvis : ∀ o ∈ (if isRep user then
      opportunities.filter fun o => decide (o.ownerId = user.id) else opportunities),
      ∃ q : ℚ, o.value = .num q := by
    intro o ho
    split_ifs at ho
    · exact hnum o (List.mem_of_mem_filter ho)
    · exact hnum o ho
  obtain ⟨qs, hqs⟩ := exists_numbers _ hvis
  have htotal := foldl_totalValue rt _ qs (.finite 0) hqs
  refine ⟨if isRep user then leads.filter fun l => decide (l.ownerId = user.id) else leads,
    if isRep user then opportunities.filter fun o => decide (o.ownerId = user.id)
      else opportunities, qs, _, ?_, ?_, hqs, rfl, rfl, rfl, ?_, ?_⟩
  · unfold getLeads
    split_ifs <;> rfl
  · unfold getOpportunities
    split_ifs <;> rfl
  · simp only [htotal]
  · intro hexact
    simp only [htotal, sumDoubles_exact rt 0 qs hexact, Total.toJson, zero_add]

/-- Witness of the amended C14: the default rep has leads New, New, Qualified
and opportunities 100 and 50 in a store that also holds records of the second
rep; the additions 0 + 100 and 100 + 50 are exact and the totals are 3, 2 and
150. -/
theorem stats_totals_witness :
    (∀ o ∈ statsOpportunities, ∃ q : ℚ, o.value = .num q) ∧
    ExactSums sampleRuntime 0 [100, 50] ∧
    getDashboardStats sampleRuntime statsLeads statsOpportunities repCaller =
      .json 200
        { totalLeads := 3
          totalOpportunities := 2
          totalValue := .num 150
          leadsByStatus := [("New", .num 2), ("Qualified", .num 1)]
          opportunitiesByStage := [("Discovery", .num 1), ("Won", .num 1)] } ∧
    ∃ (visibleLeads : List Lead) (visibleOpportunities : List Opportunity) (qs : List ℚ)
      (st : Stats),
      getLeads statsLeads repCaller = .json 200 visibleLeads ∧
      getOpportunities statsOpportunities repCaller = .json 200 visibleOpportunities ∧
      visibleOpportunities.map (fun o => o.value) = qs.map JVal.num ∧
      getDashboardStats sampleRuntime statsLeads statsOpportunities repCaller = .json 200 st ∧
      st.totalLeads = visibleLeads.length ∧
      st.totalOpportunities = visibleOpportunities.length ∧
      st.totalValue = Total.toJson (.number (sumDoubles sampleRuntime (.finite 0) qs)) ∧
      (ExactSums sampleRuntime 0 qs → st.totalValue = .num qs.sum) :=
  have hnum : ∀ o ∈ statsOpportunities, ∃ q : ℚ, o.value = .num q := by
    simp [statsOpportunities, sampleOpportunity, otherOpportunity]
  ⟨hnum,
   by simp [ExactSums, sampleRuntime],
   by
    simp [getDashboardStats, statsLeads, statsOpportunities, repCaller, sampleLead, secondLead,
      otherLead, sampleOpportunity, otherOpportunity, isRep, strictEq, increment, assign,
      getProp, ownProp, jsAdd, orElse, truthy, toNumber, toStr, inheritedNames, Total.add,
      Double.add, Total.toJson, sampleRuntime]
    norm_num,
   stats_totals sampleRuntime statsLeads statsOpportunities repCaller hnum⟩

/-! ## Dashboard counts -/

theorem ownProp_assign (acc : List (String × JVal)) (key : String) (v : JVal) (k : String) :
    ownProp (assign acc key v) k = if k = key then some v else ownProp acc k := by
  induction acc with
  | nil =>
    by_cases h : k = key
    · simp [assign, ownProp, h]
    · have h' : ¬ key = k := fun e => h e.symm
      simp [assign, ownProp, h, h']
  | cons p rest ih =>
    obtain ⟨k', w⟩ := p
    by_cases hk' : k' = key
    · subst hk'
      by_cases h : k = k'
      · subst h
        simp [assign, ownProp]
      · have h' : ¬ k' = k := fun e => h e.symm
        simp [assign, ownProp, h, h']
    · by_cases h : k' = k
      · subst h
        simp [assign, ownProp, hk']
      · simp [assign, ownProp, hk', h, ih]

/-- One `increment` keeps the own properties in step with the keys seen so far,
for every key that is not inherited from `Object.prototype`. -/
theorem increment_counts (rt : Runtime) (acc : List (String × JVal)) (seen : List String)
    (key : String)
    (h : ∀ k, k ∉ inheritedNames →
      ownProp acc k = if seen.count k = 0 then none else some (.num (seen.count k))) :
    ∀ k, k ∉ inheritedNames →
      ownProp (increment rt acc key) k =
        if (seen ++ [key]).count k = 0 then none else some (.num ((seen ++ [key]).count k)) := by
  intro k hk
  have hproto : k ≠ "__proto__" := fun e => hk (by rw [e]; decide)
  by_cases hkey : key = "__proto__"
  · have hne : ¬ key = k := fun e => hproto (e ▸ hkey)
    simp only [increment, hkey, if_true, List.count_append, List.count_singleton, beq_iff_eq]
    rw [h k hk]
    have : ¬ "__proto__" = k := fun e => hproto e.symm
    simp [this]
  · simp only [increment, hkey, if_false, ownProp_assign, List.count_append,
      List.count_singleton, beq_iff_eq]
    by_cases hkk : k = key
    · subst hkk
      simp only [if_true]
      have hown := h k hk
      by_cases hc : seen.count k = 0
      · simp only [hc, if_true] at hown
        simp [getProp, hown, hk, orElse, truthy, jsAdd_num_num, hc]
      · simp only [hc, if_false] at hown
        have hq : ((seen.count k : ℕ) : ℚ) ≠ 0 := by exact_mod_cast hc
        simp [getProp, hown, orElse, truthy, hq, jsAdd_num_num]
    · have hkk' : ¬ key = k := fun e => hkk e.symm
      simp only [hkk, hkk', if_false, Nat.add_zero]
      exact h k hk

/-- The reduce `keys.reduce((acc, key) => { acc[key] = (acc[key] || 0) + 1; return acc }, {})`
holds, for every key that is not inherited from `Object.prototype`, an own
property exactly when the key occurs, with the number of occurrences as value. -/
theorem foldl_increment_counts (rt : Runtime) (keys : List String) (k : String)
    (hk : k ∉ inheritedNames) :
    ownProp (keys.foldl (increment rt) []) k =
      if keys.count k = 0 then none else some (.num (keys.count k)) := by
  have key : ∀ (ks : List String) (acc : List (String × JVal)) (seen : List String),
      (∀ k, k ∉ inheritedNames →
        ownProp acc k = if seen.count k = 0 then none else some (.num (seen.count k))) →
      ∀ k, k ∉ inheritedNames →
        ownProp (ks.foldl (increment rt) acc) k =
          if (seen ++ ks).count k = 0 then none else some (.num ((seen ++ ks).count k)) := by
    intro ks
    induction ks with
    | nil =>
      intro acc seen h k hk
      simpa using h k hk
    | cons x xs ih =>
      intro acc seen h k hk
      have := ih (increment rt acc x) (seen ++ [x]) (increment_counts rt acc seen x h) k hk
      simpa using this
  have := key keys [] [] (fun k _ => by simp [ownProp]) k hk
  simpa using this

/-- For every status whose key is not inherited from `Object.prototype`,
`leadsByStatus` has the key exactly when a visible lead has the status, with
the number of such leads as value; likewise `opportunitiesByStage`. -/
theorem stats_counts (rt : Runtime) (leads : List Lead) (opportunities : List Opportunity)
    (user : Caller) (k : String) (hk : k ∉ inheritedNames) :
    ∃ (visibleLeads : List Lead) (visibleOpportunities : List Opportunity) (st : Stats),
      getLeads leads user = .json 200 visibleLeads ∧
      getOpportunities opportunities user = .json 200 visibleOpportunities ∧
      getDashboardStats rt leads opportunities user = .json 200 st ∧
      ownProp st.leadsByStatus k =
        (if (visibleLeads.map fun l => toStr rt l.status).count k = 0 then none
         else some (.num ((visibleLeads.map fun l => toStr rt l.status).count k))) ∧
      ownProp st.opportunitiesByStage k =
        (if (visibleOpportunities.map fun o => toStr rt o.stage).count k = 0 then none
         else some (.num ((visibleOpportunities.map fun o => toStr rt o.stage).count k))) := by
  refine ⟨if isRep user then leads.filter fun l => decide (l.ownerId = user.id) else leads,
    if isRep user then opportunities.filter fun o => decide (o.ownerId = user.id)
      else opportunities, _, ?_, ?_, rfl, ?_, ?_⟩
  · unfold getLeads
    split_ifs <;> rfl
  · unfold getOpportunities
    split_ifs <;> rfl
  · rw [← foldl_increment_counts rt _ k hk, List.foldl_map]
  · rw [← foldl_increment_counts rt _ k hk, List.foldl_map]

/-- C15, the code at the failing inputs: a visible lead with status
"constructor" gives `leadsByStatus.constructor` a string (the inherited
function followed by "1"), not the count 1; a visible lead with status
"__proto__" gives `leadsByStatus` no key at all although `totalLeads` is 1. The
same holds for a stage in `opportunitiesByStage`. -/
theorem stats_counts_inherited_keys :
    ∀ rt : Runtime,
      getDashboardStats rt [{ sampleLead with status := .str "constructor" }] [] repCaller =
        .json 200
          { totalLeads := 1
            totalOpportunities := 0
            totalValue := .num 0
            leadsByStatus :=
              [("constructor",
                .str (rt.objToString "Object.prototype.constructor" ++ rt.numToString 1))]
            opportunitiesByStage := [] } ∧
      getDashboardStats rt [{ sampleLead with status := .str "__proto__" }] [] repCaller =
        .json 200
          { totalLeads := 1
            totalOpportunities := 0
            totalValue := .num 0
            leadsByStatus := []
            opportunitiesByStage := [] } ∧
      getDashboardStats rt [] [{ sampleOpportunity with stage := .str "__proto__" }] repCaller =
        .json 200
          { totalLeads := 0
            totalOpportunities := 1
            totalValue := .num 100
            leadsByStatus := []
            opportunitiesByStage := [] } := by
  intro rt
  refine ⟨?_, ?_, ?_⟩
  · simp [getDashboardStats, repCaller, sampleLead, isRep, strictEq, increment, assign, getProp,
      ownProp, jsAdd, orElse, truthy, toStr, inheritedNames, Total.toJson]
  · simp [getDashboardStats, repCaller, sampleLead, isRep, strictEq, increment, toStr,
      Total.toJson]
  · simp [getDashboardStats, repCaller, sampleOpportunity, isRep, strictEq, increment, toStr,
      orElse, truthy, toNumber, Total.add, Double.add, Total.toJson, rt.zero_addNumbers]

/-! ## The roles of users and credentials -/

/-- What `postRegister` writes: the users as read, or the users followed by a
record with the role of the body, `rep` when the body has none. -/
theorem postRegister_users (users : List User) (body : RegisterBody) (hashed : Option String)
    (now : Nat) :
    (postRegister users body hashed now).2 = users ∨
    ∃ u : User, u.role = orDefault body.role (.str "rep") ∧
      (postRegister users body hashed now).2 = users ++ [u] := by
  unfold postRegister
  simp only
  split_ifs
  · exact Or.inl rfl
  · cases hashed with
    | none => exact Or.inl rfl
    | some h => exact Or.inr ⟨_, rfl, rfl⟩

/-- A json reply of `postRegister` carries a token with the role of the body,
`rep` when the body has none. -/
theorem postRegister_token (users : List User) (body : RegisterBody) (hashed : Option String)
    (now : Nat) (c : Nat) (s : Session)
    (h : (postRegister users body hashed now).1 = .json c s) :
    s.token.role = orDefault body.role (.str "rep") ∧
    s.user.role = orDefault body.role (.str "rep") := by
  unfold postRegister at h
  simp only at h
  split_ifs at h
  cases hashed with
  | none => simp at h
  | some hp =>
    simp only [Reply.json.injEq] at h
    obtain ⟨_, hs⟩ := h
    subst hs
    exact ⟨rfl, rfl⟩

/-- What `putUser` writes: the users as read, or the users with one record
replaced by a record with the role of the body. -/
theorem putUser_users (users : List User) (user : Caller) (id : String) (body : UserBody) :
    (putUser users user id body).2 = users ∨
    ∃ (i : Nat) (u : User), u.role = body.role ∧ (putUser users user id body).2 = users.set i u := by
  by_cases hadmin : (!requireRole ["admin"] user) = true
  · exact Or.inl (by simp only [putUser, hadmin, if_true])
  · cases hfind : findIndex (fun u => decide (u.id = id)) users with
    | none => exact Or.inl (by simp only [putUser, hadmin, hfind, Bool.false_eq_true, if_false])
    | some i =>
      cases hget : users[i]? with
      | none => exact Or.inl (by simp only [putUser, hadmin, hfind, hget, Bool.false_eq_true, if_false])
      | some found =>
        exact Or.inr ⟨i, { found with name := body.name, email := body.email,
                                       role := body.role }, rfl, by
          simp only [putUser, hadmin, hfind, hget, Bool.false_eq_true, if_false]⟩

/-- What `deleteUser` writes: the users as read, or the users with another id. -/
theorem deleteUser_users (users : List User) (user : Caller) (id : String) :
    (deleteUser users user id).2 = users ∨
    (deleteUser users user id).2 = users.filter fun u => decide (u.id ≠ id) := by
  unfold deleteUser
  simp only
  split_ifs
  · exact Or.inl rfl
  · exact Or.inl rfl
  · exact Or.inr rfl

/-- A json reply of `postLogin` carries the role of a stored user. -/
theorem postLogin_token (compare : JVal → String → Option Bool) (users : List User)
    (body : LoginBody) (c : Nat) (s : Session)
    (h : postLogin compare users body = .json c s) :
    ∃ u ∈ users, s.token.role = u.role ∧ s.user.role = u.role := by
  unfold postLogin at h
  cases hfind : users.find? (fun u => strictEq u.email body.email) with
  | none => simp [hfind] at h
  | some user =>
    simp only [hfind] at h
    cases hc : compare body.password user.password with
    | none => simp [hc] at h
    | some b =>
      cases b with
      | false => simp [hc] at h
      | true =>
        simp only [hc, Reply.json.injEq] at h
        obtain ⟨_, hs⟩ := h
        subst hs
        exact ⟨user, List.mem_of_find?_eq_some hfind, rfl, rfl⟩

theorem orDefault_role_mem (r : JVal) (h : r = .undefined ∨ r ∈ roles) :
    orDefault r (.str "rep") ∈ roles := by
  rcases h with h | h
  · subst h
    simp [orDefault, roles]
  · have hne : r ≠ .undefined := by
      intro e
      subst e
      simp [roles] at h
    rw [orDefault_of_ne _ hne]
    exact h

/-- A request that names one of the three roles keeps the roles among the three. -/
theorem handleUser_rolesValid (users : List User) (r : UserRequest) (hr : r.RoleAdmissible)
    (h : RolesValid users) : RolesValid (handleUser users r) := by
  cases r with
  | register body hashed now =>
    simp only [handleUser]
    rcases postRegister_users users body hashed now with hp | ⟨u, hu, hp⟩
    · rw [hp]; exact h
    · rw [hp]
      intro v hv
      rcases List.mem_append.mp hv with hv | hv
      · exact h v hv
      · rw [List.mem_singleton] at hv
        subst hv
        rw [hu]
        exact orDefault_role_mem body.role hr
  | update user id body =>
    simp only [handleUser]
    rcases putUser_users users user id body with hp | ⟨i, u, hu, hp⟩
    · rw [hp]; exact h
    · rw [hp]
      intro v hv
      rcases List.mem_or_eq_of_mem_set hv with hv | hv
      · exact h v hv
      · subst hv
        rw [hu]
        exact hr
  | remove user id =>
    simp only [handleUser]
    rcases deleteUser_users users user id with hp | hp
    · rw [hp]; exact h
    · rw [hp]
      intro v hv
      exact h v (List.mem_of_mem_filter hv)

theorem runUsers_rolesValid (users : List User) (rs : List UserRequest)
    (hrs : ∀ r ∈ rs, r.RoleAdmissible) (h : RolesValid users) :
    RolesValid (runUsers users rs) := by
  induction rs generalizing users with
  | nil => exact h
  | cons r rs ih =>
    simp only [runUsers, List.foldl_cons] at ih ⊢
    exact ih (handleUser users r) (fun r' hr' => hrs r' (List.mem_cons_of_mem _ hr'))
      (handleUser_rolesValid users r (hrs r (List.mem_cons_self _ _)) h)

/-- C20, as stated, fails: on the default users a register with role "guest" is
answered 201, the credential carries the role "guest" and the stored user has
the role "guest". -/
theorem register_any_role_counterexample :
    RolesValid sampleUsers ∧
    postRegister sampleUsers guestRegisterBody (some "hash-guest") 1700000000000 =
      (.json 201
        { token := { id := "u1700000000000", email := .str "guest@crm.com",
                     role := .str "guest" }
          user := { id := "u1700000000000", name := .str "Gus",
                    email := .str "guest@crm.com", role := .str "guest" } },
       sampleUsers ++ [guestUser]) ∧
    ¬ RolesValid
      (runUsers sampleUsers [.register guestRegisterBody (some "hash-guest") 1700000000000]) ∧
    postLogin (fun _ _ => some true)
        (runUsers sampleUsers [.register guestRegisterBody (some "hash-guest") 1700000000000])
        { email := .str "guest@crm.com", password := .str "guest123" } =
      .json 200
        { token := { id := "u1700000000000", email := .str "guest@crm.com",
                     role := .str "guest" }
          user := { id := "u1700000000000", name := .str "Gus",
                    email := .str "guest@crm.com", role := .str "guest" } } := by
  decide

/-- C20, amended: from the default users, along every sequence of registers
whose role is left out or one of admin, manager, rep, user updates whose role is
one of the three, and user deletes, every user has one of the three roles; every
credential that login issues in such a state, and every credential that such a
register issues, carries one of the three roles. -/
theorem roles_valid_for_admissible_requests (adminHash managerHash repHash : String)
    (rs : List UserRequest) (hrs : ∀ r ∈ rs, r.RoleAdmissible) :
    RolesValid (runUsers (defaultUsers adminHash managerHash repHash) rs) ∧
    (∀ (compare : JVal → String → Option Bool) (body : LoginBody) (c : Nat) (s : Session),
      postLogin compare (runUsers (defaultUsers adminHash managerHash repHash) rs) body
          = .json c s →
        s.token.role ∈ roles) ∧
    (∀ (body : RegisterBody) (hashed : Option String) (now : Nat) (c : Nat) (s : Session),
      (body.role = .undefined ∨ body.role ∈ roles) →
      (postRegister (runUsers (defaultUsers adminHash managerHash repHash) rs) body hashed
          now).1 = .json c s →
        s.token.role ∈ roles) := by
  have hdefault : RolesValid (defaultUsers adminHash managerHash repHash) := by
    intro u hu
    simp only [defaultUsers, List.mem_cons, List.mem_singleton, List.not_mem_nil,
      or_false] at hu
    rcases hu with rfl | rfl | rfl <;> simp [roles]
  have hvalid := runUsers_rolesValid _ rs hrs hdefault
  refine ⟨hvalid, ?_, ?_⟩
  · intro compare body c s h
    obtain ⟨u, hu, htoken, _⟩ := postLogin_token compare _ body c s h
    rw [htoken]
    exact hvalid u hu
  · intro body hashed now c s hrole h
    rw [(postRegister_token _ body hashed now c s h).1]
    exact orDefault_role_mem body.role hrole

/-- Witness of the amended C20: a register without role, an update to manager
and a delete, all admissible, leave three users with roles among the three. -/
theorem roles_valid_for_admissible_requests_witness :
    (∀ r ∈ sampleUserRequests, r.RoleAdmissible) ∧
    RolesValid (runUsers (defaultUsers "hash-admin" "hash-manager" "hash-rep")
      sampleUserRequests) ∧
    (runUsers (defaultUsers "hash-admin" "hash-manager" "hash-rep") sampleUserRequests).map
      (fun u => (u.id, u.role))
      = [("u1", .str "admin"), ("u3", .str "rep"), ("u1700000000000", .str "manager")] :=
  have hrs : ∀ r ∈ sampleUserRequests, r.RoleAdmissible := by
    intro r hr
    simp only [sampleUserRequests, List.mem_cons, List.mem_singleton, List.not_mem_nil,
      or_false] at hr
    rcases hr with rfl | rfl | rfl <;> simp [UserRequest.RoleAdmissible, roles]
  ⟨hrs,
   (roles_valid_for_admissible_requests "hash-admin" "hash-manager" "hash-rep"
      sampleUserRequests hrs).1,
   by decide⟩

/-! ## The emails of users -/

/-- What `postRegister` writes: the users as read, or the users followed by a
record whose email no stored user has. -/
theorem postRegister_email (users : List User) (body : RegisterBody) (hashed : Option String)
    (now : Nat) :
    (postRegister users body hashed now).2 = users ∨
    ∃ u : User, (∀ v ∈ users, strictEq v.email u.email = false) ∧
      (postRegister users body hashed now).2 = users ++ [u] := by
  by_cases hdup : (users.find? fun u => strictEq u.email body.email).isSome = true
  · exact Or.inl (by simp only [postRegister, hdup, if_true])
  · cases hashed with
    | none =>
      exact Or.inl (by
        simp only [postRegister, Bool.eq_false_iff.mpr hdup, Bool.false_eq_true, if_false])
    | some h =>
      refine Or.inr
        ⟨{ id := "u" ++ toString now
           name := body.name
           email := body.email
           password := h
           role := orDefault body.role (.str "rep") }, ?_, by
          simp only [postRegister, Bool.eq_false_iff.mpr hdup, Bool.false_eq_true, if_false]⟩
      intro v hv
      rw [Bool.eq_false_iff]
      intro he
      apply hdup
      rw [find?_isSome_iff]
      exact ⟨v, hv, he⟩

/-- Register and delete keep the emails pairwise distinct. -/
theorem handleUser_emailsUnique (users : List User) (r : UserRequest)
    (hr : ∀ user id body, r ≠ .update user id body) (h : UserEmailsUnique users) :
    UserEmailsUnique (handleUser users r) := by
  cases r with
  | update user id body => exact absurd rfl (hr user id body)
  | register body hashed now =>
    simp only [handleUser]
    rcases postRegister_email users body hashed now with hp | ⟨u, hu, hp⟩
    · rw [hp]; exact h
    · rw [hp]
      refine List.pairwise_append.mpr ⟨h, List.pairwise_singleton _ _, ?_⟩
      intro a ha b hb
      rw [List.mem_singleton] at hb
      subst hb
      exact hu a ha
  | remove user id =>
    simp only [handleUser]
    rcases deleteUser_users users user id with hp | hp
    · rw [hp]; exact h
    · rw [hp]
      exact List.Pairwise.sublist (List.filter_sublist _) h

/-- C21, the code at the failing input: the default users have three emails, the
admin sends `PUT /api/users/u2` with the email of the admin, the handler
answers 200 and two users now have the email `admin@crm.com`. -/
theorem update_breaks_user_email_uniqueness :
    UserEmailsUnique sampleUsers ∧
    (putUser sampleUsers adminCaller "u2"
        { name := .str "John Manager", email := .str "admin@crm.com",
          role := .str "manager" }).1
      = .json 200 { id := "u2", name := .str "John Manager", email := .str "admin@crm.com",
                    role := .str "manager" } ∧
    (runUsers sampleUsers
        [.update adminCaller "u2"
          { name := .str "John Manager", email := .str "admin@crm.com",
            role := .str "manager" }]).map (fun u => (u.id, u.email))
      = [("u1", .str "admin@crm.com"), ("u2", .str "admin@crm.com"),
         ("u3", .str "rep@crm.com")] ∧
    ¬ UserEmailsUnique
      (runUsers sampleUsers
        [.update adminCaller "u2"
          { name := .str "John Manager", email := .str "admin@crm.com",
            role := .str "manager" }]) := by
  decide

/-! ## Generated ids -/

theorem nodup_map_append_singleton {α β : Type} (f : α → β) (xs : List α) (x : α)
    (h : (xs.map f).Nodup) (hx : f x ∉ xs.map f) : ((xs ++ [x]).map f).Nodup := by
  rw [List.map_append, List.nodup_append]
  refine ⟨h, by simp, ?_⟩
  intro a ha hb
  simp only [List.map_cons, List.map_nil, List.mem_singleton] at hb
  subst hb
  exact hx ha

theorem map_eq_of_forall₂ {α β : Type} (f : α → β) (R : α → α → Prop)
    (hR : ∀ a b, R a b → f a = f b) {xs ys : List α} (h : List.Forall₂ R xs ys) :
    xs.map f = ys.map f := by
  induction h with
  | nil => rfl
  | cons h' _ ih => simp [hR _ _ h', ih]

/-- What `postRegister` writes: the users as read, or the users followed by a
record whose id is `u` and the clock reading. -/
theorem postRegister_id (users : List User) (body : RegisterBody) (hashed : Option String)
    (now : Nat) :
    (postRegister users body hashed now).2 = users ∨
    ∃ u : User, u.id = "u" ++ toString now ∧
      (postRegister users body hashed now).2 = users ++ [u] := by
  unfold postRegister
  simp only
  split_ifs
  · exact Or.inl rfl
  · cases hashed with
    | none => exact Or.inl rfl
    | some h => exact Or.inr ⟨_, rfl, rfl⟩

/-- C22, as stated, fails: the store holds one lead, created at clock reading
1700000000000; a second create at the same clock reading succeeds with 201 and
the two leads share the id `l1700000000000`. -/
theorem same_clock_reading_counterexample :
    ([createdLead].map fun l => l.id).Nodup ∧
    (postLeads [createdLead] repCaller
        { name := .str "Zed", email := .str "z@b.com", phone := .undefined,
          status := .undefined } 1700000000000 "2024-02-01T00:00:00.500Z").1
      = .json 201
          { id := "l1700000000000", name := .str "Zed", email := .str "z@b.com",
            phone := .undefined, status := .str "New", ownerId := "u3",
            createdAt := "2024-02-01T00:00:00.500Z" } ∧
    ((postLeads [createdLead] repCaller
        { name := .str "Zed", email := .str "z@b.com", phone := .undefined,
          status := .undefined } 1700000000000 "2024-02-01T00:00:00.500Z").2.map
        fun l => l.id) = ["l1700000000000", "l1700000000000"] ∧
    ¬ ((postLeads [createdLead] repCaller
        { name := .str "Zed", email := .str "z@b.com", phone := .undefined,
          status := .undefined } 1700000000000 "2024-02-01T00:00:00.500Z").2.map
        fun l => l.id).Nodup := by
  decide

/-- C22, amended: when the ids of a collection are pairwise distinct and the id
built from the clock reading (`l`, `o` or `u` followed by `Date.now()`) is not
yet in the collection, the collection written by lead create, opportunity
create, convert or register has pairwise distinct ids; convert also leaves the
ids of the leads as they were. -/
theorem ids_distinct_when_fresh (leads : List Lead) (opportunities : List Opportunity)
    (users : List User) (user : Caller) (leadBody : LeadBody) (oppBody : OpportunityBody)
    (convertBody : ConvertBody) (registerBody : RegisterBody) (hashed : Option String)
    (id : String) (now : Nat) (iso : String)
    (hleads : (leads.map fun l => l.id).Nodup)
    (hopps : (opportunities.map fun o => o.id).Nodup)
    (husers : (users.map fun u => u.id).Nodup)
    (hl : "l" ++ toString now ∉ leads.map fun l => l.id)
    (ho : "o" ++ toString now ∉ opportunities.map fun o => o.id)
    (hu : "u" ++ toString now ∉ users.map fun u => u.id) :
    ((postLeads leads user leadBody now iso).2.map fun l => l.id).Nodup ∧
    ((postOpportunities opportunities user oppBody now iso).2.map fun o => o.id).Nodup ∧
    ((convertLead leads opportunities user id convertBody now iso).2.2.map
      fun o => o.id).Nodup ∧
    ((convertLead leads opportunities user id convertBody now iso).2.1.map fun l => l.id)
      = leads.map (fun l => l.id) ∧
    ((postRegister users registerBody hashed now).2.map fun u => u.id).Nodup := by
  refine ⟨?_, ?_, ?_, ?_, ?_⟩
  · rcases postLeads_cases leads user leadBody now iso with ⟨c, msg, hp⟩ | ⟨_, _, hp⟩
    · rw [hp]; exact hleads
    · rw [hp]
      exact nodup_map_append_singleton _ leads _ hleads hl
  · rcases postOpportunities_cases opportunities user oppBody now iso with
      ⟨c, msg, hp⟩ | ⟨_, _, hp⟩
    · rw [hp]; exact hopps
    · rw [hp]
      exact nodup_map_append_singleton _ opportunities _ hopps ho
  · rcases convertLead_cases leads opportunities user id convertBody now iso with
      ⟨c, msg, hp⟩ | ⟨i, lead, _, hp⟩
    · rw [hp]; exact hopps
    · rw [hp]
      exact nodup_map_append_singleton _ opportunities _ hopps ho
  · exact map_eq_of_forall₂ _ sameLeadIdentity (fun _ _ h => h.1)
      (convertLead_identity leads opportunities user id convertBody now iso)
  · rcases postRegister_id users registerBody hashed now with hp | ⟨u, hid, hp⟩
    · rw [hp]; exact husers
    · rw [hp]
      exact nodup_map_append_singleton _ users u husers (by rw [hid]; exact hu)

/-- Witness of the amended C22: the sample store and the default users at a
clock reading that none of their ids carries. -/
theorem ids_distinct_when_fresh_witness :
    ((postLeads sampleStore.leads repCaller sampleLeadBody 1700000000000
      "2024-02-01T00:00:00.000Z").2.map fun l => l.id) = ["l1", "l2", "l1700000000000"] ∧
    ((postLeads sampleStore.leads repCaller sampleLeadBody 1700000000000
      "2024-02-01T00:00:00.000Z").2.map fun l => l.id).Nodup ∧
    ((postOpportunities sampleStore.opportunities repCaller directBody 1700000000000
      "2024-02-01T00:00:00.000Z").2.map fun o => o.id).Nodup ∧
    ((convertLead sampleStore.leads sampleStore.opportunities repCaller "l1"
      { title := .str "Deal", value := .num 100 } 1700000000000
      "2024-02-01T00:00:00.000Z").2.2.map fun o => o.id).Nodup ∧
    ((postRegister sampleUsers guestRegisterBody (some "hash-guest") 1700000000000).2.map
      fun u => u.id).Nodup :=
  have h := ids_distinct_when_fresh sampleStore.leads sampleStore.opportunities sampleUsers
    repCaller sampleLeadBody directBody { title := .str "Deal", value := .num 100 }
    guestRegisterBody (some "hash-guest") "l1" 1700000000000 "2024-02-01T00:00:00.000Z"
    (by decide) (by decide) (by decide) (by decide) (by decide) (by decide)
  ⟨by decide, h.1, h.2.1, h.2.2.1, h.2.2.2.2⟩

/-! ## Password hashes stay inside -/

theorem findIndex_map {α β : Type} (f : α → β) (p : β → Bool) (xs : List α) :
    findIndex p (xs.map f) = findIndex (fun x => p (f x)) xs := by
  induction xs with
  | nil => rfl
  | cons x xs ih => simp [findIndex, ih]

theorem findIndex_user_eq (users1 users2 : List User) (id : String)
    (h : users1.map User.safe = users2.map User.safe) :
    findIndex (fun u : User => decide (u.id = id)) users1
      = findIndex (fun u : User => decide (u.id = id)) users2 := by
  have h1 := findIndex_map User.safe (fun s : SafeUser => decide (s.id = id)) users1
  have h2 := findIndex_map User.safe (fun s : SafeUser => decide (s.id = id)) users2
  simp only [User.safe] at h1 h2 h
  rw [← h1, ← h2]
  simp only [User.safe, h]

theorem getElem?_safe_eq (users1 users2 : List User) (i : Nat)
    (h : users1.map User.safe = users2.map User.safe) :
    (users1[i]?).map User.safe = (users2[i]?).map User.safe := by
  rw [← List.getElem?_map, ← List.getElem?_map, h]

theorem find?_email_isSome_eq (users1 users2 : List User) (email : JVal)
    (h : users1.map User.safe = users2.map User.safe) :
    (users1.find? fun u => strictEq u.email email).isSome
      = (users2.find? fun u => strictEq u.email email).isSome := by
  have key : ∀ users : List User,
      (users.find? fun u => strictEq u.email email).isSome
        = (users.map User.safe).any fun s => strictEq s.email email := by
    intro users
    induction users with
    | nil => rfl
    | cons u us ih =>
      by_cases hu : strictEq u.email email = true
      · simp [List.find?, hu, User.safe]
      · have hu' : strictEq u.email email = false := Bool.eq_false_iff.mpr hu
        simp only [List.find?, hu', List.map_cons, List.any_cons, User.safe, Bool.false_or]
        simpa [User.safe] using ih
  rw [key users1, key users2, h]

/-- The reply of `putUser` is the same on two collections with the same user objects. -/
theorem putUser_reply_eq (users1 users2 : List User) (user : Caller) (id : String)
    (body : UserBody) (h : users1.map User.safe = users2.map User.safe) :
    (putUser users1 user id body).1 = (putUser users2 user id body).1 := by
  by_cases hadmin : (!requireRole ["admin"] user) = true
  · simp only [putUser, hadmin, if_true]
  · have hfind := findIndex_user_eq users1 users2 id h
    cases h1 : findIndex (fun u : User => decide (u.id = id)) users1 with
    | none =>
      have h2 := hfind ▸ h1
      simp only [putUser, hadmin, h1, h2, Bool.false_eq_true, if_false]
    | some i =>
      have h2 := hfind ▸ h1
      have hget := getElem?_safe_eq users1 users2 i h
      cases g1 : users1[i]? with
      | none =>
        cases g2 : users2[i]? with
        | none => simp only [putUser, hadmin, h1, h2, g1, g2, Bool.false_eq_true, if_false]
        | some u2 => simp [g1, g2] at hget
      | some u1 =>
        cases g2 : users2[i]? with
        | none => simp [g1, g2] at hget
        | some u2 =>
          simp only [g1, g2, Option.map_some', Option.some.injEq, User.safe,
            SafeUser.mk.injEq] at hget
          simp only [putUser, hadmin, h1, h2, g1, g2, Bool.false_eq_true, if_false, hget.1]

/-- C23: the user objects of the replies are built from id, name, email and role
only. On two users collections with the same ids, names, emails and roles (they
differ at most in password hashes) the user list, the user update and the
register answer the same; a login that succeeds answers the id, name, email and
role of a stored user, in the user object and in the token. -/
theorem no_password_in_replies :
    (∀ (users1 users2 : List User) (user : Caller) (id : String) (body : UserBody)
        (registerBody : RegisterBody) (hashed : Option String) (now : Nat),
      users1.map User.safe = users2.map User.safe →
        getUsers users1 user = getUsers users2 user ∧
        (putUser users1 user id body).1 = (putUser users2 user id body).1 ∧
        (postRegister users1 registerBody hashed now).1
          = (postRegister users2 registerBody hashed now).1) ∧
    (∀ (compare : JVal → String → Option Bool) (users : List User) (body : LoginBody)
        (c : Nat) (s : Session),
      postLogin compare users body = .json c s →
        ∃ u ∈ users, s.user = u.safe ∧
          s.token = { id := u.id, email := u.email, role := u.role }) := by
  constructor
  · intro users1 users2 user id body registerBody hashed now h
    refine ⟨?_, putUser_reply_eq users1 users2 user id body h, ?_⟩
    · have hs : ∀ users : List User,
          getUsers users user =
            if !requireRole ["admin"] user then .error 403 "Insufficient permissions"
            else .json 200 (users.map User.safe) := fun _ => rfl
      rw [hs users1, hs users2, h]
    · have he := find?_email_isSome_eq users1 users2 registerBody.email h
      unfold postRegister
      simp only [he]
      split_ifs
      · rfl
      · cases hashed <;> rfl
  · intro compare users body c s h
    unfold postLogin at h
    cases hfind : users.find? (fun u => strictEq u.email body.email) with
    | none => simp [hfind] at h
    | some user =>
      simp only [hfind] at h
      cases hc : compare body.password user.password with
      | none => simp [hc] at h
      | some b =>
        cases b with
        | false => simp [hc] at h
        | true =>
          simp only [hc, Reply.json.injEq] at h
          obtain ⟨_, hs⟩ := h
          subst hs
          exact ⟨user, List.mem_of_find?_eq_some hfind, rfl, rfl⟩

/-- Witness of C23: the default users under two different sets of hashes. -/
theorem no_password_in_replies_witness :
    (defaultUsers "hash-a" "hash-b" "hash-c").map User.safe = sampleUsers.map User.safe ∧
    defaultUsers "hash-a" "hash-b" "hash-c" ≠ sampleUsers ∧
    getUsers (defaultUsers "hash-a" "hash-b" "hash-c") adminCaller
      = getUsers sampleUsers adminCaller ∧
    (putUser (defaultUsers "hash-a" "hash-b" "hash-c") adminCaller "u2"
        { name := .str "Jo", email := .str "jo@crm.com", role := .str "rep" }).1
      = (putUser sampleUsers adminCaller "u2"
        { name := .str "Jo", email := .str "jo@crm.com", role := .str "rep" }).1 :=
  have h := no_password_in_replies.1 (defaultUsers "hash-a" "hash-b" "hash-c") sampleUsers
    adminCaller "u2" { name := .str "Jo", email := .str "jo@crm.com", role := .str "rep" }
    guestRegisterBody (some "hash-guest") 1700000000000 (by decide)
  ⟨by decide, by decide, h.1, h.2.1⟩

/-! ## The user routes are for the admin -/

theorem requireRole_admin_iff (user : Caller) :
    requireRole ["admin"] user = true ↔ user.role = .str "admin" := by
  unfold requireRole
  rw [includes_iff]
  simp

/-- C24: a caller whose role is not admin is answered 403 by user list, user
update and user delete, whether or not the id exists, and the users are
unchanged; an admin is answered 404 by user update and by user delete exactly
when no user has the id, and then the users are unchanged. -/
theorem users_admin_only (users : List User) (user : Caller) (id : String) (body : UserBody) :
    (user.role ≠ .str "admin" →
      getUsers users user = .error 403 "Insufficient permissions" ∧
      putUser users user id body = (.error 403 "Insufficient permissions", users) ∧
      deleteUser users user id = (.error 403 "Insufficient permissions", users)) ∧
    (user.role = .str "admin" →
      ((putUser users user id body).1 = .error 404 "User not found"
        ↔ ∀ u ∈ users, u.id ≠ id) ∧
      ((deleteUser users user id).1 = .error 404 "User not found"
        ↔ ∀ u ∈ users, u.id ≠ id) ∧
      ((∀ u ∈ users, u.id ≠ id) →
        (putUser users user id body).2 = users ∧ (deleteUser users user id).2 = users)) := by
  constructor
  · intro hrole
    have hr : requireRole ["admin"] user = false := by
      rw [Bool.eq_false_iff, Ne, requireRole_admin_iff]
      exact hrole
    simp [getUsers, putUser, deleteUser, hr]
  · intro hrole
    have hr : requireRole ["admin"] user = true := (requireRole_admin_iff user).mpr hrole
    have hlen : ((users.filter fun u => decide (u.id ≠ id)).length = users.length)
        ↔ ∀ u ∈ users, u.id ≠ id := by
      rw [List.filter_length_eq_length]
      simp
    have hput : (putUser users user id body).1 = .error 404 "User not found"
        ↔ ∀ u ∈ users, u.id ≠ id := by
      cases hfind : findIndex (fun u : User => decide (u.id = id)) users with
      | none =>
        have hnone := (findIndex_eq_none_iff _ users).mp hfind
        simp only [putUser, hr, hfind, Bool.not_true, Bool.false_eq_true, if_false, true_iff]
        intro u hu
        simpa using hnone u hu
      | some i =>
        obtain ⟨pre, x, post, hxs, hlen', hx, _⟩ := findIndex_eq_some _ users i hfind
        have hget : users[i]? = some x := by
          rw [hxs, ← hlen', getElem?_append_cons_length]
        simp only [putUser, hr, hfind, hget, Bool.not_true, Bool.false_eq_true, if_false,
          reduceCtorEq, false_iff]
        intro hall
        have hmem : x ∈ users := by rw [hxs]; simp
        exact hall x hmem (by simpa using hx)
    have hdel : (deleteUser users user id).1 = .error 404 "User not found"
        ↔ ∀ u ∈ users, u.id ≠ id := by
      by_cases hl : (users.filter fun u => decide (u.id ≠ id)).length = users.length
      · simp only [deleteUser, hr, hl, Bool.not_true, Bool.false_eq_true, if_false, if_true,
          true_iff]
        exact hlen.mp hl
      · simp only [deleteUser, hr, hl, Bool.not_true, Bool.false_eq_true, if_false,
          reduceCtorEq, false_iff]
        exact fun hall => hl (hlen.mpr hall)
    refine ⟨hput, hdel, ?_⟩
    intro hall
    have hfind : findIndex (fun u : User => decide (u.id = id)) users = none :=
      (findIndex_eq_none_iff _ users).mpr fun u hu => by simpa using hall u hu
    constructor
    · simp only [putUser, hr, hfind, Bool.not_true, Bool.false_eq_true, if_false]
    · simp only [deleteUser, hr, hlen.mpr hall, Bool.not_true, Bool.false_eq_true, if_false,
        if_true]

/-- Witness of C24: the manager is refused on an existing id; the admin gets
404 on an id that nobody carries. -/
theorem users_admin_only_witness :
    (getUsers sampleUsers { id := "u2", email := .str "manager@crm.com", role := .str "manager" }
        = .error 403 "Insufficient permissions" ∧
      putUser sampleUsers { id := "u2", email := .str "manager@crm.com", role := .str "manager" }
          "u3" { name := .str "Al", email := .str "al@crm.com", role := .str "admin" }
        = (.error 403 "Insufficient permissions", sampleUsers) ∧
      deleteUser sampleUsers
          { id := "u2", email := .str "manager@crm.com", role := .str "manager" } "u3"
        = (.error 403 "Insufficient permissions", sampleUsers)) ∧
    (putUser sampleUsers adminCaller "u404"
        { name := .str "Al", email := .str "al@crm.com", role := .str "admin" }).1
      = .error 404 "User not found" ∧
    (deleteUser sampleUsers adminCaller "u404").1 = .error 404 "User not found" :=
  ⟨(users_admin_only sampleUsers
      { id := "u2", email := .str "manager@crm.com", role := .str "manager" } "u3"
      { name := .str "Al", email := .str "al@crm.com", role := .str "admin" }).1 (by decide),
   ((users_admin_only sampleUsers adminCaller "u404"
      { name := .str "Al", email := .str "al@crm.com", role := .str "admin" }).2 rfl).1.mpr
      (by decide),
   ((users_admin_only sampleUsers adminCaller "u404"
      { name := .str "Al", email := .str "al@crm.com", role := .str "admin" }).2 rfl).2.1.mpr
      (by decide)⟩

/-! ## Requests without a valid credential -/

/-- C25: a request to a protected route without Authorization header, or with a
header that has no token after the scheme (nothing, or the empty string, after
the first space), is ended by `authenticateToken` with 401: `next()` is not
called, so no handler runs, and the collections are unchanged. -/
theorem no_credential_unauthorized (verify : String → Option Caller) (rt : Runtime)
    (authorization : Option String) (e : Endpoint) (w : World)
    (h : authorization = none ∨
      ∃ authHeader, authorization = some authHeader ∧
        ((split authHeader)[1]? = none ∨ (split authHeader)[1]? = some "")) :
    authenticateToken verify authorization = .error 401 ∧
    serve verify rt authorization e w = (401, w) := by
  have hauth : authenticateToken verify authorization = .error 401 := by
    rcases h with h | ⟨authHeader, h, htoken⟩
    · subst h
      rfl
    · subst h
      by_cases hempty : authHeader = ""
      · simp [authenticateToken, headerToken, hempty]
      · rcases htoken with htoken | htoken
        · simp [authenticateToken, headerToken, hempty, htoken]
        · simp [authenticateToken, headerToken, hempty, htoken]
  exact ⟨hauth, by simp only [serve, hauth]⟩

/-- Witness of C25: the header `Bearer ` with nothing after the space, on the
route that deletes a lead. -/
theorem no_credential_unauthorized_witness :
    (split "Bearer ")[1]? = some "" ∧
    authenticateToken sampleVerify (some "Bearer ") = .error 401 ∧
    serve sampleVerify sampleRuntime (some "Bearer ") (.removeLead "l1") sampleWorld
      = (401, sampleWorld) :=
  have h := no_credential_unauthorized sampleVerify sampleRuntime (some "Bearer ")
    (.removeLead "l1") sampleWorld (Or.inr ⟨"Bearer ", rfl, Or.inr (by decide)⟩)
  ⟨by decide, h.1, h.2⟩

/-- C26, as stated, fails: a request with the header `Bearer expired`, whose
token the verifier rejects, is answered 403, not 401. -/
theorem invalid_credential_counterexample :
    headerToken (some "Bearer expired") = some "expired" ∧
    sampleVerify "expired" = none ∧
    authenticateToken sampleVerify (some "Bearer expired") = .error 403 ∧
    serve sampleVerify sampleRuntime (some "Bearer expired") .listLeads sampleWorld
      = (403, sampleWorld) ∧
    (serve sampleVerify sampleRuntime (some "Bearer expired") .listLeads sampleWorld).1
      ≠ 401 := by
  refine ⟨by decide, by decide, ?_, by decide, by decide⟩
  have h1 : headerToken (some "Bearer expired") = some "expired" := by decide
  have h2 : sampleVerify "expired" = none := by decide
  have h3 : ("expired" : String) ≠ "" := by decide
  simp only [authenticateToken, h1, h2, h3, if_false]

/-- C26, amended: a request to a protected route whose credential is present
but fails verification (malformed, wrongly signed or expired) is ended by
`authenticateToken` with 403; no handler runs and the collections are
unchanged. -/
theorem invalid_credential_forbidden (verify : String → Option Caller) (rt : Runtime)
    (authorization : Option String) (token : String) (e : Endpoint) (w : World)
    (htoken : headerToken authorization = some token) (hpresent : token ≠ "")
    (hverify : verify token = none) :
    authenticateToken verify authorization = .error 403 ∧
    serve verify rt authorization e w = (403, w) := by
  have hauth : authenticateToken verify authorization = .error 403 := by
    simp only [authenticateToken, htoken, hpresent, hverify, if_false]
  exact ⟨hauth, by simp only [serve, hauth]⟩

/-- Witness of the amended C26: a rejected token on the route that creates a lead. -/
theorem invalid_credential_forbidden_witness :
    authenticateToken sampleVerify (some "Bearer expired") = .error 403 ∧
    serve sampleVerify sampleRuntime (some "Bearer expired")
        (.createLead sampleLeadBody 1700000000000 "2024-02-01T00:00:00.000Z") sampleWorld
      = (403, sampleWorld) :=
  invalid_credential_forbidden sampleVerify sampleRuntime (some "Bearer expired") "expired"
    (.createLead sampleLeadBody 1700000000000 "2024-02-01T00:00:00.000Z") sampleWorld
    (by decide) (by decide) (by decide)

/-! ## Failing reads and writes -/

/-- C27, the code at the failing inputs: with a write that fails, lead create
answers 201 although the file still holds the old leads; with a file that
cannot be read, the lead list answers 200 with no leads, and lead create
answers 201 and writes a file that holds the new lead alone. -/
theorem persistence_failure_reported_as_success :
    postLeadsOnFile (some [sampleLead]) false adminCaller sampleLeadBody 1700000000000
        "2024-02-01T00:00:00.000Z"
      = (.json 201 createdLead, some [sampleLead]) ∧
    getLeadsOnFile none adminCaller = .json 200 [] ∧
    postLeadsOnFile none true adminCaller sampleLeadBody 1700000000000
        "2024-02-01T00:00:00.000Z"
      = (.json 201 createdLead, some [createdLead]) := by
  decide

/-! ## Leaving Qualified -/

/-- C28, as stated, fails: the second rep owns a lead with status Qualified and
sends `PUT /api/leads/l2` with status "New"; the handler answers 200, the lead
stays in the store and its status is "New". -/
theorem update_leaves_qualified_counterexample :
    otherLead.status = .str "Qualified" ∧
    putLead [sampleLead, otherLead] otherRep "l2"
        { name := .str "Bob", email := .str "b@b.com", phone := .str "555",
          status := .str "New" }
      = (.json 200 { otherLead with status := .str "New" },
          [sampleLead, { otherLead with status := .str "New" }]) ∧
    (run { leads := [sampleLead, otherLead], opportunities := [] }
        [.updateLead otherRep "l2"
          { name := .str "Bob", email := .str "b@b.com", phone := .str "555",
            status := .str "New" }]).leads.map (fun l => (l.id, l.status))
      = [("l1", .str "New"), ("l2", .str "New")] := by
  decide

theorem getElem?_set_qualified (leads : List Lead) (j : Nat) (updated : Lead) (i : Nat)
    (l found : Lead) (hget : leads[i]? = some l) (hfound : leads[j]? = some found)
    (hq : l.status = .str "Qualified") (hid : sameLeadIdentity updated found)
    (hu : updated.status = .str "Qualified") :
    ∃ l', (leads.set j updated)[i]? = some l' ∧ sameLeadIdentity l' l ∧
      l'.status = .str "Qualified" := by
  by_cases hij : j = i
  · subst hij
    have hlt : j < leads.length := by
      rcases Nat.lt_or_ge j leads.length with h | h
      · exact h
      · rw [List.getElem?_eq_none h] at hget
        simp at hget
    have hfl : found = l := by
      rw [hget] at hfound
      exact (Option.some.inj hfound).symm
    refine ⟨updated, ?_, hfl ▸ hid, hu⟩
    simp [List.getElem?_set_self, hlt]
  · refine ⟨l, ?_, ⟨rfl, rfl, rfl⟩, hq⟩
    rw [List.getElem?_set_ne hij]
    exact hget

/-- C28, amended: a lead with status Qualified keeps its position, its identity
and the status Qualified through every lead create and every convert, by any
caller, and through a lead update whose body carries the status Qualified (an
update stores the status of its body, whatever the stored one was). -/
theorem qualified_kept_by_create_and_convert (s : Store) (r : Request) (i : Nat) (l : Lead)
    (hr : r.KeepsQualified) (hget : s.leads[i]? = some l)
    (hq : l.status = .str "Qualified") :
    ∃ l', (handle s r).leads[i]? = some l' ∧ sameLeadIdentity l' l ∧
      l'.status = .str "Qualified" := by
  have hsame : ∃ l', s.leads[i]? = some l' ∧ sameLeadIdentity l' l ∧
      l'.status = .str "Qualified" := ⟨l, hget, ⟨rfl, rfl, rfl⟩, hq⟩
  cases r with
  | removeLead user id => exact absurd hr (by simp [Request.KeepsQualified])
  | createOpportunity user body now iso => exact hsame
  | updateOpportunity user id body => exact hsame
  | removeOpportunity user id => exact hsame
  | createLead user body now iso =>
    simp only [handle]
    rcases postLeads_cases s.leads user body now iso with ⟨c, msg, hp⟩ | ⟨_, _, hp⟩
    · rw [hp]; exact hsame
    · rw [hp]
      have hlt : i < s.leads.length := by
        rcases Nat.lt_or_ge i s.leads.length with h | h
        · exact h
        · rw [List.getElem?_eq_none h] at hget
          simp at hget
      refine ⟨l, ?_, ⟨rfl, rfl, rfl⟩, hq⟩
      rw [List.getElem?_append_left hlt]
      exact hget
  | convert user id body now iso =>
    simp only [handle]
    rcases convertLead_cases s.leads s.opportunities user id body now iso with
      ⟨c, msg, hp⟩ | ⟨j, found, hfound, hp⟩
    · rw [hp]; exact hsame
    · rw [hp]
      exact getElem?_set_qualified s.leads j _ i l found hget hfound hq ⟨rfl, rfl, rfl⟩ rfl
  | updateLead user id body =>
    simp only [handle]
    rcases putLead_cases s.leads user id body with ⟨c, msg, hp⟩ | ⟨j, found, hfound, _, hp⟩
    · rw [hp]; exact hsame
    · rw [hp]
      exact getElem?_set_qualified s.leads j _ i l found hget hfound hq ⟨rfl, rfl, rfl⟩ hr

/-- Witness of the amended C28: the admin converts the Qualified lead of the
second rep once more; it is still Qualified, at the same position. -/
theorem qualified_kept_by_create_and_convert_witness :
    sampleStore.leads[1]? = some otherLead ∧ otherLead.status = .str "Qualified" ∧
    ∃ l', (handle sampleStore
        (.convert adminCaller "l2" { title := .str "Deal", value := .num 100 } 1700000000001
          "2024-02-01T00:00:01.000Z")).leads[1]? = some l' ∧
      sameLeadIdentity l' otherLead ∧ l'.status = .str "Qualified" :=
  ⟨by decide, by decide,
   qualified_kept_by_create_and_convert sampleStore
    (.convert adminCaller "l2" { title := .str "Deal", value := .num 100 } 1700000000001
      "2024-02-01T00:00:01.000Z") 1 otherLead trivial (by decide) (by decide)⟩

/-! ## Adding up the dashboard counts -/

theorem foldl_jsAdd_nums (rt : Runtime) (m : List (String × JVal)) (qs : List ℚ) (a : ℚ)
    (h : m.map Prod.snd = qs.map JVal.num) :
    m.foldl (fun s p => jsAdd rt s p.2) (.num a) = .num (a + qs.sum) := by
  induction m generalizing qs a with
  | nil =>
    cases qs with
    | nil => simp
    | cons q qs => simp at h
  | cons p m ih =>
    cases qs with
    | nil => simp at h
    | cons q qs =>
      simp only [List.map_cons, List.cons.injEq] at h
      simp only [List.foldl_cons, h.1, jsAdd_num_num, List.sum_cons]
      rw [ih qs (a + q) h.2]
      congr 1
      ring

theorem ownProp_mem (acc : List (String × JVal)) (key : String) (x : JVal)
    (h : ownProp acc key = some x) : x ∈ acc.map Prod.snd := by
  induction acc with
  | nil => simp [ownProp] at h
  | cons p rest ih =>
    obtain ⟨k, y⟩ := p
    by_cases hk : k = key
    · simp only [ownProp, hk, if_true, Option.some.injEq] at h
      simp [h]
    · simp only [ownProp, hk, if_false] at h
      simp [ih h]

theorem assign_of_ownProp_none (acc : List (String × JVal)) (key : String) (v : JVal)
    (h : ownProp acc key = none) : assign acc key v = acc ++ [(key, v)] := by
  induction acc with
  | nil => rfl
  | cons p rest ih =>
    obtain ⟨k, y⟩ := p
    by_cases hk : k = key
    · simp [ownProp, hk] at h
    · simp only [ownProp, hk, if_false] at h
      simp [assign, hk, ih h]

theorem assign_of_ownProp_num (acc : List (String × JVal)) (key : String) (q : ℚ)
    (qs : List ℚ) (h : ownProp acc key = some (.num q))
    (hqs : acc.map Prod.snd = qs.map JVal.num) :
    ∃ qs' : List ℚ, (assign acc key (.num (q + 1))).map Prod.snd = qs'.map JVal.num ∧
      qs'.sum = qs.sum + 1 := by
  induction acc generalizing qs with
  | nil => simp [ownProp] at h
  | cons p rest ih =>
    obtain ⟨k, y⟩ := p
    cases qs with
    | nil => simp at hqs
    | cons q0 qs0 =>
      simp only [List.map_cons, List.cons.injEq] at hqs
      by_cases hk : k = key
      · simp only [ownProp, hk, if_true, Option.some.injEq] at h
        have hq0 : q0 = q := by
          have := hqs.1
          rw [h] at this
          exact (JVal.num.inj this).symm
        refine ⟨(q + 1) :: qs0, by simp [assign, hk, hqs.2], ?_⟩
        simp only [List.sum_cons, hq0]
        ring
      · simp only [ownProp, hk, if_false] at h
        obtain ⟨qs', h1, h2⟩ := ih qs0 h hqs.2
        refine ⟨q0 :: qs', by simp [assign, hk, h1, hqs.1], ?_⟩
        simp only [List.sum_cons, h2]
        ring

/-- One `increment` under a key that is not inherited from `Object.prototype`
keeps every value a number and raises their sum by one. -/
theorem increment_sum (rt : Runtime) (acc : List (String × JVal)) (key : String)
    (qs : List ℚ) (hkey : key ∉ inheritedNames)
    (hqs : acc.map Prod.snd = qs.map JVal.num) :
    ∃ qs' : List ℚ, (increment rt acc key).map Prod.snd = qs'.map JVal.num ∧
      qs'.sum = qs.sum + 1 := by
  have hproto : key ≠ "__proto__" := fun e => hkey (by rw [e]; decide)
  simp only [increment, hproto, if_false]
  cases hown : ownProp acc key with
  | none =>
    have hv : jsAdd rt (orElse (getProp acc key) (.num 0)) (.num 1) = .num 1 := by
      simp [getProp, hown, hkey, orElse, truthy, jsAdd_num_num]
    rw [hv, assign_of_ownProp_none acc key _ hown]
    exact ⟨qs ++ [1], by simp [hqs], by simp⟩
  | some x =>
    have hx := ownProp_mem acc key x hown
    rw [hqs] at hx
    obtain ⟨q, _, hq⟩ := List.mem_map.mp hx
    subst hq
    have hv : jsAdd rt (orElse (getProp acc key) (.num 0)) (.num 1) = .num (q + 1) := by
      simp only [getProp, hown, orElse_num_zero, jsAdd_num_num]
    rw [hv]
    exact assign_of_ownProp_num acc key q qs hown hqs

theorem foldl_increment_sum (rt : Runtime) (keys : List String)
    (hkeys : ∀ k ∈ keys, k ∉ inheritedNames) (acc : List (String × JVal)) (qs : List ℚ)
    (hqs : acc.map Prod.snd = qs.map JVal.num) :
    ∃ qs' : List ℚ, (keys.foldl (increment rt) acc).map Prod.snd = qs'.map JVal.num ∧
      qs'.sum = qs.sum + keys.length := by
  induction keys generalizing acc qs with
  | nil => exact ⟨qs, hqs, by simp⟩
  | cons k ks ih =>
    obtain ⟨qs1, h1, h2⟩ := increment_sum rt acc k qs (hkeys k (List.mem_cons_self _ _)) hqs
    obtain ⟨qs2, h3, h4⟩ := ih (fun k' hk' => hkeys k' (List.mem_cons_of_mem _ hk'))
      (increment rt acc k) qs1 h1
    refine ⟨qs2, by simpa using h3, ?_⟩
    rw [h4, h2]
    simp only [List.length_cons, Nat.cast_add, Nat.cast_one]
    ring

/-- When no status key is inherited from `Object.prototype`, the values of the
map that the reduce builds add up to the number of records. -/
theorem sumValues_counts (rt : Runtime) (keys : List String)
    (hkeys : ∀ k ∈ keys, k ∉ inheritedNames) :
    sumValues rt (keys.foldl (increment rt) []) = .num keys.length := by
  obtain ⟨qs, h1, h2⟩ := foldl_increment_sum rt keys hkeys [] [] rfl
  unfold sumValues
  rw [foldl_jsAdd_nums rt _ qs 0 h1, h2]
  simp

/-- When no status and no stage of the store has a key inherited from
`Object.prototype`, the counts of `leadsByStatus` add up to `totalLeads` and the
counts of `opportunitiesByStage` to `totalOpportunities`. -/
theorem stats_counts_add_up (rt : Runtime) (leads : List Lead)
    (opportunities : List Opportunity) (user : Caller)
    (hl : ∀ l ∈ leads, toStr rt l.status ∉ inheritedNames)
    (ho : ∀ o ∈ opportunities, toStr rt o.stage ∉ inheritedNames) :
    ∃ st : Stats, getDashboardStats rt leads opportunities user = .json 200 st ∧
      sumValues rt st.leadsByStatus = .num st.totalLeads ∧
      sumValues rt st.opportunitiesByStage = .num st.totalOpportunities := by
  refine ⟨_, rfl, ?_, ?_⟩
  · have hvis : ∀ l ∈ (if isRep user then leads.filter fun l => decide (l.ownerId = user.id)
        else leads), toStr rt l.status ∉ inheritedNames := by
      intro l hmem
      split_ifs at hmem
      · exact hl l (List.mem_of_mem_filter hmem)
      · exact hl l hmem
    have := sumValues_counts rt
      ((if isRep user then leads.filter fun l => decide (l.ownerId = user.id)
        else leads).map fun l => toStr rt l.status)
      (by
        intro k hk
        obtain ⟨l, hmem, rfl⟩ := List.mem_map.mp hk
        exact hvis l hmem)
    rw [List.foldl_map, List.length_map] at this
    exact this
  · have hvis : ∀ o ∈ (if isRep user then
        opportunities.filter fun o => decide (o.ownerId = user.id) else opportunities),
        toStr rt o.stage ∉ inheritedNames := by
      intro o hmem
      split_ifs at hmem
      · exact ho o (List.mem_of_mem_filter hmem)
      · exact ho o hmem
    have := sumValues_counts rt
      ((if isRep user then opportunities.filter fun o => decide (o.ownerId = user.id)
        else opportunities).map fun o => toStr rt o.stage)
      (by
        intro k hk
        obtain ⟨o, hmem, rfl⟩ := List.mem_map.mp hk
        exact hvis o hmem)
    rw [List.foldl_map, List.length_map] at this
    exact this

/-- C29, the code at the failing inputs: with one visible lead whose status is
"__proto__", `totalLeads` is 1 and `leadsByStatus` is empty, so its counts add
up to 0; with one visible opportunity whose stage is "__proto__",
`totalOpportunities` is 1 and the counts of `opportunitiesByStage` add up to 0.
A status that is missing is counted, under the key "undefined". -/
theorem stats_counts_do_not_add_up :
    ∀ rt : Runtime,
      (∃ st : Stats,
        getDashboardStats rt [{ sampleLead with status := .str "__proto__" }] [] repCaller
          = .json 200 st ∧
        st.totalLeads = 1 ∧ st.leadsByStatus = [] ∧
        sumValues rt st.leadsByStatus = .num 0) ∧
      (∃ st : Stats,
        getDashboardStats rt [] [{ sampleOpportunity with stage := .str "__proto__" }]
          repCaller = .json 200 st ∧
        st.totalOpportunities = 1 ∧ st.opportunitiesByStage = [] ∧
        sumValues rt st.opportunitiesByStage = .num 0) ∧
      (∃ st : Stats,
        getDashboardStats rt [{ sampleLead with status := .undefined }] [] repCaller
          = .json 200 st ∧
        st.totalLeads = 1 ∧ st.leadsByStatus = [("undefined", .num 1)] ∧
        sumValues rt st.leadsByStatus = .num 1) := by
  intro rt
  refine ⟨⟨_, rfl, ?_, ?_, ?_⟩, ⟨_, rfl, ?_, ?_, ?_⟩, ⟨_, rfl, ?_, ?_, ?_⟩⟩
  · simp [repCaller, sampleLead, isRep, strictEq]
  · simp [repCaller, sampleLead, isRep, strictEq, increment, toStr]
  · simp [repCaller, sampleLead, isRep, strictEq, increment, toStr, sumValues]
  · simp [repCaller, sampleOpportunity, isRep, strictEq]
  · simp [repCaller, sampleOpportunity, isRep, strictEq, increment, toStr]
  · simp [repCaller, sampleOpportunity, isRep, strictEq, increment, toStr, sumValues]
  · simp [repCaller, sampleLead, isRep, strictEq]
  · simp [repCaller, sampleLead, isRep, strictEq, increment, assign, getProp, ownProp, jsAdd,
      orElse, truthy, toNumber, toStr, inheritedNames]
  · simp [repCaller, sampleLead, isRep, strictEq, increment, assign, getProp, ownProp, jsAdd,
      orElse, truthy, toNumber, toStr, inheritedNames, sumValues]

/-! ## Create, then delete -/

/-- C30, as stated, fails in its second part: the store holds a lead of the
second rep with the id `l1700000000000`; the default rep creates a lead at the
clock reading 1700000000000 and then deletes that id: the delete is answered
403 and removes nothing, the older lead included. -/
theorem delete_after_collision_counterexample :
    (postLeads [collidingLead] repCaller sampleLeadBody 1700000000000
        "2024-02-01T00:00:00.000Z")
      = (.json 201 { createdLead with ownerId := "u3" },
          [collidingLead, { createdLead with ownerId := "u3" }]) ∧
    collidingLead.id = ({ createdLead with ownerId := "u3" } : Lead).id ∧
    deleteLead [collidingLead, { createdLead with ownerId := "u3" }] repCaller "l1700000000000"
      = (.error 403 "Access denied", [collidingLead, { createdLead with ownerId := "u3" }]) := by
  decide

/-- C30, amended: after a lead create that succeeds, the delete of the generated
id by the same caller restores the leads exactly when no older lead carries the
id. When an older lead carries it, the delete is decided on the first such
lead: a caller the ownership gate lets through (any role but rep, or its owner)
is answered 200 and every lead with the id is removed, the older ones
included; a rep who does not own it is answered 403 and nothing is removed. -/
theorem create_then_delete (leads : List Lead) (user : Caller) (body : LeadBody) (now : Nat)
    (iso : String) (c : Nat) (newLead : Lead) (leads' : List Lead)
    (hcreate : postLeads leads user body now iso = (.json c newLead, leads')) :
    ((∀ l ∈ leads, l.id ≠ newLead.id) →
      deleteLead leads' user newLead.id = (.json 200 "Lead deleted successfully", leads)) ∧
    (∀ (pre post : List Lead) (old : Lead), leads = pre ++ old :: post →
      (∀ l ∈ pre, l.id ≠ newLead.id) → old.id = newLead.id →
      ((user.role ≠ .str "rep" ∨ old.ownerId = user.id) →
        deleteLead leads' user newLead.id =
          (.json 200 "Lead deleted successfully",
           leads.filter fun l => decide (l.id ≠ newLead.id)) ∧
        old ∉ leads.filter fun l => decide (l.id ≠ newLead.id)) ∧
      (user.role = .str "rep" → old.ownerId ≠ user.id →
        deleteLead leads' user newLead.id = (.error 403 "Access denied", leads'))) := by
  have hshape : leads' = leads ++ [newLead] ∧ newLead.ownerId = user.id := by
    rcases postLeads_cases leads user body now iso with ⟨c', msg, hp⟩ | ⟨_, _, hp⟩
    · rw [hp] at hcreate
      simp at hcreate
    · rw [hp] at hcreate
      simp only [Prod.mk.injEq, Reply.json.injEq] at hcreate
      obtain ⟨⟨_, hl⟩, hls⟩ := hcreate
      subst hl
      exact ⟨hls.symm, rfl⟩
  obtain ⟨hleads', howner⟩ := hshape
  subst hleads'
  constructor
  · intro hfresh
    have hkeep : leads.filter (fun l => decide (l.id ≠ newLead.id)) = leads := by
      rw [List.filter_eq_self]
      intro l hl
      simpa using hfresh l hl
    simp only [deleteLead, findIndex_lead leads [] newLead hfresh, getElem?_append_cons_length,
      gate_open user newLead.ownerId (Or.inr howner), Bool.false_eq_true, if_false,
      List.filter_append, hkeep]
    simp
  · intro pre post old hleads hfirst hid
    subst hleads
    have hfirst' : ∀ l ∈ pre, l.id ≠ old.id := fun l hl => hid ▸ hfirst l hl
    have hfind : findIndex (fun l => decide (l.id = newLead.id))
        ((pre ++ old :: post) ++ [newLead]) = some pre.length := by
      rw [← hid, List.append_assoc, List.cons_append]
      exact findIndex_lead pre (post ++ [newLead]) old hfirst'
    have hget : ((pre ++ old :: post) ++ [newLead])[pre.length]? = some old := by
      rw [List.append_assoc, List.cons_append]
      exact getElem?_append_cons_length pre (post ++ [newLead]) old
    constructor
    · intro hperm
      constructor
      · simp only [deleteLead, hfind, hget, gate_open user old.ownerId hperm,
          Bool.false_eq_true, if_false, List.filter_append]
        simp
      · intro hmem
        have := (List.mem_filter.mp hmem).2
        simp [hid] at this
    · intro hrep hown
      simp only [deleteLead, hfind, hget, gate_closed user old.ownerId hrep hown, if_true]

/-- Witness of the amended C30: the default rep creates a lead in the sample
store at a fresh clock reading and deletes it again. -/
theorem create_then_delete_witness :
    postLeads sampleStore.leads repCaller sampleLeadBody 1700000000000
        "2024-02-01T00:00:00.000Z"
      = (.json 201 { createdLead with ownerId := "u3" },
          sampleStore.leads ++ [{ createdLead with ownerId := "u3" }]) ∧
    deleteLead (sampleStore.leads ++ [{ createdLead with ownerId := "u3" }]) repCaller
        ({ createdLead with ownerId := "u3" } : Lead).id
      = (.json 200 "Lead deleted successfully", sampleStore.leads) :=
  ⟨by decide,
   (create_then_delete sampleStore.leads repCaller sampleLeadBody 1700000000000
      "2024-02-01T00:00:00.000Z" 201 { createdLead with ownerId := "u3" }
      (sampleStore.leads ++ [{ createdLead with ownerId := "u3" }]) (by decide)).1
      (by decide)⟩

/-! ## Two records with one id -/

/-- C6, as stated, fails: the leads hold two records with the id
`l1700000000000`, the first of the default rep, the second of the second rep.
The second rep, who owns the second record, converts the id with a valid body
and is answered 403, nothing being written. The admin converts the id: the
first record gets status Qualified, the second keeps status New, and the new
opportunity has the ownerId `u3`, not the ownerId `u4` of the second record. -/
theorem convert_shared_id_counterexample :
    collidingLead ∈ twinLeads ∧ collidingLead.ownerId = otherRep.id ∧
    collidingLead.status = .str "New" ∧
    convertLead twinLeads [] otherRep collidingLead.id
        { title := .str "Deal", value := .num 100 } 1700000000001 "2024-02-01T00:00:01.000Z"
      = (.error 403 "Access denied", twinLeads, []) ∧
    convertLead twinLeads [] adminCaller collidingLead.id
        { title := .str "Deal", value := .num 100 } 1700000000001 "2024-02-01T00:00:01.000Z"
      = (.json 201
          { id := "o1700000000001", title := .str "Deal", value := .num 100,
            stage := .str "Discovery", ownerId := "u3", leadId := some "l1700000000000",
            createdAt := "2024-02-01T00:00:01.000Z" },
         [{ repCreatedLead with status := .str "Qualified" }, collidingLead],
         [{ id := "o1700000000001", title := .str "Deal", value := .num 100,
            stage := .str "Discovery", ownerId := "u3", leadId := some "l1700000000000",
            createdAt := "2024-02-01T00:00:01.000Z" }]) := by
  decide

/-- C10, as stated, fails: the two reps each create a lead at the clock reading
1700000000000, which leaves two records with the id `l1700000000000`. The
default rep, whose id is not the ownerId of the second record, updates, deletes
and converts that id: each request is answered with success, not 403; the
delete removes the record of the second rep as well. -/
theorem rep_acts_on_shared_id_counterexample :
    run emptyStore
        [.createLead repCaller sampleLeadBody 1700000000000 "2024-02-01T00:00:00.000Z",
         .createLead otherRep collidingBody 1700000000000 "2024-02-01T00:00:00.000Z"]
      = { leads := twinLeads, opportunities := [] } ∧
    repCaller.role = .str "rep" ∧ collidingLead ∈ twinLeads ∧
    collidingLead.ownerId ≠ repCaller.id ∧
    deleteLead twinLeads repCaller collidingLead.id
      = (.json 200 "Lead deleted successfully", []) ∧
    putLead twinLeads repCaller collidingLead.id sampleLeadBody
      = (.json 200 repCreatedLead, twinLeads) ∧
    (convertLead twinLeads [] repCaller collidingLead.id
        { title := .str "Deal", value := .num 100 } 1700000000001
        "2024-02-01T00:00:01.000Z").1.code = 201 := by
  decide

/-- C12, as stated, fails: of the two records with the id `l1700000000000`, the
second belongs to the second rep. Its owner updates the id and is answered 403,
nothing being written; the admin updates the id and the first record takes the
supplied values, the second record staying as it was. -/
theorem update_shared_id_counterexample :
    collidingLead ∈ twinLeads ∧ collidingLead.ownerId = otherRep.id ∧
    putLead twinLeads otherRep collidingLead.id
        { name := .str "Bobby", email := .str "bobby@b.com", phone := .undefined,
          status := .undefined }
      = (.error 403 "Access denied", twinLeads) ∧
    putLead twinLeads adminCaller collidingLead.id
        { name := .str "Bobby", email := .str "bobby@b.com", phone := .undefined,
          status := .undefined }
      = (.json 200
          { repCreatedLead with
            name := .str "Bobby", email := .str "bobby@b.com", phone := .undefined,
            status := .undefined },
         [{ repCreatedLead with
            name := .str "Bobby", email := .str "bobby@b.com", phone := .undefined,
            status := .undefined }, collidingLead]) := by
  decide

/-- C13, as stated, fails: of the two records with the id `l1700000000000`, the
second belongs to the second rep. Its owner deletes the id and is answered 403,
both records staying; the admin deletes the id and both records are removed,
the record of the default rep with the one of the second rep. -/
theorem delete_shared_id_counterexample :
    collidingLead ∈ twinLeads ∧ collidingLead.ownerId = otherRep.id ∧
    repCreatedLead ≠ collidingLead ∧
    deleteLead twinLeads otherRep collidingLead.id
      = (.error 403 "Access denied", twinLeads) ∧
    deleteLead (sampleLead :: twinLeads) adminCaller collidingLead.id
      = (.json 200 "Lead deleted successfully", [sampleLead]) := by
  decide

end CRM
